import Mathlib

/-!
ebiten-interactive: widget interaction state machines

A shallow embedding of `interact/button/button.go` and
`interact/textfield/textfield.go`, with the properties of their `Update`
state machines.

Modelling conventions

* Go `int` is `Int`. Every integer the widgets compute is a string length, a
  cursor inside a string, or `MaxLength - len(Text)`; none of them leaves the
  64-bit range when `MaxLength` is non-negative, so no wrap-around is modelled.
* Go `string` is its byte sequence, `List Nat` with every element below 256.
  `len` is `List.length`, `s[:n]` is `goSliceTo`, `s[n:]` is `goSliceFrom`
  (both fail, as the Go run time panics, when the index is out of range).
* Go `rune` is `Int`; `string(rune)` is the UTF-8 encoding `runeToString`.
* Go `float32` is modelled by the rational number it denotes; every arithmetic
  operation and every conversion to float32 rounds its exact result with `f32`
  (round to nearest, ties to even, 24-bit significand, subnormals below
  `2 ^ (-126)`). NaN and the infinities are not modelled.
* The input backend (ebiten / inpututil / clipboard) is a record of the values
  the calls return during one frame.
-/

namespace Interact

/-! ## float32 -/

/-- Round a rational to the nearest integer, ties to the even neighbour. -/
def roundHalfEven (x : ℚ) : ℤ :=
  if x - ⌊x⌋ < 1 / 2 then ⌊x⌋
  else if 1 / 2 < x - ⌊x⌋ then ⌊x⌋ + 1
  else if ⌊x⌋ % 2 = 0 then ⌊x⌋ else ⌊x⌋ + 1

/-- The binary exponent used for `x`: `⌊log₂ |x|⌋`, at least `-126`
(below that float32 values are subnormal and share the exponent `-126`). -/
def f32Exp (x : ℚ) : ℤ := max (Int.log 2 |x|) (-126)

/-- Round `x` to a multiple of `2 ^ (E - 23)`, the spacing of float32 values
with binary exponent `E`. -/
def roundAt (E : ℤ) (x : ℚ) : ℚ :=
  (roundHalfEven (x / 2 ^ (E - 23)) : ℚ) * 2 ^ (E - 23)

/-- The float32 nearest to the rational `x` (IEEE 754 binary32, round to
nearest even; overflow to infinity is not modelled). -/
def f32 (x : ℚ) : ℚ := roundAt (f32Exp x) x

/-! ## Shared value types -/

/-- A Go string: its bytes. -/
abbrev GoString := List Nat

/-- Bytes of an ASCII literal. -/
def ascii (s : String) : GoString := s.data.map Char.toNat

/-- The type `color.RGBA`: four 8-bit channels. -/
structure RGBA where
  R : Nat
  G : Nat
  B : Nat
  A : Nat
deriving DecidableEq, Repr

/-- The interface `font.Face`: `none` is the nil interface, `some h` a face. -/
abbrev FontFace := Option Nat

/-- The conversion `uint8(f)` of a float32 value: the fraction is discarded and the low
8 bits are kept, as the Go compiler does by converting through a 32-bit integer (the
language leaves the result open when `f` is outside `[0, 256)`). -/
def uint8OfFloat (x : ℚ) : Nat := ((if 0 ≤ x then ⌊x⌋ else ⌈x⌉) % 256).toNat

/-- The uint8 difference `a - b`, which wraps modulo 256. -/
def uint8Sub (a b : Nat) : Nat := (a + (256 - b % 256)) % 256

/-! ## Package button -/

namespace button

/-- Rect defines a rectangle with float32 coordinates. -/
structure Rect where
  X : ℚ
  Y : ℚ
  W : ℚ
  H : ℚ
deriving DecidableEq

def NewRect (x y w h : ℚ) : Rect := ⟨x, y, w, h⟩

/-- The hit test `pointInRect(x, y, r)`; `r.X+r.W` and `r.Y+r.H` are float32 sums. -/
def pointInRect (x y : ℚ) (r : Rect) : Bool :=
  decide (x ≥ r.X) && decide (x ≤ f32 (r.X + r.W)) &&
    decide (y ≥ r.Y) && decide (y ≤ f32 (r.Y + r.H))

structure Button where
  Bounds : Rect
  Label : GoString
  BackgroundColor : RGBA
  HoverColor : RGBA
  PressedColor : RGBA
  BorderColor : RGBA
  TextColor : RGBA
  FontSize : Int
  FontFace : FontFace
  IsHovered : Bool
  IsPressed : Bool
  AnimationProgress : ℚ
  Padding : ℚ
  CornerRadius : ℚ
  Enabled : Bool
  Invisible : Bool
  Uneditable : Bool
  UseRoundedCorners : Bool
  prevMouseDown : Bool
  clicked : Bool
deriving DecidableEq

/-- The constructor `NewButton`; `DefaultFont` is the package variable it reads. -/
def NewButton (DefaultFont : FontFace) (x y width height : ℚ) (label : GoString) : Button :=
  { Bounds := NewRect x y width height
    Label := label
    BackgroundColor := ⟨211, 211, 211, 255⟩
    HoverColor := ⟨200, 200, 200, 255⟩
    PressedColor := ⟨169, 169, 169, 255⟩
    BorderColor := ⟨0, 0, 0, 255⟩
    TextColor := ⟨0, 0, 0, 255⟩
    FontSize := 20
    FontFace := DefaultFont
    IsHovered := false
    IsPressed := false
    AnimationProgress := 0
    Padding := 5
    CornerRadius := 5
    Enabled := true
    Invisible := false
    Uneditable := false
    UseRoundedCorners := true
    prevMouseDown := false
    clicked := false }

def SetColors (b : Button) (background hover pressed border text : RGBA) : Button :=
  { b with BackgroundColor := background, HoverColor := hover, PressedColor := pressed,
           BorderColor := border, TextColor := text }

def SetFontSize (b : Button) (size : Int) : Button := { b with FontSize := size }

def SetCornerRadius (b : Button) (radius : ℚ) : Button := { b with CornerRadius := radius }

def SetPadding (b : Button) (padding : ℚ) : Button := { b with Padding := padding }

def SetEnabled (b : Button) (enabled : Bool) : Button := { b with Enabled := enabled }

def SetInvisible (b : Button) (invisible : Bool) : Button := { b with Invisible := invisible }

def SetUneditable (b : Button) (uneditable : Bool) : Button := { b with Uneditable := uneditable }

def SetRoundedCorners (b : Button) (rounded : Bool) : Button :=
  { b with UseRoundedCorners := rounded }

/-- What the input backend returns during one call of `Button.Update`. -/
structure Input where
  /-- The pair `ebiten.CursorPosition()`. -/
  cursorX : Int
  cursorY : Int
  /-- The flag `ebiten.IsMouseButtonPressed(ebiten.MouseButtonLeft)`. -/
  mouseLeftPressed : Bool
deriving DecidableEq

/-- The local `animationSpeed := float32(8.0)`. -/
def animationSpeed : ℚ := f32 8

/-- The local `frameTime := float32(1.0 / 60.0)`. -/
def frameTime : ℚ := f32 (1 / 60)

/-- The animation block of `Update`: move `progress` towards `targetProgress`
by `frameTime * animationSpeed`, clamping at the target. The product and the sum
(or difference) are rounded one after the other, as two float32 operations. -/
def stepAnimation (progress targetProgress : ℚ) : ℚ :=
  if progress < targetProgress then
    let p := f32 (progress + f32 (frameTime * animationSpeed))
    if p > targetProgress then targetProgress else p
  else if progress > targetProgress then
    let p := f32 (progress - f32 (frameTime * animationSpeed))
    if p < targetProgress then targetProgress else p
  else progress

/-- The method `Button.Update`. -/
def Update (b : Button) (inp : Input) : Button :=
  if b.Uneditable then b
  else if !b.Enabled then { b with IsHovered := false, IsPressed := false }
  else
    let mouseX := f32 (inp.cursorX : ℚ)
    let mouseY := f32 (inp.cursorY : ℚ)
    let hovered := pointInRect mouseX mouseY b.Bounds
    let curMouseDown := inp.mouseLeftPressed
    let pressed := hovered && curMouseDown
    let clicked := hovered && !curMouseDown && b.prevMouseDown
    let targetProgress : ℚ := if pressed then 1 else if hovered then 1 / 2 else 0
    { b with IsHovered := hovered
             IsPressed := pressed
             clicked := clicked
             prevMouseDown := curMouseDown
             AnimationProgress := stepAnimation b.AnimationProgress targetProgress }

/-- The method `Button.IsClicked`. -/
def IsClicked (b : Button) : Bool := b.Enabled && b.IsHovered && b.clicked

/-- One channel of `lerpColor`: `uint8(float32(c2-c1)*t + float32(c1))`, the
difference taken in uint8, the product and the sum rounded to float32. -/
def lerpChannel (c1 c2 : Nat) (t : ℚ) : Nat :=
  uint8OfFloat (f32 (f32 (f32 (uint8Sub c2 c1 : ℚ) * t) + f32 (c1 : ℚ)))

def lerpColor (c1 c2 : RGBA) (t : ℚ) : RGBA :=
  { R := lerpChannel c1.R c2.R t
    G := lerpChannel c1.G c2.G t
    B := lerpChannel c1.B c2.B t
    A := lerpChannel c1.A c2.A t }

def fade (c : RGBA) (factor : ℚ) : RGBA :=
  { R := c.R, G := c.G, B := c.B, A := uint8OfFloat (f32 (f32 (c.A : ℚ) * factor)) }

/-- The colour selection of `Button.Draw`: the value of its local `currentColor`. -/
def currentColor (b : Button) : RGBA :=
  if !b.Enabled then fade b.BackgroundColor (1 / 2)
  else if b.AnimationProgress ≤ 1 / 2 then
    lerpColor b.BackgroundColor b.HoverColor (f32 (b.AnimationProgress * 2))
  else
    lerpColor b.HoverColor b.PressedColor (f32 (f32 (b.AnimationProgress - 1 / 2) * 2))

/-- One call on a button: `Update` with the frame input, or a setter. -/
inductive Op where
  | update (inp : Input)
  | setColors (background hover pressed border text : RGBA)
  | setFontSize (size : Int)
  | setCornerRadius (radius : ℚ)
  | setPadding (padding : ℚ)
  | setEnabled (enabled : Bool)
  | setInvisible (invisible : Bool)
  | setUneditable (uneditable : Bool)
  | setRoundedCorners (rounded : Bool)

def Op.apply (b : Button) : Op → Button
  | .update inp => Update b inp
  | .setColors bg hv pr bd tx => SetColors b bg hv pr bd tx
  | .setFontSize n => SetFontSize b n
  | .setCornerRadius r => SetCornerRadius b r
  | .setPadding p => SetPadding b p
  | .setEnabled e => SetEnabled b e
  | .setInvisible i => SetInvisible b i
  | .setUneditable u => SetUneditable b u
  | .setRoundedCorners r => SetRoundedCorners b r

/-- Run a sequence of calls, first to last. -/
def run (b : Button) (ops : List Op) : Button := ops.foldl Op.apply b

end button

/-! ## Go strings -/

/-- Why a call aborts the process. -/
inductive Panic where
  /-- A run-time panic: slice bounds out of range. -/
  | sliceOutOfRange
  /-- The explicit `panic` of `TextField.Update` when `clip.PasteClip` fails. -/
  | clipboardFailure
deriving DecidableEq, Repr

/-- The slice expression `s[:n]`. -/
def goSliceTo (s : GoString) (n : Int) : Except Panic GoString :=
  if 0 ≤ n ∧ n ≤ (s.length : Int) then .ok (s.take n.toNat) else .error .sliceOutOfRange

/-- The slice expression `s[n:]`. -/
def goSliceFrom (s : GoString) (n : Int) : Except Panic GoString :=
  if 0 ≤ n ∧ n ≤ (s.length : Int) then .ok (s.drop n.toNat) else .error .sliceOutOfRange

/-- The bytes of U+FFFD, which `string(r)` yields for an invalid rune. -/
def runeError : GoString := [0xEF, 0xBF, 0xBD]

/-- The conversion `string(r)` of a rune: its UTF-8 encoding, and the encoding
of U+FFFD for surrogates and values outside the Unicode range. -/
def runeToString (r : Int) : GoString :=
  if r < 0 then runeError
  else
    let n := r.toNat
    if n < 0x80 then [n]
    else if n < 0x800 then [0xC0 + n / 64, 0x80 + n % 64]
    else if 0xD800 ≤ n ∧ n ≤ 0xDFFF then runeError
    else if n < 0x10000 then [0xE0 + n / 4096, 0x80 + n / 64 % 64, 0x80 + n % 64]
    else if n ≤ 0x10FFFF then
      [0xF0 + n / 262144, 0x80 + n / 4096 % 64, 0x80 + n / 64 % 64, 0x80 + n % 64]
    else runeError

/-! ## Package textfield -/

namespace textfield

/-- Rect defines a rectangle with float32 coordinates. -/
structure Rect where
  X : ℚ
  Y : ℚ
  W : ℚ
  H : ℚ
deriving DecidableEq

def NewRect (x y w h : ℚ) : Rect := ⟨x, y, w, h⟩

/-- The hit test `pointInRect(x, y, r)`; `r.X+r.W` and `r.Y+r.H` are float32 sums. -/
def pointInRect (x y : ℚ) (r : Rect) : Bool :=
  decide (x ≥ r.X) && decide (x ≤ f32 (r.X + r.W)) &&
    decide (y ≥ r.Y) && decide (y ≤ f32 (r.Y + r.H))

structure TextField where
  Bounds : Rect
  Text : GoString
  MaxLength : Int
  BackgroundColor : RGBA
  BorderColor : RGBA
  TextColor : RGBA
  FontSize : Int
  FontFace : FontFace
  IsActive : Bool
  CursorPosition : Int
  CursorBlinkTimer : ℚ
  BackspaceHoldTimer : ℚ
  Invisible : Bool
  Uneditable : Bool
  Placeholder : GoString
deriving DecidableEq

/-- The constructor `NewTextField`; `DefaultFont` is the package variable it reads. -/
def NewTextField (DefaultFont : FontFace) (x y width height : ℚ) (maxLength : Int) :
    TextField :=
  { Bounds := NewRect x y width height
    Text := []
    MaxLength := maxLength
    BackgroundColor := ⟨255, 255, 255, 255⟩
    BorderColor := ⟨0, 0, 0, 255⟩
    TextColor := ⟨0, 0, 0, 255⟩
    FontSize := 20
    FontFace := DefaultFont
    IsActive := false
    CursorPosition := 0
    CursorBlinkTimer := 0
    BackspaceHoldTimer := 0
    Invisible := false
    Uneditable := false
    Placeholder := [] }

def SetColors (tf : TextField) (background border text : RGBA) : TextField :=
  { tf with BackgroundColor := background, BorderColor := border, TextColor := text }

def SetFontSize (tf : TextField) (fontSize : Int) : TextField := { tf with FontSize := fontSize }

def SetInvisible (tf : TextField) (invisible : Bool) : TextField :=
  { tf with Invisible := invisible }

def SetUneditable (tf : TextField) (uneditable : Bool) : TextField :=
  { tf with Uneditable := uneditable }

def SetPlaceholder (tf : TextField) (placeholder : GoString) : TextField :=
  { tf with Placeholder := placeholder }

def SetFont (tf : TextField) (face : FontFace) : TextField := { tf with FontFace := face }

/-- What the input backend and the clipboard return during one call of
`TextField.Update`. -/
structure Input where
  /-- The flag `inpututil.IsMouseButtonJustPressed(ebiten.MouseButtonLeft)`. -/
  mouseLeftJustPressed : Bool
  /-- The pair `ebiten.CursorPosition()`. -/
  cursorX : Int
  cursorY : Int
  /-- The runes `ebiten.InputChars()`, in typing order. -/
  inputChars : List Int
  /-- The flags `inpututil.IsKeyJustPressed(k)` for the keys the method asks about. -/
  backspaceJustPressed : Bool
  arrowLeftJustPressed : Bool
  arrowRightJustPressed : Bool
  homeJustPressed : Bool
  endJustPressed : Bool
  aJustPressed : Bool
  vJustPressed : Bool
  /-- The flags `ebiten.IsKeyPressed(k)` for backspace and control. -/
  backspacePressed : Bool
  controlPressed : Bool
  /-- The result of `clip.PasteClip()`: `none` is a non-nil error. -/
  pasteClip : Option GoString
deriving DecidableEq

/-- The blink block: `CursorBlinkTimer += 1.0 / 60.0`, reset at `1.0`. -/
def blinkStep (tf : TextField) : TextField :=
  let t := f32 (tf.CursorBlinkTimer + f32 (1 / 60))
  { tf with CursorBlinkTimer := if t ≥ 1 then 0 else t }

/-- The click block: a fresh press activates inside the bounds, deactivates outside. -/
def clickStep (tf : TextField) (inp : Input) : TextField :=
  if inp.mouseLeftJustPressed then
    if pointInRect (f32 (inp.cursorX : ℚ)) (f32 (inp.cursorY : ℚ)) tf.Bounds then
      { tf with IsActive := true }
    else { tf with IsActive := false }
  else tf

/-- One iteration of the loop over `ebiten.InputChars()`. -/
def insertChar (tf : TextField) (ch : Int) : Except Panic TextField :=
  if (tf.Text.length : Int) < tf.MaxLength then do
    let before ← goSliceTo tf.Text tf.CursorPosition
    let after ← goSliceFrom tf.Text tf.CursorPosition
    pure { tf with Text := before ++ runeToString ch ++ after
                   CursorPosition := tf.CursorPosition + 1 }
  else pure tf

/-- The loop over `ebiten.InputChars()`. -/
def insertChars (tf : TextField) : List Int → Except Panic TextField
  | [] => pure tf
  | ch :: rest => do
    let tf1 ← insertChar tf ch
    insertChars tf1 rest

/-- The deletion `Text = Text[:CursorPosition-1] + Text[CursorPosition:]`,
`CursorPosition--`, guarded by `CursorPosition > 0`. -/
def deleteBeforeCursor (tf : TextField) : Except Panic TextField :=
  if tf.CursorPosition > 0 then do
    let before ← goSliceTo tf.Text (tf.CursorPosition - 1)
    let after ← goSliceFrom tf.Text tf.CursorPosition
    pure { tf with Text := before ++ after, CursorPosition := tf.CursorPosition - 1 }
  else pure tf

/-- The single-press backspace block. -/
def backspaceStep (tf : TextField) (inp : Input) : Except Panic TextField :=
  if inp.backspaceJustPressed then deleteBeforeCursor tf else pure tf

/-- The arrow, home and end blocks. -/
def navigateStep (tf : TextField) (inp : Input) : TextField :=
  let tf1 :=
    if inp.arrowLeftJustPressed && decide (tf.CursorPosition > 0) then
      { tf with CursorPosition := tf.CursorPosition - 1 }
    else tf
  let tf2 :=
    if inp.arrowRightJustPressed && decide (tf1.CursorPosition < (tf1.Text.length : Int)) then
      { tf1 with CursorPosition := tf1.CursorPosition + 1 }
    else tf1
  let tf3 := if inp.homeJustPressed then { tf2 with CursorPosition := 0 } else tf2
  if inp.endJustPressed then { tf3 with CursorPosition := (tf3.Text.length : Int) } else tf3

/-- The continuous-backspace block. -/
def backspaceHoldStep (tf : TextField) (inp : Input) : Except Panic TextField :=
  if inp.backspacePressed then
    let t := f32 (tf.BackspaceHoldTimer + f32 (1 / 60))
    if t > 1 / 2 then deleteBeforeCursor { tf with BackspaceHoldTimer := 1 }
    else pure { tf with BackspaceHoldTimer := t }
  else pure { tf with BackspaceHoldTimer := 0 }

/-- The Control+A block. -/
def selectAllStep (tf : TextField) (inp : Input) : TextField :=
  if inp.aJustPressed && inp.controlPressed then
    { tf with CursorPosition := (tf.Text.length : Int) }
  else tf

/-- The insertion of a non-empty clipboard text, cut to the remaining space. The
difference `MaxLength - len(Text)` is the mathematical one; it is the value Go computes
whenever the subtraction does not overflow `int`, in particular for `MaxLength ≥ 0`. -/
def pasteText (tf : TextField) (clipboardText : GoString) : Except Panic TextField :=
  let remainingSpace := tf.MaxLength - (tf.Text.length : Int)
  if remainingSpace > 0 then do
    let toPaste ←
      if (clipboardText.length : Int) > remainingSpace then
        goSliceTo clipboardText remainingSpace
      else pure clipboardText
    let before ← goSliceTo tf.Text tf.CursorPosition
    let after ← goSliceFrom tf.Text tf.CursorPosition
    pure { tf with Text := before ++ toPaste ++ after
                   CursorPosition := tf.CursorPosition + (toPaste.length : Int) }
  else pure tf

/-- The Control+V block. -/
def pasteStep (tf : TextField) (inp : Input) : Except Panic TextField :=
  if inp.vJustPressed && inp.controlPressed then
    match inp.pasteClip with
    | none => .error .clipboardFailure
    | some clipboardText =>
      if clipboardText ≠ [] then pasteText tf clipboardText else pure tf
  else pure tf

/-- The body of `if tf.IsActive { ... }`. -/
def editStep (tf : TextField) (inp : Input) : Except Panic TextField := do
  let tf1 ← insertChars tf inp.inputChars
  let tf2 ← backspaceStep tf1 inp
  let tf3 ← backspaceHoldStep (navigateStep tf2 inp) inp
  pasteStep (selectAllStep tf3 inp) inp

/-- The method `TextField.Update`. -/
def Update (tf : TextField) (inp : Input) : Except Panic TextField :=
  if tf.Uneditable then pure tf
  else
    let tf1 := clickStep (blinkStep tf) inp
    if tf1.IsActive then editStep tf1 inp else pure tf1

/-- The method `TextField.GetText`. -/
def GetText (tf : TextField) : GoString := tf.Text

/-- The method `TextField.SetValue`. -/
def SetValue (tf : TextField) (value : GoString) : Except Panic TextField :=
  if (value.length : Int) > tf.MaxLength then do
    let t ← goSliceTo value tf.MaxLength
    pure { tf with Text := t, CursorPosition := (t.length : Int) }
  else pure { tf with Text := value, CursorPosition := (value.length : Int) }

/-- The method `TextField.Activate`. -/
def Activate (tf : TextField) : TextField :=
  { tf with IsActive := true, CursorPosition := (tf.Text.length : Int) }

/-- The method `TextField.Deactivate`. -/
def Deactivate (tf : TextField) : TextField := { tf with IsActive := false }

/-- One call on a text field: `Update` with the frame input, or another method. -/
inductive Op where
  | update (inp : Input)
  | setValue (value : GoString)
  | activate
  | deactivate
  | setColors (background border text : RGBA)
  | setFontSize (fontSize : Int)
  | setInvisible (invisible : Bool)
  | setUneditable (uneditable : Bool)
  | setPlaceholder (placeholder : GoString)
  | setFont (face : FontFace)

def Op.apply (tf : TextField) : Op → Except Panic TextField
  | .update inp => Update tf inp
  | .setValue v => SetValue tf v
  | .activate => pure (Activate tf)
  | .deactivate => pure (Deactivate tf)
  | .setColors bg bd tx => pure (SetColors tf bg bd tx)
  | .setFontSize n => pure (SetFontSize tf n)
  | .setInvisible i => pure (SetInvisible tf i)
  | .setUneditable u => pure (SetUneditable tf u)
  | .setPlaceholder p => pure (SetPlaceholder tf p)
  | .setFont f => pure (SetFont tf f)

/-- Run a sequence of calls, first to last, stopping at the first panic. -/
def run (tf : TextField) : List Op → Except Panic TextField
  | [] => pure tf
  | op :: rest => do
    let tf1 ← op.apply tf
    run tf1 rest

/-- An input frame in which nothing happens: no click, no key, no character. -/
def idle : Input :=
  { mouseLeftJustPressed := false, cursorX := 0, cursorY := 0, inputChars := []
    backspaceJustPressed := false, arrowLeftJustPressed := false
    arrowRightJustPressed := false, homeJustPressed := false, endJustPressed := false
    aJustPressed := false, vJustPressed := false, backspacePressed := false
    controlPressed := false, pasteClip := some [] }

end textfield

/-! ## Derived notions, sample states and sample frames -/

/-- Every channel of the colour is a uint8. -/
def RGBA.valid (c : RGBA) : Prop := c.R < 256 ∧ c.G < 256 ∧ c.B < 256 ∧ c.A < 256

instance (c : RGBA) : Decidable c.valid := by
  unfold RGBA.valid
  infer_instance

namespace button

/-- The pointer position of a frame, as `Update` converts it to float32, lies in `r`. -/
def hovers (inp : Input) (r : Rect) : Bool :=
  pointInRect (f32 (inp.cursorX : ℚ)) (f32 (inp.cursorY : ℚ)) r

/-- A 100 by 50 button at the origin, as `NewButton(0, 0, 100, 50, "ok")` makes it. -/
def sampleButton : Button := NewButton none 0 0 100 50 (ascii "ok")

/-- The pointer at (10, 10) with the primary button down. -/
def pressAt10 : Input := { cursorX := 10, cursorY := 10, mouseLeftPressed := true }

/-- The pointer at (10, 10) with the primary button up. -/
def releaseAt10 : Input := { cursorX := 10, cursorY := 10, mouseLeftPressed := false }

/-- The pointer at (1000, 1000), far outside the sample button, button up. -/
def releaseFarAway : Input := { cursorX := 1000, cursorY := 1000, mouseLeftPressed := false }

/-- The sample button after `SetEnabled(false)`. -/
def disabledButton : Button := run sampleButton [Op.setEnabled false]

/-- The sample button clicked once and then made uneditable. -/
def frozenButton : Button :=
  run sampleButton [Op.update pressAt10, Op.update releaseAt10, Op.setUneditable true]

/-- The sample button hovered once, then made uneditable and disabled. -/
def frozenDisabledButton : Button :=
  run sampleButton [Op.update releaseAt10, Op.setUneditable true, Op.setEnabled false]

/-- A run of `Update()` calls, one per frame, with no other call in between. -/
def updates (b : Button) (frames : List Input) : Button := frames.foldl Update b

/-- The step `frameTime * animationSpeed` as `Update` computes it. -/
def animStep : ℚ := f32 (frameTime * animationSpeed)

/-- The target of the animation for the flags `Update` has just computed. -/
def targetProgress (b : Button) (inp : Input) : ℚ :=
  if (hovers inp b.Bounds && inp.mouseLeftPressed) = true then 1
  else if hovers inp b.Bounds = true then 1 / 2 else 0

/-- The sample button after two frames with the pointer resting on it. -/
def hoveredTwice : Button := run sampleButton [Op.update releaseAt10, Op.update releaseAt10]

end button

namespace textfield

/-- The cursor is a valid index into the text and `MaxLength` is `N`. -/
def Inv (N : Int) (tf : TextField) : Prop :=
  tf.MaxLength = N ∧ 0 ≤ tf.CursorPosition ∧ tf.CursorPosition ≤ (tf.Text.length : Int)

instance (N : Int) (tf : TextField) : Decidable (Inv N tf) := by
  unfold Inv
  infer_instance

/-- The text and the cursor a call leaves, or its panic. -/
def textAndCursor (r : Except Panic TextField) : Except Panic (GoString × Int) :=
  r.map fun tf => (tf.Text, tf.CursorPosition)

/-- A frame whose only input is the batch `chars` of typed characters. -/
def typing (chars : List Int) : Input := { idle with inputChars := chars }

/-- A frame whose only input is a just-pressed left arrow. -/
def arrowLeftOnly : Input := { idle with arrowLeftJustPressed := true }

/-- A frame whose only input is a just-pressed right arrow. -/
def arrowRightOnly : Input := { idle with arrowRightJustPressed := true }

/-- A frame whose only input is Control+V, the clipboard holding `s`. -/
def pasteFrame (s : GoString) : Input :=
  { idle with vJustPressed := true, controlPressed := true, pasteClip := some s }

/-- A fresh primary-button press at (10, 10). -/
def clickAt10 : Input := { idle with mouseLeftJustPressed := true, cursorX := 10, cursorY := 10 }

/-- An active field of capacity 5 holding "abc" with the cursor after "a". -/
def sampleField : TextField :=
  { NewTextField none 0 0 100 30 5 with
    Text := ascii "abc", CursorPosition := 1, IsActive := true }

/-- The fields that the typing, deletion, cursor and paste blocks never write are the
same in `tf1` as in `tf`. -/
def keptFields (tf tf1 : TextField) : Prop :=
  tf1.IsActive = tf.IsActive ∧ tf1.Uneditable = tf.Uneditable ∧
    tf1.MaxLength = tf.MaxLength ∧ tf1.BackspaceHoldTimer = tf.BackspaceHoldTimer ∧
    tf1.CursorBlinkTimer = tf.CursorBlinkTimer ∧ tf1.Bounds = tf.Bounds

/-- The text and cursor after the byte before the cursor is deleted, or as they are
when the cursor is at 0. -/
def deleted (p : GoString × Int) : GoString × Int :=
  if 0 < p.2 then (p.1.take (p.2 - 1).toNat ++ p.1.drop p.2.toNat, p.2 - 1) else p

/-- The hold timer a frame with backspace held leaves, from the timer `t` before it. -/
def heldTimerNext (t : ℚ) : ℚ :=
  if f32 (t + f32 (1 / 60)) > 1 / 2 then 1 else f32 (t + f32 (1 / 60))

/-- The hold timer after `n` consecutive frames with backspace held, from 0. -/
def heldTimer : Nat → ℚ
  | 0 => 0
  | n + 1 => heldTimerNext (heldTimer n)

/-- The conditions under which `Update` reaches the clipboard read and it fails. -/
def pasteFails (tf : TextField) (inp : Input) : Prop :=
  tf.Uneditable = false ∧ (clickStep (blinkStep tf) inp).IsActive = true ∧
    inp.vJustPressed = true ∧ inp.controlPressed = true ∧ inp.pasteClip = none

instance (tf : TextField) (inp : Input) : Decidable (pasteFails tf inp) := by
  unfold pasteFails
  infer_instance

/-- A frame whose only input is backspace held down, pressed in an earlier frame. -/
def holdOnly : Input := { idle with backspacePressed := true }

/-- A frame whose only input is a fresh backspace press. -/
def backspacePress : Input :=
  { idle with backspaceJustPressed := true, backspacePressed := true }

/-- A frame whose only input is Control+V, the clipboard read failing. -/
def failingPaste : Input :=
  { idle with vJustPressed := true, controlPressed := true, pasteClip := none }

/-- A frame with a click at (10, 10), typed characters, every key the method asks about
pressed, and a failing clipboard. -/
def busyFrame : Input :=
  { mouseLeftJustPressed := true, cursorX := 10, cursorY := 10, inputChars := [0x61, 0x62]
    backspaceJustPressed := true, arrowLeftJustPressed := true
    arrowRightJustPressed := true, homeJustPressed := true, endJustPressed := true
    aJustPressed := true, vJustPressed := true, backspacePressed := true
    controlPressed := true, pasteClip := none }

/-- The sample field made uneditable. -/
def lockedField : TextField := SetUneditable sampleField true

/-- An active field of capacity 10 holding "abc" with the cursor at the end. -/
def heldField : TextField :=
  { NewTextField none 0 0 100 30 10 with
    Text := ascii "abc", CursorPosition := 3, IsActive := true }

/-- An active field of capacity 10 holding "h" with the cursor at the end. -/
def hField : TextField :=
  { NewTextField none 0 0 100 30 10 with
    Text := ascii "h", CursorPosition := 1, IsActive := true }

/-- A frame whose only input is a just-pressed home key. -/
def homeOnly : Input := { idle with homeJustPressed := true }

/-- A frame whose only input is a just-pressed end key. -/
def endOnly : Input := { idle with endJustPressed := true }

/-- A frame with typed characters, every key the method asks about pressed and a failing
clipboard, but no click. -/
def keysNoClick : Input := { busyFrame with mouseLeftJustPressed := false }

/-- The blink timer `Update` leaves, from the timer `t` before it. -/
def blinkNext (t : ℚ) : ℚ :=
  if f32 (t + f32 (1 / 60)) ≥ 1 then 0 else f32 (t + f32 (1 / 60))

/-- Every character the call delivers as typed has a code point below 128. -/
def Op.typesSingleBytes : Op → Prop
  | .update inp => ∀ ch ∈ inp.inputChars, 0 ≤ ch ∧ ch < 128
  | _ => True

/-- The invariant `Inv` together with the length bound `len(Text) ≤ N`. -/
def Bounded (N : Int) (tf : TextField) : Prop :=
  Inv N tf ∧ (tf.Text.length : Int) ≤ N

instance (N : Int) (tf : TextField) : Decidable (Bounded N tf) := by
  unfold Bounded
  infer_instance

/-- The blink timer is inside its period. -/
def blinkInRange (tf : TextField) : Prop :=
  0 ≤ tf.CursorBlinkTimer ∧ tf.CursorBlinkTimer < 1

/-- The calls that give a field the value `v`, activate it and make it uneditable. -/
def lockSteps (v : GoString) : List Op :=
  [Op.setValue v, Op.activate, Op.setUneditable true]

/-- The frame `inp` with, in addition, a fresh primary-button press at (-1, -1). -/
def pressOutside (inp : Input) : Input :=
  { inp with mouseLeftJustPressed := true, cursorX := -1, cursorY := -1 }

/-- The calls `n` times `Update()` with backspace held and nothing else. -/
def holdFrames (n : Nat) : List Op := List.replicate n (Op.update holdOnly)

end textfield

/-! ## Lemmas on float32 rounding -/

theorem roundHalfEven_intCast (n : ℤ) : roundHalfEven (n : ℚ) = n := by
  simp [roundHalfEven]

theorem floor_le_roundHalfEven (x : ℚ) : ⌊x⌋ ≤ roundHalfEven x := by
  unfold roundHalfEven
  split_ifs <;> omega

theorem roundHalfEven_le_floor_add_one (x : ℚ) : roundHalfEven x ≤ ⌊x⌋ + 1 := by
  unfold roundHalfEven
  split_ifs <;> omega

theorem le_roundHalfEven (n : ℤ) (x : ℚ) (h : (n : ℚ) ≤ x) : n ≤ roundHalfEven x :=
  le_trans (Int.le_floor.mpr h) (floor_le_roundHalfEven x)

theorem roundHalfEven_le (n : ℤ) (x : ℚ) (h : x ≤ (n : ℚ)) : roundHalfEven x ≤ n := by
  have hfl : (⌊x⌋ : ℚ) ≤ x := Int.floor_le x
  have h1 : ⌊x⌋ ≤ n := by exact_mod_cast le_trans hfl h
  unfold roundHalfEven
  split_ifs with h2 h3 h4
  · exact h1
  · have : (⌊x⌋ : ℚ) < n := by linarith
    have : ⌊x⌋ < n := by exact_mod_cast this
    omega
  · exact h1
  · have hx : x - ⌊x⌋ = 1 / 2 := le_antisymm (not_lt.mp h3) (not_lt.mp h2)
    have : (⌊x⌋ : ℚ) < n := by linarith
    have : ⌊x⌋ < n := by exact_mod_cast this
    omega

theorem roundHalfEven_mono {x y : ℚ} (h : x ≤ y) : roundHalfEven x ≤ roundHalfEven y := by
  have hf : ⌊x⌋ ≤ ⌊y⌋ := Int.floor_mono h
  rcases lt_or_eq_of_le hf with hlt | heq
  · have := roundHalfEven_le_floor_add_one x
    have := floor_le_roundHalfEven y
    omega
  · unfold roundHalfEven
    rw [← heq]
    have hxy : x - ⌊x⌋ ≤ y - ⌊x⌋ := by linarith
    split_ifs <;> first | omega | (exfalso; linarith)

theorem roundHalfEven_neg (x : ℚ) : roundHalfEven (-x) = -roundHalfEven x := by
  by_cases hx : (⌊x⌋ : ℚ) = x
  · rw [← hx, ← Int.cast_neg, roundHalfEven_intCast, roundHalfEven_intCast]
  · have hfl : (⌊x⌋ : ℚ) < x := lt_of_le_of_ne (Int.floor_le x) hx
    have hlt : x < ⌊x⌋ + 1 := Int.lt_floor_add_one x
    have hneg : ⌊-x⌋ = -⌊x⌋ - 1 := by
      rw [Int.floor_eq_iff]
      push_cast
      constructor <;> linarith
    unfold roundHalfEven
    rw [hneg]
    push_cast
    split_ifs <;> first | omega | (exfalso; linarith)

theorem two_zpow_pos (k : ℤ) : (0 : ℚ) < 2 ^ k := zpow_pos (by norm_num) k

theorem roundAt_mono (E : ℤ) {x y : ℚ} (h : x ≤ y) : roundAt E x ≤ roundAt E y := by
  unfold roundAt
  have hp := two_zpow_pos (E - 23)
  have hd : x / 2 ^ (E - 23) ≤ y / 2 ^ (E - 23) := div_le_div_of_nonneg_right h hp.le
  have hr : (roundHalfEven (x / 2 ^ (E - 23)) : ℚ) ≤ roundHalfEven (y / 2 ^ (E - 23)) := by
    exact_mod_cast roundHalfEven_mono hd
  exact mul_le_mul_of_nonneg_right hr hp.le

theorem roundAt_grid (E k m : ℤ) (hk : E - 23 ≤ k) :
    roundAt E ((m : ℚ) * 2 ^ k) = (m : ℚ) * 2 ^ k := by
  unfold roundAt
  have hp := two_zpow_pos (E - 23)
  obtain ⟨j, hj⟩ := Int.eq_ofNat_of_zero_le (sub_nonneg.mpr hk)
  have hsplit : (2 : ℚ) ^ k = 2 ^ j * 2 ^ (E - 23) := by
    have : k = (j : ℤ) + (E - 23) := by omega
    rw [this, zpow_add₀ (by norm_num : (2 : ℚ) ≠ 0), zpow_natCast]
  have hq : (m : ℚ) * 2 ^ k / 2 ^ (E - 23) = ((m * 2 ^ j : ℤ) : ℚ) := by
    rw [hsplit]
    push_cast
    field_simp
    ring
  rw [hq, roundHalfEven_intCast, hsplit]
  push_cast
  ring

theorem roundAt_neg (E : ℤ) (x : ℚ) : roundAt E (-x) = -roundAt E x := by
  unfold roundAt
  rw [neg_div, roundHalfEven_neg]
  push_cast
  ring

theorem f32Exp_neg (x : ℚ) : f32Exp (-x) = f32Exp x := by
  unfold f32Exp
  rw [abs_neg]

theorem f32_neg (x : ℚ) : f32 (-x) = -f32 x := by
  unfold f32
  rw [f32Exp_neg, roundAt_neg]

theorem f32_zero : f32 0 = 0 := by
  simp [f32, roundAt, roundHalfEven]

theorem f32Exp_mono {x y : ℚ} (hx : 0 < x) (h : x ≤ y) : f32Exp x ≤ f32Exp y := by
  unfold f32Exp
  rw [abs_of_pos hx, abs_of_pos (lt_of_lt_of_le hx h)]
  exact max_le_max (Int.log_mono_right hx h) le_rfl

theorem lt_two_zpow_f32Exp (x : ℚ) : |x| < 2 ^ (f32Exp x + 1) := by
  have h1 : |x| < ((2 : ℕ) : ℚ) ^ (Int.log 2 |x| + 1) := Int.lt_zpow_succ_log_self (by norm_num) _
  rw [Nat.cast_ofNat] at h1
  refine lt_of_lt_of_le h1 ?_
  apply zpow_le_zpow_right₀ (by norm_num)
  unfold f32Exp
  have := le_max_left (Int.log 2 |x|) (-126)
  omega

theorem two_zpow_f32Exp_le {x : ℚ} (hx : 0 < x) (hE : -126 < f32Exp x) :
    (2 : ℚ) ^ f32Exp x ≤ x := by
  have hlog : f32Exp x = Int.log 2 x := by
    unfold f32Exp at hE ⊢
    rw [abs_of_pos hx] at hE ⊢
    rcases le_total (Int.log 2 x) (-126) with h | h
    · rw [max_eq_right h] at hE; omega
    · exact max_eq_left h
  rw [hlog]
  have := Int.zpow_log_le_self (b := 2) (by norm_num) hx
  rwa [Nat.cast_ofNat] at this

theorem f32_mono_pos {x y : ℚ} (hx : 0 < x) (h : x ≤ y) : f32 x ≤ f32 y := by
  have hy : 0 < y := lt_of_lt_of_le hx h
  have hE := f32Exp_mono hx h
  unfold f32
  rcases lt_or_eq_of_le hE with hlt | heq
  · have hc1 : x ≤ 2 ^ f32Exp y := by
      have h1 := lt_two_zpow_f32Exp x
      rw [abs_of_pos hx] at h1
      refine le_trans h1.le ?_
      apply zpow_le_zpow_right₀ (by norm_num)
      omega
    have hc2 : (2 : ℚ) ^ f32Exp y ≤ y := by
      apply two_zpow_f32Exp_le hy
      have : -126 ≤ f32Exp x := le_max_right _ _
      omega
    have g1 := roundAt_grid (f32Exp x) (f32Exp y) 1 (by omega)
    have g2 := roundAt_grid (f32Exp y) (f32Exp y) 1 (by omega)
    simp only [Int.cast_one, one_mul] at g1 g2
    calc roundAt (f32Exp x) x ≤ roundAt (f32Exp x) (2 ^ f32Exp y) := roundAt_mono _ hc1
      _ = 2 ^ f32Exp y := g1
      _ = roundAt (f32Exp y) (2 ^ f32Exp y) := g2.symm
      _ ≤ roundAt (f32Exp y) y := roundAt_mono _ hc2
  · rw [heq]
    exact roundAt_mono _ h

theorem f32_nonneg {x : ℚ} (hx : 0 ≤ x) : 0 ≤ f32 x := by
  have := roundAt_mono (f32Exp x) hx
  have h0 := roundAt_grid (f32Exp x) (f32Exp x) 0 (by omega)
  simp only [Int.cast_zero, zero_mul] at h0
  rw [h0] at this
  exact this

theorem f32_nonpos {x : ℚ} (hx : x ≤ 0) : f32 x ≤ 0 := by
  have h := f32_nonneg (neg_nonneg.mpr hx)
  rw [f32_neg] at h
  linarith

theorem f32_mono : Monotone f32 := by
  intro x y h
  rcases lt_trichotomy 0 x with hx | hx | hx
  · exact f32_mono_pos hx h
  · subst hx
    rw [f32_zero]
    exact f32_nonneg h
  · rcases le_or_lt 0 y with hy | hy
    · exact le_trans (f32_nonpos hx.le) (f32_nonneg hy)
    · have := f32_mono_pos (neg_pos.mpr hy) (neg_le_neg h)
      rw [f32_neg, f32_neg] at this
      linarith

theorem f32_grid (m k : ℤ) (hm : |m| < 2 ^ 24) (hk : -149 ≤ k) :
    f32 ((m : ℚ) * 2 ^ k) = (m : ℚ) * 2 ^ k := by
  by_cases h0 : m = 0
  · subst h0
    simp [f32_zero]
  · unfold f32
    apply roundAt_grid
    have hxpos : (0 : ℚ) < |(m : ℚ) * 2 ^ k| := by
      apply abs_pos.mpr
      exact mul_ne_zero (by exact_mod_cast h0) (two_zpow_pos k).ne'
    have hlt : |(m : ℚ) * 2 ^ k| < ((2 : ℕ) : ℚ) ^ (k + 24) := by
      rw [abs_mul, abs_of_pos (two_zpow_pos k), Nat.cast_ofNat,
        zpow_add₀ (by norm_num : (2 : ℚ) ≠ 0), mul_comm]
      apply mul_lt_mul_of_pos_left _ (two_zpow_pos k)
      have : |(m : ℚ)| < 2 ^ (24 : ℕ) := by exact_mod_cast hm
      rw [← zpow_natCast] at this
      exact_mod_cast this
    have hlog := (Int.lt_zpow_iff_log_lt (b := 2) (by norm_num) hxpos).mp hlt
    unfold f32Exp
    have := max_le (a := Int.log 2 |(m : ℚ) * 2 ^ k|) (b := -126) (c := k + 23) (by omega) (by omega)
    omega

theorem f32_intCast (m : ℤ) (hm : |m| < 2 ^ 24) : f32 (m : ℚ) = m := by
  have := f32_grid m 0 hm (by norm_num)
  simpa using this


/-! ## Evaluating float32 rounding, rounding error, uint8 conversion -/

/-- A rational within one half of an integer rounds to it; at exactly one half, when
the integer is even. -/
theorem roundHalfEven_eval (x : ℚ) (n : ℤ)
    (h : |x - n| < 1 / 2 ∨ (|x - n| = 1 / 2 ∧ n % 2 = 0)) : roundHalfEven x = n := by
  have hfl := Int.floor_le x
  have hlt := Int.lt_floor_add_one x
  rcases h with h | ⟨h, hn⟩
  · rw [abs_lt] at h
    obtain ⟨h1, h2⟩ := h
    unfold roundHalfEven
    split_ifs with c1 c2 c3
    · -- x - floor < 1/2, so floor > x - 1/2 > n - 1, and floor ≤ x < n + 1/2
      have a1 : ((n : ℚ) - 1) < ⌊x⌋ := by linarith
      have a2 : ((⌊x⌋ : ℤ) : ℚ) < (n : ℚ) + 1 := by linarith
      have b1 : n - 1 < ⌊x⌋ := by exact_mod_cast a1
      have b2 : ⌊x⌋ < n + 1 := by exact_mod_cast a2
      omega
    · have a1 : ((n : ℚ) - 1) < ⌊x⌋ + 1 := by linarith
      have a2 : ((⌊x⌋ : ℤ) : ℚ) + 1 < (n : ℚ) + 1 := by linarith
      have b1 : n - 1 < ⌊x⌋ + 1 := by exact_mod_cast a1
      have b2 : ⌊x⌋ + 1 < n + 1 := by exact_mod_cast a2
      omega
    · have hx : x - ⌊x⌋ = 1 / 2 := le_antisymm (not_lt.mp c2) (not_lt.mp c1)
      have a1 : ((n : ℚ) - 1) < ⌊x⌋ := by linarith
      have a2 : ((⌊x⌋ : ℤ) : ℚ) < (n : ℚ) := by linarith
      have b1 : n - 1 < ⌊x⌋ := by exact_mod_cast a1
      have b2 : ⌊x⌋ < n := by exact_mod_cast a2
      omega
    · have hx : x - ⌊x⌋ = 1 / 2 := le_antisymm (not_lt.mp c2) (not_lt.mp c1)
      have a1 : ((n : ℚ) - 1) < ⌊x⌋ := by linarith
      have a2 : ((⌊x⌋ : ℤ) : ℚ) < (n : ℚ) := by linarith
      have b1 : n - 1 < ⌊x⌋ := by exact_mod_cast a1
      have b2 : ⌊x⌋ < n := by exact_mod_cast a2
      omega
  · rcases abs_eq (by norm_num : (0 : ℚ) ≤ 1 / 2) |>.mp h with h | h
    · -- x = n + 1/2, floor = n
      have hf : ⌊x⌋ = n := by
        rw [Int.floor_eq_iff]
        constructor <;> linarith
      unfold roundHalfEven
      rw [hf]
      have hx : x - n = 1 / 2 := h
      rw [hx]
      simp [hn]
    · -- x = n - 1/2, floor = n - 1, odd
      have hf : ⌊x⌋ = n - 1 := by
        rw [Int.floor_eq_iff]
        push_cast
        constructor <;> linarith
      unfold roundHalfEven
      rw [hf]
      have hx : x - ((n - 1 : ℤ) : ℚ) = 1 / 2 := by push_cast; linarith
      rw [hx]
      have hodd : (n - 1) % 2 ≠ 0 := by omega
      simp [hodd]

/-- The binary exponent of a positive rational between two consecutive powers of two. -/
theorem f32Exp_eval (x : ℚ) (e : ℤ) (he : -126 ≤ e) (hlo : (2 : ℚ) ^ e ≤ x)
    (hhi : x < 2 ^ (e + 1)) : f32Exp x = e := by
  have hx : 0 < x := lt_of_lt_of_le (two_zpow_pos e) hlo
  unfold f32Exp
  rw [abs_of_pos hx]
  have h1 : e ≤ Int.log 2 x := by
    apply (Int.zpow_le_iff_le_log (b := 2) (by norm_num) hx).mp
    rw [Nat.cast_ofNat]; exact hlo
  have h2 : Int.log 2 x < e + 1 := by
    apply (Int.lt_zpow_iff_log_lt (b := 2) (by norm_num) hx).mp
    rw [Nat.cast_ofNat]; exact hhi
  have : Int.log 2 x = e := by omega
  rw [this]
  exact max_eq_left he

/-- Evaluation of `f32` at a positive rational of known binary exponent. -/
theorem f32_eval (x : ℚ) (e n : ℤ) (he : -126 ≤ e) (hlo : (2 : ℚ) ^ e ≤ x)
    (hhi : x < 2 ^ (e + 1))
    (hr : |x / 2 ^ (e - 23) - n| < 1 / 2 ∨ (|x / 2 ^ (e - 23) - n| = 1 / 2 ∧ n % 2 = 0)) :
    f32 x = (n : ℚ) * 2 ^ (e - 23) := by
  unfold f32 roundAt
  rw [f32Exp_eval x e he hlo hhi, roundHalfEven_eval _ n hr]

theorem f32_natCast (n : ℕ) (hn : n < 2 ^ 24) : f32 (n : ℚ) = n := by
  have h := f32_intCast (n : ℤ) (by rw [abs_of_nonneg (Int.natCast_nonneg n)]; exact_mod_cast hn)
  simpa using h

theorem uint8OfFloat_natCast (n : ℕ) : uint8OfFloat (n : ℚ) = n % 256 := by
  unfold uint8OfFloat
  rw [if_pos (Nat.cast_nonneg n)]
  have : ⌊(n : ℚ)⌋ = (n : ℤ) := Int.floor_natCast n
  rw [this]
  omega

theorem uint8Sub_add (a b : ℕ) (ha : a < 256) :
    (uint8Sub a b + b) % 256 = a := by
  unfold uint8Sub
  omega

theorem uint8Sub_lt (a b : ℕ) : uint8Sub a b < 256 := by
  unfold uint8Sub
  omega

/-- The distance from a rational to its rounding is at most one half. -/
theorem abs_roundHalfEven_sub_le (x : ℚ) : |(roundHalfEven x : ℚ) - x| ≤ 1 / 2 := by
  have hfl := Int.floor_le x
  have hlt := Int.lt_floor_add_one x
  unfold roundHalfEven
  rw [abs_le]
  split_ifs with c1 c2 c3 <;> push_cast <;> constructor <;> linarith

theorem f32Exp_le_zero (x : ℚ) (hx : |x| < 2) : f32Exp x ≤ 0 := by
  unfold f32Exp
  apply max_le _ (by norm_num)
  rcases eq_or_lt_of_le (abs_nonneg x) with h0 | hpos
  · rw [← h0, Int.log_zero_right]
  · have h : |x| < ((2 : ℕ) : ℚ) ^ (1 : ℤ) := by
      rw [Nat.cast_ofNat, zpow_one]; exact hx
    have := (Int.lt_zpow_iff_log_lt (b := 2) (by norm_num) hpos).mp h
    omega

/-- Rounding a value below 2 in absolute value moves it by at most `2 ^ (-24)`. -/
theorem abs_f32_sub_le (x : ℚ) (hx : |x| < 2) : |f32 x - x| ≤ 1 / 16777216 := by
  have hE := f32Exp_le_zero x hx
  have hu := two_zpow_pos (f32Exp x - 23)
  have hule : (2 : ℚ) ^ (f32Exp x - 23) ≤ 2 ^ (-23 : ℤ) :=
    zpow_le_zpow_right₀ (by norm_num) (by omega)
  have hr := abs_roundHalfEven_sub_le (x / 2 ^ (f32Exp x - 23))
  have hx' : x = x / 2 ^ (f32Exp x - 23) * 2 ^ (f32Exp x - 23) := by
    field_simp
  have key : f32 x - x
      = ((roundHalfEven (x / 2 ^ (f32Exp x - 23)) : ℚ) - x / 2 ^ (f32Exp x - 23))
        * 2 ^ (f32Exp x - 23) := by
    unfold f32 roundAt
    rw [sub_mul, ← hx']
  rw [key, abs_mul, abs_of_pos hu]
  calc |(roundHalfEven (x / 2 ^ (f32Exp x - 23)) : ℚ) - x / 2 ^ (f32Exp x - 23)|
        * 2 ^ (f32Exp x - 23)
      ≤ 1 / 2 * 2 ^ (-23 : ℤ) := mul_le_mul hr hule hu.le (by norm_num)
    _ = 1 / 16777216 := by norm_num

/-! ## Button: lemmas -/

namespace button

theorem f32_one : f32 1 = 1 := by simpa using f32_intCast 1 (by decide)

theorem f32_ten : f32 10 = 10 := by simpa using f32_intCast 10 (by decide)

theorem f32_fifty : f32 50 = 50 := by simpa using f32_intCast 50 (by decide)

theorem f32_hundred : f32 100 = 100 := by simpa using f32_intCast 100 (by decide)

theorem Update_of_uneditable (b : Button) (inp : Input) (hU : b.Uneditable = true) :
    Update b inp = b := by
  simp [Update, hU]

theorem Update_of_disabled (b : Button) (inp : Input) (hU : b.Uneditable = false)
    (hE : b.Enabled = false) :
    Update b inp = { b with IsHovered := false, IsPressed := false } := by
  simp [Update, hU, hE]

theorem Update_of_enabled (b : Button) (inp : Input) (hU : b.Uneditable = false)
    (hE : b.Enabled = true) :
    Update b inp =
      { b with
        IsHovered := hovers inp b.Bounds
        IsPressed := hovers inp b.Bounds && inp.mouseLeftPressed
        clicked := hovers inp b.Bounds && !inp.mouseLeftPressed && b.prevMouseDown
        prevMouseDown := inp.mouseLeftPressed
        AnimationProgress := stepAnimation b.AnimationProgress
          (if (hovers inp b.Bounds && inp.mouseLeftPressed) = true then 1
           else if hovers inp b.Bounds = true then 1 / 2 else 0) } := by
  simp [Update, hU, hE, hovers]

theorem Update_Enabled (b : Button) (inp : Input) : (Update b inp).Enabled = b.Enabled := by
  unfold Update
  split_ifs <;> rfl

theorem Update_Uneditable (b : Button) (inp : Input) :
    (Update b inp).Uneditable = b.Uneditable := by
  unfold Update
  split_ifs <;> rfl

theorem Update_Bounds (b : Button) (inp : Input) : (Update b inp).Bounds = b.Bounds := by
  unfold Update
  split_ifs <;> rfl

theorem IsClicked_of_disabled (b : Button) (hE : b.Enabled = false) : IsClicked b = false := by
  simp [IsClicked, hE]

/-- A release inside the bounds right after a frame with the button down raises the
pulse, on an enabled and editable button. -/
theorem IsClicked_after_release (b : Button) (i1 i2 : Input) (hE : b.Enabled = true)
    (hU : b.Uneditable = false) (h1 : i1.mouseLeftPressed = true)
    (h2 : i2.mouseLeftPressed = false) (hin : hovers i2 b.Bounds = true) :
    IsClicked (Update (Update b i1) i2) = true := by
  have hE1 : (Update b i1).Enabled = true := by rw [Update_Enabled, hE]
  have hU1 : (Update b i1).Uneditable = false := by rw [Update_Uneditable, hU]
  have hB1 : (Update b i1).Bounds = b.Bounds := Update_Bounds b i1
  have hp : (Update b i1).prevMouseDown = true := by
    rw [Update_of_enabled b i1 hU hE]; exact h1
  rw [Update_of_enabled _ i2 hU1 hE1]
  simp [IsClicked, hE1, hB1, hin, h2, hp]

/-- The point (10, 10) lies inside the sample button. -/
theorem sample_inside (inp : Input) (hx : inp.cursorX = 10) (hy : inp.cursorY = 10) :
    hovers inp sampleButton.Bounds = true := by
  simp [hovers, hx, hy, pointInRect, sampleButton, NewButton, NewRect, f32_ten, f32_fifty,
    f32_hundred]
  norm_num

/-- The per-frame step `frameTime * animationSpeed` is not negative. -/
theorem animStep_nonneg : 0 ≤ f32 (frameTime * animationSpeed) := by
  apply f32_nonneg
  apply mul_nonneg
  · exact f32_nonneg (by norm_num)
  · exact f32_nonneg (by norm_num)

/-- One animation step keeps the progress in `[0, 1]` when the target is in `[0, 1]`. -/
theorem stepAnimation_bounds (p t : ℚ) (hp0 : 0 ≤ p) (hp1 : p ≤ 1) (ht0 : 0 ≤ t)
    (ht1 : t ≤ 1) : 0 ≤ stepAnimation p t ∧ stepAnimation p t ≤ 1 := by
  have hs := animStep_nonneg
  have hup : 0 ≤ f32 (p + f32 (frameTime * animationSpeed)) := f32_nonneg (by linarith)
  have hdn : f32 (p - f32 (frameTime * animationSpeed)) ≤ 1 := by
    have := f32_mono (show p - f32 (frameTime * animationSpeed) ≤ 1 by linarith)
    rwa [f32_one] at this
  simp only [stepAnimation]
  split_ifs with h1 h2 h3 h4
  · exact ⟨ht0, ht1⟩
  · exact ⟨hup, by linarith⟩
  · exact ⟨ht0, ht1⟩
  · exact ⟨by linarith, hdn⟩
  · exact ⟨hp0, hp1⟩

theorem Update_progress_bounds (b : Button) (inp : Input)
    (h : 0 ≤ b.AnimationProgress ∧ b.AnimationProgress ≤ 1) :
    0 ≤ (Update b inp).AnimationProgress ∧ (Update b inp).AnimationProgress ≤ 1 := by
  unfold Update
  split_ifs
  · exact h
  · exact h
  · dsimp only
    apply stepAnimation_bounds _ _ h.1 h.2 <;> split_ifs <;> norm_num

theorem apply_progress_bounds (b : Button) (op : Op)
    (h : 0 ≤ b.AnimationProgress ∧ b.AnimationProgress ≤ 1) :
    0 ≤ (op.apply b).AnimationProgress ∧ (op.apply b).AnimationProgress ≤ 1 := by
  cases op with
  | update inp => exact Update_progress_bounds b inp h
  | _ => exact h

theorem run_progress_bounds (ops : List Op) (b : Button)
    (h : 0 ≤ b.AnimationProgress ∧ b.AnimationProgress ≤ 1) :
    0 ≤ (run b ops).AnimationProgress ∧ (run b ops).AnimationProgress ≤ 1 := by
  induction ops generalizing b with
  | nil => exact h
  | cons op rest ih => exact ih (op.apply b) (apply_progress_bounds b op h)

/-- At `t = 0` a channel of `lerpColor` is the channel of the first colour. -/
theorem lerpChannel_zero (c1 c2 : ℕ) (h1 : c1 < 256) : lerpChannel c1 c2 0 = c1 := by
  unfold lerpChannel
  rw [mul_zero, f32_zero, f32_natCast c1 (by omega), zero_add, f32_natCast c1 (by omega),
    uint8OfFloat_natCast]
  omega

/-- At `t = 1` a channel of `lerpColor` is the channel of the second colour. -/
theorem lerpChannel_one (c1 c2 : ℕ) (h1 : c1 < 256) (h2 : c2 < 256) :
    lerpChannel c1 c2 1 = c2 := by
  unfold lerpChannel
  have hd := uint8Sub_lt c2 c1
  rw [mul_one, f32_natCast _ (by omega), f32_natCast _ (by omega), f32_natCast c1 (by omega)]
  rw [← Nat.cast_add, f32_natCast _ (by omega), uint8OfFloat_natCast]
  exact uint8Sub_add c2 c1 h2

theorem lerpColor_zero (c1 c2 : RGBA) (h1 : c1.valid) : lerpColor c1 c2 0 = c1 := by
  obtain ⟨hR, hG, hB, hA⟩ := h1
  simp only [lerpColor, lerpChannel_zero _ _ hR, lerpChannel_zero _ _ hG,
    lerpChannel_zero _ _ hB, lerpChannel_zero _ _ hA]

theorem lerpColor_one (c1 c2 : RGBA) (h1 : c1.valid) (h2 : c2.valid) :
    lerpColor c1 c2 1 = c2 := by
  obtain ⟨hR, hG, hB, hA⟩ := h1
  obtain ⟨kR, kG, kB, kA⟩ := h2
  simp only [lerpColor, lerpChannel_one _ _ hR kR, lerpChannel_one _ _ hG kG,
    lerpChannel_one _ _ hB kB, lerpChannel_one _ _ hA kA]

theorem f32_half : f32 (1 / 2) = 1 / 2 := by
  have := f32_grid 1 (-1) (by decide) (by decide)
  norm_num at this ⊢
  exact this

theorem frameTime_eq : frameTime = 8947849 / 536870912 := by
  unfold frameTime
  have := f32_eval (1 / 60) (-6) 8947849 (by norm_num) (by norm_num) (by norm_num)
    (Or.inl (by rw [abs_lt]; constructor <;> norm_num))
  rw [this]; norm_num

theorem animationSpeed_eq : animationSpeed = 8 := by
  unfold animationSpeed
  simpa using f32_intCast 8 (by decide)

theorem animStep_eq : animStep = 8947849 / 67108864 := by
  unfold animStep
  rw [frameTime_eq, animationSpeed_eq]
  have := f32_grid 8947849 (-26) (by decide) (by decide)
  norm_num at this ⊢
  exact this


theorem f32_eighth : f32 (1 / 8) = 1 / 8 := by
  have := f32_grid 1 (-3) (by decide) (by decide)
  norm_num at this ⊢
  exact this

theorem uint8OfFloat_eval (x : ℚ) (n : ℕ) (h0 : (n : ℚ) ≤ x) (h1 : x < n + 1) :
    uint8OfFloat x = n % 256 := by
  unfold uint8OfFloat
  have hx : 0 ≤ x := le_trans (Nat.cast_nonneg n) h0
  rw [if_pos hx]
  have : ⌊x⌋ = (n : ℤ) := by
    rw [Int.floor_eq_iff]
    push_cast
    exact ⟨h0, h1⟩
  rw [this]
  omega

/-- The channel 211 blended towards 200 at `t = 1/8` comes out as 241. -/
theorem lerpChannel_211_200 : lerpChannel 211 200 (1 / 8) = 241 := by
  have hd : uint8Sub 200 211 = 245 := by decide
  have h1 : f32 ((245 : ℕ) : ℚ) = 245 := by simpa using f32_natCast 245 (by norm_num)
  have h2 : f32 ((245 : ℚ) * (1 / 8)) = 245 / 8 := by
    have := f32_grid 245 (-3) (by decide) (by decide)
    norm_num at this ⊢
    exact this
  have h3 : f32 ((211 : ℕ) : ℚ) = 211 := by simpa using f32_natCast 211 (by norm_num)
  have h4 : f32 ((245 : ℚ) / 8 + 211) = 1933 / 8 := by
    have := f32_grid 1933 (-3) (by decide) (by decide)
    norm_num at this ⊢
    exact this
  unfold lerpChannel
  rw [hd, h1, h2, h3, h4]
  rw [uint8OfFloat_eval (1933 / 8) 241 (by norm_num) (by norm_num)]

/-- The channel 255 blended towards 255 stays 255. -/
theorem lerpChannel_255_255 (t : ℚ) : lerpChannel 255 255 t = 255 := by
  have hd : uint8Sub 255 255 = 0 := by decide
  have h3 : f32 ((255 : ℕ) : ℚ) = 255 := by simpa using f32_natCast 255 (by norm_num)
  have h4 : f32 (255 : ℚ) = 255 := by simpa using f32_natCast 255 (by norm_num)
  unfold lerpChannel
  rw [hd, Nat.cast_zero, f32_zero, zero_mul, f32_zero, zero_add, h3, h4]
  rw [uint8OfFloat_eval 255 255 (by norm_num) (by norm_num)]

/-- The progress of the sample button after one frame with the pointer resting on it. -/
theorem sample_hover_progress :
    (Update sampleButton releaseAt10).AnimationProgress = 8947849 / 67108864 := by
  have hin := sample_inside releaseAt10 rfl rfl
  rw [Update_of_enabled sampleButton releaseAt10 rfl rfl]
  show stepAnimation sampleButton.AnimationProgress _ = _
  have hp : sampleButton.AnimationProgress = 0 := rfl
  have hs : f32 (frameTime * animationSpeed) = 8947849 / 67108864 := animStep_eq
  have hf : f32 ((0 : ℚ) + 8947849 / 67108864) = 8947849 / 67108864 := by
    have := f32_grid 8947849 (-26) (by decide) (by decide)
    norm_num at this ⊢
    exact this
  have hm : releaseAt10.mouseLeftPressed = false := rfl
  simp only [hin, hp, hm, stepAnimation, hs, hf, Bool.and_false,
    Bool.false_eq_true, if_false, if_true]
  norm_num

/-- The channel 211 blended towards 200 on the first hover frame comes out as 20. -/
theorem lerpChannel_first_hover : lerpChannel 211 200 (8947849 / 33554432) = 20 := by
  have hd : uint8Sub 200 211 = 245 := by decide
  have h1 : f32 ((245 : ℕ) : ℚ) = 245 := by simpa using f32_natCast 245 (by norm_num)
  have h2 : f32 ((245 : ℚ) * (8947849 / 33554432)) = 8563371 / 131072 := by
    have := f32_eval (245 * (8947849 / 33554432)) 6 8563371 (by norm_num) (by norm_num)
      (by norm_num) (Or.inl (by rw [abs_lt]; constructor <;> norm_num))
    rw [this]; norm_num
  have h3 : f32 ((211 : ℕ) : ℚ) = 211 := by simpa using f32_natCast 211 (by norm_num)
  have h4 : f32 ((8563371 : ℚ) / 131072 + 211) = 9054891 / 32768 := by
    have := f32_eval (8563371 / 131072 + 211) 8 9054891 (by norm_num) (by norm_num)
      (by norm_num) (Or.inl (by rw [abs_lt]; constructor <;> norm_num))
    rw [this]; norm_num
  unfold lerpChannel
  rw [hd, h1, h2, h3, h4]
  rw [uint8OfFloat_eval (9054891 / 32768) 276 (by norm_num) (by norm_num)]

theorem updates_append (b : Button) (frames : List Input) (inp : Input) :
    updates b (frames ++ [inp]) = Update (updates b frames) inp := by
  simp [updates, List.foldl_append]

theorem updates_Enabled (frames : List Input) (b : Button) :
    (updates b frames).Enabled = b.Enabled := by
  induction frames generalizing b with
  | nil => rfl
  | cons inp rest ih =>
    show (updates (Update b inp) rest).Enabled = _
    rw [ih, Update_Enabled]

theorem updates_Uneditable (frames : List Input) (b : Button) :
    (updates b frames).Uneditable = b.Uneditable := by
  induction frames generalizing b with
  | nil => rfl
  | cons inp rest ih =>
    show (updates (Update b inp) rest).Uneditable = _
    rw [ih, Update_Uneditable]

/-- The animation step is the float32 value 0.13333334. -/
theorem animStep_pos : 0 ≤ animStep ∧ animStep < 1 := by
  rw [animStep_eq]
  constructor <;> norm_num

theorem targetProgress_cases (b : Button) (inp : Input) :
    targetProgress b inp = 0 ∨ targetProgress b inp = 1 / 2 ∨ targetProgress b inp = 1 := by
  unfold targetProgress
  split_ifs
  · right; right; rfl
  · right; left; rfl
  · left; rfl

theorem Update_progress (b : Button) (inp : Input) (hE : b.Enabled = true)
    (hU : b.Uneditable = false) :
    (Update b inp).AnimationProgress
      = stepAnimation b.AnimationProgress (targetProgress b inp) := by
  rw [Update_of_enabled b inp hU hE]
  rfl

theorem stepAnimation_eq (p t : ℚ) :
    stepAnimation p t =
      if p < t then min (f32 (p + animStep)) t
      else if t < p then max (f32 (p - animStep)) t else p := by
  simp only [stepAnimation, animStep]
  split_ifs with h1 h2 h3 h4
  · rw [min_eq_right h2.le]
  · rw [min_eq_left (not_lt.mp h2)]
  · rw [max_eq_right h4.le]
  · rw [max_eq_left (not_lt.mp h4)]
  · rfl

/-- On the sample button a frame with the pointer resting at (10, 10) aims at 1/2. -/
theorem sample_hover_target (b : Button) (hB : b.Bounds = sampleButton.Bounds) :
    targetProgress b releaseAt10 = 1 / 2 := by
  have hin := sample_inside releaseAt10 rfl rfl
  have hm : releaseAt10.mouseLeftPressed = false := rfl
  simp only [targetProgress, hB, hin, hm, Bool.and_false, Bool.false_eq_true, if_false,
    if_true]

theorem hoveredTwice_progress : hoveredTwice.AnimationProgress = 8947849 / 33554432 := by
  have h1 := sample_hover_progress
  have hE : (Update sampleButton releaseAt10).Enabled = true := by rw [Update_Enabled]; rfl
  have hU : (Update sampleButton releaseAt10).Uneditable = false := by
    rw [Update_Uneditable]; rfl
  have hB : (Update sampleButton releaseAt10).Bounds = sampleButton.Bounds := Update_Bounds _ _
  show (Update (Update sampleButton releaseAt10) releaseAt10).AnimationProgress = _
  rw [Update_progress _ _ hE hU, stepAnimation_eq, sample_hover_target _ hB, h1, animStep_eq]
  have hf : f32 ((8947849 : ℚ) / 67108864 + 8947849 / 67108864) = 8947849 / 33554432 := by
    have := f32_grid 8947849 (-25) (by decide) (by decide)
    norm_num at this ⊢
    exact this
  rw [if_pos (by norm_num), hf, min_eq_left (by norm_num)]

theorem hoveredTwice_flags :
    hoveredTwice.Enabled = true ∧ hoveredTwice.Uneditable = false ∧
      hoveredTwice.Bounds = sampleButton.Bounds := by
  refine ⟨?_, ?_, ?_⟩
  · show (Update (Update sampleButton releaseAt10) releaseAt10).Enabled = _
    rw [Update_Enabled, Update_Enabled]; rfl
  · show (Update (Update sampleButton releaseAt10) releaseAt10).Uneditable = _
    rw [Update_Uneditable, Update_Uneditable]; rfl
  · show (Update (Update sampleButton releaseAt10) releaseAt10).Bounds = _
    rw [Update_Bounds, Update_Bounds]

theorem hoveredTwice_next :
    (Update hoveredTwice releaseAt10).AnimationProgress = 6710887 / 16777216 := by
  obtain ⟨hE, hU, hB⟩ := hoveredTwice_flags
  rw [Update_progress _ _ hE hU, stepAnimation_eq, sample_hover_target _ hB,
    hoveredTwice_progress, animStep_eq]
  have hf : f32 ((8947849 : ℚ) / 33554432 + 8947849 / 67108864) = 6710887 / 16777216 := by
    have := f32_eval (8947849 / 33554432 + 8947849 / 67108864) (-2) 13421774 (by norm_num)
      (by norm_num) (by norm_num)
      (Or.inr (by constructor <;> norm_num [abs_of_neg, abs_of_pos]))
    rw [this]; norm_num
  rw [if_pos (by norm_num), hf, min_eq_left (by norm_num)]

/-! ## Button: the claims -/

/-- C1, as the code has it: on a button that is enabled and editable, a frame with the
primary button down followed by a frame with it up and the pointer inside the bounds
makes `IsClicked()` true after the second `Update()`, and false after the `Update()`
that follows, whatever that frame's input is. -/
theorem click_pulse_one_update (b : Button) (i1 i2 i3 : Input) (hE : b.Enabled = true)
    (hU : b.Uneditable = false) (h1 : i1.mouseLeftPressed = true)
    (h2 : i2.mouseLeftPressed = false)
    (hin : pointInRect (f32 (i2.cursorX : ℚ)) (f32 (i2.cursorY : ℚ)) b.Bounds = true) :
    IsClicked (Update (Update b i1) i2) = true ∧
      IsClicked (Update (Update (Update b i1) i2) i3) = false := by
  refine ⟨IsClicked_after_release b i1 i2 hE hU h1 h2 hin, ?_⟩
  have hE1 : (Update (Update b i1) i2).Enabled = true := by
    rw [Update_Enabled, Update_Enabled, hE]
  have hU1 : (Update (Update b i1) i2).Uneditable = false := by
    rw [Update_Uneditable, Update_Uneditable, hU]
  have hp : (Update (Update b i1) i2).prevMouseDown = false := by
    have hE0 : (Update b i1).Enabled = true := by rw [Update_Enabled, hE]
    have hU0 : (Update b i1).Uneditable = false := by rw [Update_Uneditable, hU]
    rw [Update_of_enabled _ i2 hU0 hE0]; exact h2
  rw [Update_of_enabled _ i3 hU1 hE1]
  simp [IsClicked, hp]

/-- C1 at the sample button: press at (10, 10), release at (10, 10), press again. -/
theorem click_pulse_one_update_witness :
    sampleButton.Enabled = true ∧ sampleButton.Uneditable = false ∧
      pressAt10.mouseLeftPressed = true ∧ releaseAt10.mouseLeftPressed = false ∧
      pointInRect (f32 (releaseAt10.cursorX : ℚ)) (f32 (releaseAt10.cursorY : ℚ))
        sampleButton.Bounds = true ∧
      IsClicked (Update (Update sampleButton pressAt10) releaseAt10) = true ∧
      IsClicked (Update (Update (Update sampleButton pressAt10) releaseAt10) pressAt10)
        = false :=
  ⟨rfl, rfl, rfl, rfl, sample_inside releaseAt10 rfl rfl,
    click_pulse_one_update sampleButton pressAt10 releaseAt10 pressAt10 rfl rfl rfl rfl
      (sample_inside releaseAt10 rfl rfl)⟩

/-- C1 as stated fails on reachable buttons that are disabled or uneditable. On the
disabled sample button a press followed by a release inside the bounds leaves
`IsClicked()` false. On the sample button made uneditable right after a click, the same
two frames and one more leave `IsClicked()` true: the pulse outlives the next `Update()`. -/
theorem click_pulse_counterexample :
    (pressAt10.mouseLeftPressed = true ∧ releaseAt10.mouseLeftPressed = false ∧
      pointInRect (f32 (releaseAt10.cursorX : ℚ)) (f32 (releaseAt10.cursorY : ℚ))
        disabledButton.Bounds = true ∧
      IsClicked (Update (Update disabledButton pressAt10) releaseAt10) = false) ∧
    (pointInRect (f32 (releaseAt10.cursorX : ℚ)) (f32 (releaseAt10.cursorY : ℚ))
        frozenButton.Bounds = true ∧
      IsClicked (Update (Update (Update frozenButton pressAt10) releaseAt10) releaseAt10)
        = true) := by
  have hin := sample_inside releaseAt10 rfl rfl
  refine ⟨⟨rfl, rfl, hin, ?_⟩, ?_, ?_⟩
  · apply IsClicked_of_disabled
    rw [Update_Enabled, Update_Enabled]
    rfl
  · have : frozenButton.Bounds = sampleButton.Bounds := by
      simp only [frozenButton, run, List.foldl, Op.apply, SetUneditable, Update_Bounds]
    rw [this]; exact hin
  · have hU : frozenButton.Uneditable = true := rfl
    rw [Update_of_uneditable frozenButton _ hU, Update_of_uneditable frozenButton _ hU,
      Update_of_uneditable frozenButton _ hU]
    have := IsClicked_after_release sampleButton pressAt10 releaseAt10 rfl rfl rfl rfl hin
    simpa [frozenButton, run, Op.apply, SetUneditable, IsClicked] using this

/-- C4: after any sequence of `Update()` and setter calls on a button made by
`NewButton`, `AnimationProgress` lies in `[0, 1]`. -/
theorem animation_progress_in_unit_interval (DefaultFont : FontFace) (x y width height : ℚ)
    (label : GoString) (ops : List Op) :
    0 ≤ (run (NewButton DefaultFont x y width height label) ops).AnimationProgress ∧
      (run (NewButton DefaultFont x y width height label) ops).AnimationProgress ≤ 1 :=
  run_progress_bounds ops _ ⟨le_refl _, zero_le_one⟩

/-- C8: on an enabled, editable button `Update()` sets `IsHovered` to the hit test of the
pointer, `IsPressed` to hovered-and-down, makes `IsClicked()` equal to
inside-and-not-down-and-latched-down, and latches the down flag of this frame. -/
theorem update_flags (b : Button) (inp : Input) (hE : b.Enabled = true)
    (hU : b.Uneditable = false) :
    (Update b inp).IsHovered
        = pointInRect (f32 (inp.cursorX : ℚ)) (f32 (inp.cursorY : ℚ)) b.Bounds ∧
      (Update b inp).IsPressed = ((Update b inp).IsHovered && inp.mouseLeftPressed) ∧
      IsClicked (Update b inp)
        = (pointInRect (f32 (inp.cursorX : ℚ)) (f32 (inp.cursorY : ℚ)) b.Bounds &&
            !inp.mouseLeftPressed && b.prevMouseDown) ∧
      (Update b inp).prevMouseDown = inp.mouseLeftPressed := by
  rw [Update_of_enabled b inp hU hE]
  refine ⟨rfl, rfl, ?_, rfl⟩
  simp only [IsClicked, hE, hovers, Bool.true_and]
  cases pointInRect (f32 (inp.cursorX : ℚ)) (f32 (inp.cursorY : ℚ)) b.Bounds <;> rfl

/-- C8 at the sample button with the pointer pressed at (10, 10). -/
theorem update_flags_witness :
    sampleButton.Enabled = true ∧ sampleButton.Uneditable = false ∧
      (Update sampleButton pressAt10).IsHovered
          = pointInRect (f32 (pressAt10.cursorX : ℚ)) (f32 (pressAt10.cursorY : ℚ))
              sampleButton.Bounds ∧
      (Update sampleButton pressAt10).IsPressed
          = ((Update sampleButton pressAt10).IsHovered && pressAt10.mouseLeftPressed) ∧
      IsClicked (Update sampleButton pressAt10)
          = (pointInRect (f32 (pressAt10.cursorX : ℚ)) (f32 (pressAt10.cursorY : ℚ))
              sampleButton.Bounds && !pressAt10.mouseLeftPressed &&
                sampleButton.prevMouseDown) ∧
      (Update sampleButton pressAt10).prevMouseDown = pressAt10.mouseLeftPressed :=
  ⟨rfl, rfl, update_flags sampleButton pressAt10 rfl rfl⟩

/-- C9, as the code has it: on a disabled button that is editable, `Update()` leaves
`IsHovered` and `IsPressed` false for every input; on every disabled button, editable or
not, `IsClicked()` is false before and after `Update()`, which keeps `Enabled` false. -/
theorem disabled_button_update (b : Button) (inp : Input) (hE : b.Enabled = false) :
    (b.Uneditable = false →
        (Update b inp).IsHovered = false ∧ (Update b inp).IsPressed = false) ∧
      IsClicked b = false ∧ (Update b inp).Enabled = false ∧
      IsClicked (Update b inp) = false := by
  have hE1 : (Update b inp).Enabled = false := by rw [Update_Enabled, hE]
  refine ⟨?_, IsClicked_of_disabled b hE, hE1, IsClicked_of_disabled _ hE1⟩
  intro hU
  rw [Update_of_disabled b inp hU hE]
  exact ⟨rfl, rfl⟩

/-- C9 at the disabled sample button with the pointer pressed inside it. -/
theorem disabled_button_update_witness :
    disabledButton.Enabled = false ∧ disabledButton.Uneditable = false ∧
      (Update disabledButton pressAt10).IsHovered = false ∧
      (Update disabledButton pressAt10).IsPressed = false ∧
      IsClicked (Update disabledButton pressAt10) = false :=
  ⟨rfl, rfl, ((disabled_button_update disabledButton pressAt10 rfl).1 rfl).1,
    ((disabled_button_update disabledButton pressAt10 rfl).1 rfl).2,
    (disabled_button_update disabledButton pressAt10 rfl).2.2.2⟩

/-- C9 as stated fails when the disabled button is also uneditable: the sample button,
hovered once, then made uneditable and disabled, still has `IsHovered` true after an
`Update()` whose pointer is far outside the bounds. -/
theorem disabled_button_counterexample :
    frozenDisabledButton.Enabled = false ∧
      (Update frozenDisabledButton releaseFarAway).IsHovered = true := by
  refine ⟨rfl, ?_⟩
  rw [Update_of_uneditable frozenDisabledButton _ rfl]
  have hin := sample_inside releaseAt10 rfl rfl
  have h := Update_of_enabled sampleButton releaseAt10 rfl rfl
  simp only [frozenDisabledButton, run, List.foldl, Op.apply, SetUneditable, SetEnabled, h, hin]

/-- C16 fails on the code: `lerpColor` takes the channel difference in uint8, so a
darker target wraps. Blending the default background 211 towards the default hover 200
at `t = 1/8` gives 241 in every colour channel, above both, where the linear blend is
209; and on the first frame the pointer rests on a new button, `Draw()` selects the
channel value 20. -/
theorem lerp_overshoots_on_darker_target :
    lerpColor ⟨211, 211, 211, 255⟩ ⟨200, 200, 200, 255⟩ (1 / 8) = ⟨241, 241, 241, 255⟩ ∧
      f32 (1 / 8) = 1 / 8 ∧
      currentColor (Update sampleButton releaseAt10) = ⟨20, 20, 20, 255⟩ := by
  refine ⟨?_, f32_eighth, ?_⟩
  · simp only [lerpColor, lerpChannel_211_200, lerpChannel_255_255]
  · have hE : (Update sampleButton releaseAt10).Enabled = true := by
      rw [Update_Enabled]; rfl
    have hbg : (Update sampleButton releaseAt10).BackgroundColor = ⟨211, 211, 211, 255⟩ := by
      rw [Update_of_enabled sampleButton releaseAt10 rfl rfl]; rfl
    have hhv : (Update sampleButton releaseAt10).HoverColor = ⟨200, 200, 200, 255⟩ := by
      rw [Update_of_enabled sampleButton releaseAt10 rfl rfl]; rfl
    have ht : f32 ((8947849 : ℚ) / 67108864 * 2) = 8947849 / 33554432 := by
      have := f32_grid 8947849 (-25) (by decide) (by decide)
      norm_num at this ⊢
      exact this
    simp only [currentColor, hE, sample_hover_progress, hbg, hhv, Bool.not_true,
      Bool.false_eq_true, if_false]
    rw [if_pos (by norm_num), ht]
    simp only [lerpColor, lerpChannel_first_hover, lerpChannel_255_255]

/-- C15: on an enabled button whose colours have uint8 channels, the colour `Draw()`
selects, the value of its local `currentColor`, is `BackgroundColor` at progress 0,
`HoverColor` at progress 1/2 and `PressedColor` at progress 1, channel by channel, also
where the later colour is darker. -/
theorem colour_ramp_endpoints (b : Button) (hE : b.Enabled = true)
    (hbg : b.BackgroundColor.valid) (hhv : b.HoverColor.valid) (hpr : b.PressedColor.valid) :
    (b.AnimationProgress = 0 → currentColor b = b.BackgroundColor) ∧
      (b.AnimationProgress = 1 / 2 → currentColor b = b.HoverColor) ∧
      (b.AnimationProgress = 1 → currentColor b = b.PressedColor) := by
  refine ⟨?_, ?_, ?_⟩
  · intro hp
    simp only [currentColor, hE, hp, Bool.not_true, Bool.false_eq_true, if_false]
    rw [if_pos (by norm_num), zero_mul, f32_zero]
    exact lerpColor_zero _ _ hbg
  · intro hp
    simp only [currentColor, hE, hp, Bool.not_true, Bool.false_eq_true, if_false]
    rw [if_pos (le_refl _)]
    have : (1 / 2 : ℚ) * 2 = 1 := by norm_num
    rw [this, f32_one]
    exact lerpColor_one _ _ hbg hhv
  · intro hp
    simp only [currentColor, hE, hp, Bool.not_true, Bool.false_eq_true, if_false]
    rw [if_neg (by norm_num)]
    have h1 : (1 : ℚ) - 1 / 2 = 1 / 2 := by norm_num
    have h2 : (1 / 2 : ℚ) * 2 = 1 := by norm_num
    rw [h1, f32_half, h2, f32_one]
    exact lerpColor_one _ _ hhv hpr

/-- C15 at the default colours 211, 200, 169 of the sample button. -/
theorem colour_ramp_endpoints_witness :
    sampleButton.Enabled = true ∧ sampleButton.BackgroundColor.valid ∧
      sampleButton.HoverColor.valid ∧ sampleButton.PressedColor.valid ∧
      sampleButton.AnimationProgress = 0 ∧
      currentColor sampleButton = ⟨211, 211, 211, 255⟩ ∧
      currentColor { sampleButton with AnimationProgress := 1 / 2 } = ⟨200, 200, 200, 255⟩ ∧
      currentColor { sampleButton with AnimationProgress := 1 } = ⟨169, 169, 169, 255⟩ :=
  ⟨rfl, by decide, by decide, by decide, rfl,
    (colour_ramp_endpoints sampleButton rfl (by decide) (by decide) (by decide)).1 rfl,
    (colour_ramp_endpoints { sampleButton with AnimationProgress := 1 / 2 } rfl (by decide)
      (by decide) (by decide)).2.1 rfl,
    (colour_ramp_endpoints { sampleButton with AnimationProgress := 1 } rfl (by decide)
      (by decide) (by decide)).2.2 rfl⟩

/-- C17, as the code has it: on a button that is enabled and editable, after every
`Update()` of a run of `Update()` calls the latch equals the down flag of that frame, so
`IsClicked()` is true after an `Update()` only if the primary button was down at the
`Update()` just before it. -/
theorem latch_follows_each_frame (b : Button) (frames : List Input) (inp next : Input)
    (hE : b.Enabled = true) (hU : b.Uneditable = false) :
    (Update (updates b frames) inp).prevMouseDown = inp.mouseLeftPressed ∧
      (IsClicked (Update (Update (updates b frames) inp) next) = true →
        inp.mouseLeftPressed = true) := by
  have hE1 : (updates b frames).Enabled = true := by rw [updates_Enabled, hE]
  have hU1 : (updates b frames).Uneditable = false := by rw [updates_Uneditable, hU]
  have hlatch : (Update (updates b frames) inp).prevMouseDown = inp.mouseLeftPressed := by
    rw [Update_of_enabled _ inp hU1 hE1]
  refine ⟨hlatch, ?_⟩
  intro hc
  have hE2 : (Update (updates b frames) inp).Enabled = true := by rw [Update_Enabled, hE1]
  have hU2 : (Update (updates b frames) inp).Uneditable = false := by
    rw [Update_Uneditable, hU1]
  rw [Update_of_enabled _ next hU2 hE2] at hc
  simp only [IsClicked, Bool.and_eq_true] at hc
  rw [← hlatch]
  exact hc.2.2

/-- C17 at the sample button: a frame with the button up, one with it down, one up. -/
theorem latch_follows_each_frame_witness :
    sampleButton.Enabled = true ∧ sampleButton.Uneditable = false ∧
      (Update (updates sampleButton [releaseAt10]) pressAt10).prevMouseDown
        = pressAt10.mouseLeftPressed ∧
      (IsClicked (Update (Update (updates sampleButton [releaseAt10]) pressAt10) releaseAt10)
          = true → pressAt10.mouseLeftPressed = true) :=
  ⟨rfl, rfl, latch_follows_each_frame sampleButton [releaseAt10] pressAt10 releaseAt10 rfl rfl⟩

/-- C17 as stated fails on a button reachable by the setters alone: after
`SetEnabled(false)`, an `Update()` whose frame has the primary button down leaves the
latch false. -/
theorem latch_counterexample :
    disabledButton = run sampleButton [Op.setEnabled false] ∧
      pressAt10.mouseLeftPressed = true ∧
      (updates disabledButton [pressAt10]).prevMouseDown = false := by
  refine ⟨rfl, rfl, ?_⟩
  show (Update disabledButton pressAt10).prevMouseDown = false
  rw [Update_of_disabled disabledButton pressAt10 rfl rfl]
  rfl

/-- C19, as the code has it: on an enabled, editable button whose progress `p` is a
float32 in `[0, 1]`, with `s` the float32 product `frameTime * animationSpeed` and `t`
the target, `Update()` sets the progress to `min (p + s) t` when `p < t`, to
`max (p - s) t` when `p > t`, the sum and difference rounded to float32, and leaves it
when `p = t`; the new progress lies between `p` and `t`, and its distance to `t` differs
from `max 0 (|p - t| - s)` by at most `2 ^ (-24)`, one float32 rounding. -/
theorem animation_step_tracks_target (b : Button) (inp : Input) (hE : b.Enabled = true)
    (hU : b.Uneditable = false) (hrep : f32 b.AnimationProgress = b.AnimationProgress)
    (h0 : 0 ≤ b.AnimationProgress) (h1 : b.AnimationProgress ≤ 1) :
    (b.AnimationProgress < targetProgress b inp →
        (Update b inp).AnimationProgress
          = min (f32 (b.AnimationProgress + animStep)) (targetProgress b inp)) ∧
      (targetProgress b inp < b.AnimationProgress →
        (Update b inp).AnimationProgress
          = max (f32 (b.AnimationProgress - animStep)) (targetProgress b inp)) ∧
      (b.AnimationProgress = targetProgress b inp →
        (Update b inp).AnimationProgress = b.AnimationProgress) ∧
      min b.AnimationProgress (targetProgress b inp) ≤ (Update b inp).AnimationProgress ∧
      (Update b inp).AnimationProgress ≤ max b.AnimationProgress (targetProgress b inp) ∧
      |(|(Update b inp).AnimationProgress - targetProgress b inp|)
          - max 0 (|b.AnimationProgress - targetProgress b inp| - animStep)|
        ≤ 1 / 16777216 := by
  obtain ⟨hs0, hs1⟩ := animStep_pos
  rw [Update_progress b inp hE hU, stepAnimation_eq]
  generalize targetProgress b inp = t
  generalize b.AnimationProgress = p at hrep h0 h1 ⊢
  have hup : p ≤ f32 (p + animStep) := by
    have := f32_mono (show p ≤ p + animStep by linarith)
    rwa [hrep] at this
  have hdn : f32 (p - animStep) ≤ p := by
    have := f32_mono (show p - animStep ≤ p by linarith)
    rwa [hrep] at this
  have eup : |f32 (p + animStep) - (p + animStep)| ≤ 1 / 16777216 :=
    abs_f32_sub_le _ (by rw [abs_lt]; constructor <;> linarith)
  have edn : |f32 (p - animStep) - (p - animStep)| ≤ 1 / 16777216 :=
    abs_f32_sub_le _ (by rw [abs_lt]; constructor <;> linarith)
  refine ⟨?_, ?_, ?_, ?_, ?_, ?_⟩
  · intro h; rw [if_pos h]
  · intro h; rw [if_neg (not_lt.mpr h.le), if_pos h]
  · intro h; rw [if_neg (by rw [h]; exact lt_irrefl _), if_neg (by rw [h]; exact lt_irrefl _)]
  · split_ifs with c1 c2
    · rw [min_eq_left c1.le]; exact le_min hup c1.le
    · rw [min_eq_right c2.le]; exact le_max_right _ _
    · exact min_le_left _ _
  · split_ifs with c1 c2
    · rw [max_eq_right c1.le]; exact min_le_right _ _
    · rw [max_eq_left c2.le]; exact max_le hdn c2.le
    · exact le_max_left _ _
  · split_ifs with c1 c2
    · -- p < t
      have e1 : |min (f32 (p + animStep)) t - t| = max 0 (t - f32 (p + animStep)) := by
        rw [abs_of_nonpos (by linarith [min_le_right (f32 (p + animStep)) t])]
        rcases le_total (f32 (p + animStep)) t with h | h
        · rw [min_eq_left h, max_eq_right (by linarith)]; ring
        · rw [min_eq_right h, max_eq_left (by linarith)]; ring
      have e2 : |p - t| - animStep = t - (p + animStep) := by
        rw [abs_of_neg (by linarith)]; ring
      rw [e1, e2, max_comm 0, max_comm 0]
      refine le_trans (abs_max_sub_max_le_abs _ _ _) ?_
      have : t - f32 (p + animStep) - (t - (p + animStep))
          = -(f32 (p + animStep) - (p + animStep)) := by ring
      rw [this, abs_neg]
      exact eup
    · -- t < p
      have e1 : |max (f32 (p - animStep)) t - t| = max 0 (f32 (p - animStep) - t) := by
        rw [abs_of_nonneg (by linarith [le_max_right (f32 (p - animStep)) t])]
        rcases le_total (f32 (p - animStep)) t with h | h
        · rw [max_eq_right h, max_eq_left (by linarith)]; ring
        · rw [max_eq_left h, max_eq_right (by linarith)]
      have e2 : |p - t| - animStep = p - animStep - t := by
        rw [abs_of_pos (by linarith)]; ring
      rw [e1, e2, max_comm 0, max_comm 0]
      refine le_trans (abs_max_sub_max_le_abs _ _ _) ?_
      have : f32 (p - animStep) - t - (p - animStep - t)
          = f32 (p - animStep) - (p - animStep) := by ring
      rw [this]
      exact edn
    · have hpt : p = t := le_antisymm (not_lt.mp c2) (not_lt.mp c1)
      rw [hpt, sub_self, abs_zero, max_eq_left (by linarith), sub_self, abs_zero]
      norm_num


/-- C19 at the sample button, progress 0, with the pointer resting on it. -/
theorem animation_step_tracks_target_witness :
    sampleButton.Enabled = true ∧ sampleButton.Uneditable = false ∧
      f32 sampleButton.AnimationProgress = sampleButton.AnimationProgress ∧
      0 ≤ sampleButton.AnimationProgress ∧ sampleButton.AnimationProgress ≤ 1 ∧
      min sampleButton.AnimationProgress (targetProgress sampleButton releaseAt10)
        ≤ (Update sampleButton releaseAt10).AnimationProgress ∧
      (Update sampleButton releaseAt10).AnimationProgress
        ≤ max sampleButton.AnimationProgress (targetProgress sampleButton releaseAt10) :=
  ⟨rfl, rfl, f32_zero, le_refl _, zero_le_one,
    (animation_step_tracks_target sampleButton releaseAt10 rfl rfl f32_zero (le_refl _)
      zero_le_one).2.2.2.1,
    (animation_step_tracks_target sampleButton releaseAt10 rfl rfl f32_zero (le_refl _)
      zero_le_one).2.2.2.2.1⟩

/-- C19 as stated fails at a reachable state: after two frames with the pointer resting
on the sample button the progress is 8947849 / 2^25; the next such frame rounds the sum
with the step 8947849 / 2^26 to 6710887 / 2^24, which is not the exact sum, and whose
distance to the target 1/2 is not `max 0 (|p - t| - s)`, for `s` the float32 step and for
`s = (1/60) * 8` alike. -/
theorem animation_step_counterexample :
    hoveredTwice.Enabled = true ∧ hoveredTwice.Uneditable = false ∧
      hoveredTwice.AnimationProgress = 8947849 / 33554432 ∧
      targetProgress hoveredTwice releaseAt10 = 1 / 2 ∧
      animStep = 8947849 / 67108864 ∧
      (Update hoveredTwice releaseAt10).AnimationProgress = 6710887 / 16777216 ∧
      (Update hoveredTwice releaseAt10).AnimationProgress
        ≠ min (hoveredTwice.AnimationProgress + animStep)
            (targetProgress hoveredTwice releaseAt10) ∧
      |(Update hoveredTwice releaseAt10).AnimationProgress
          - targetProgress hoveredTwice releaseAt10|
        ≠ max 0 (|hoveredTwice.AnimationProgress - targetProgress hoveredTwice releaseAt10|
            - animStep) ∧
      |(Update hoveredTwice releaseAt10).AnimationProgress
          - targetProgress hoveredTwice releaseAt10|
        ≠ max 0 (|hoveredTwice.AnimationProgress - targetProgress hoveredTwice releaseAt10|
            - 1 / 60 * 8) := by
  obtain ⟨hE, hU, hB⟩ := hoveredTwice_flags
  have ht := sample_hover_target hoveredTwice hB
  refine ⟨hE, hU, hoveredTwice_progress, ht, animStep_eq, hoveredTwice_next, ?_, ?_, ?_⟩
  · rw [hoveredTwice_next, hoveredTwice_progress, ht, animStep_eq]
    norm_num
  · rw [hoveredTwice_next, hoveredTwice_progress, ht, animStep_eq]
    norm_num [abs_of_neg]
  · rw [hoveredTwice_next, hoveredTwice_progress, ht]
    norm_num [abs_of_neg]

end button

/-! ## Text field: lemmas -/

theorem goSliceTo_ok (s : GoString) (n : Int) (h0 : 0 ≤ n) (h1 : n ≤ (s.length : Int)) :
    goSliceTo s n = .ok (s.take n.toNat) := by
  simp [goSliceTo, h0, h1]

theorem goSliceFrom_ok (s : GoString) (n : Int) (h0 : 0 ≤ n) (h1 : n ≤ (s.length : Int)) :
    goSliceFrom s n = .ok (s.drop n.toNat) := by
  simp [goSliceFrom, h0, h1]

theorem runeToString_length_pos (r : Int) : 1 ≤ (runeToString r).length := by
  simp only [runeToString, runeError]
  split_ifs <;> simp

theorem runeToString_single (r : Int) (h0 : 0 ≤ r) (h1 : r < 128) :
    (runeToString r).length = 1 := by
  simp only [runeToString]
  rw [if_neg (by omega), if_pos (by omega)]
  rfl

theorem runeToString_length_le (r : Int) : (runeToString r).length ≤ 4 := by
  simp only [runeToString, runeError]
  split_ifs <;> simp

namespace textfield

theorem insertChar_inv (N : Int) (tf : TextField) (ch : Int) (h : Inv N tf) :
    ∃ tf1, insertChar tf ch = .ok tf1 ∧ Inv N tf1 ∧ tf1.IsActive = tf.IsActive := by
  obtain ⟨hM, h0, h1⟩ := h
  unfold insertChar
  split_ifs with hlt
  · rw [goSliceTo_ok _ _ h0 h1, goSliceFrom_ok _ _ h0 h1]
    refine ⟨_, rfl, ⟨hM, ?_, ?_⟩, rfl⟩
    · show 0 ≤ tf.CursorPosition + 1
      omega
    · show tf.CursorPosition + 1 ≤ _
      have := runeToString_length_pos ch
      simp only [List.length_append, List.length_take, List.length_drop]
      omega
  · exact ⟨tf, rfl, ⟨hM, h0, h1⟩, rfl⟩

theorem insertChars_inv (N : Int) (chars : List Int) (tf : TextField) (h : Inv N tf) :
    ∃ tf1, insertChars tf chars = .ok tf1 ∧ Inv N tf1 ∧ tf1.IsActive = tf.IsActive := by
  induction chars generalizing tf with
  | nil => exact ⟨tf, rfl, h, rfl⟩
  | cons ch rest ih =>
    obtain ⟨tf1, h1, hi1, ha1⟩ := insertChar_inv N tf ch h
    obtain ⟨tf2, h2, hi2, ha2⟩ := ih tf1 hi1
    refine ⟨tf2, ?_, hi2, ha2.trans ha1⟩
    simp only [insertChars, h1]
    exact h2

theorem deleteBeforeCursor_inv (N : Int) (tf : TextField) (h : Inv N tf) :
    ∃ tf1, deleteBeforeCursor tf = .ok tf1 ∧ Inv N tf1 ∧ tf1.IsActive = tf.IsActive := by
  obtain ⟨hM, h0, h1⟩ := h
  unfold deleteBeforeCursor
  split_ifs with hpos
  · rw [goSliceTo_ok _ _ (by omega) (by omega), goSliceFrom_ok _ _ h0 h1]
    refine ⟨_, rfl, ⟨hM, ?_, ?_⟩, rfl⟩
    · show 0 ≤ tf.CursorPosition - 1
      omega
    · show tf.CursorPosition - 1 ≤ _
      simp only [List.length_append, List.length_take, List.length_drop]
      omega
  · exact ⟨tf, rfl, ⟨hM, h0, h1⟩, rfl⟩

theorem backspaceStep_inv (N : Int) (tf : TextField) (inp : Input) (h : Inv N tf) :
    ∃ tf1, backspaceStep tf inp = .ok tf1 ∧ Inv N tf1 ∧ tf1.IsActive = tf.IsActive := by
  unfold backspaceStep
  split_ifs
  · exact deleteBeforeCursor_inv N tf h
  · exact ⟨tf, rfl, h, rfl⟩

theorem navigateStep_inv (N : Int) (tf : TextField) (inp : Input) (h : Inv N tf) :
    Inv N (navigateStep tf inp) ∧ (navigateStep tf inp).IsActive = tf.IsActive := by
  obtain ⟨hM, h0, h1⟩ := h
  simp only [navigateStep, Inv]
  split_ifs <;> simp_all <;> omega

theorem backspaceHoldStep_inv (N : Int) (tf : TextField) (inp : Input) (h : Inv N tf) :
    ∃ tf1, backspaceHoldStep tf inp = .ok tf1 ∧ Inv N tf1 ∧ tf1.IsActive = tf.IsActive := by
  simp only [backspaceHoldStep]
  split_ifs
  · exact deleteBeforeCursor_inv N { tf with BackspaceHoldTimer := 1 } h
  · exact ⟨_, rfl, h, rfl⟩
  · exact ⟨_, rfl, h, rfl⟩

theorem selectAllStep_inv (N : Int) (tf : TextField) (inp : Input) (h : Inv N tf) :
    Inv N (selectAllStep tf inp) ∧ (selectAllStep tf inp).IsActive = tf.IsActive := by
  obtain ⟨hM, h0, h1⟩ := h
  simp only [selectAllStep, Inv]
  split_ifs <;> simp_all

theorem pasteText_inv (N : Int) (tf : TextField) (s : GoString) (h : Inv N tf) :
    ∃ tf1, pasteText tf s = .ok tf1 ∧ Inv N tf1 ∧ tf1.IsActive = tf.IsActive := by
  obtain ⟨hM, h0, h1⟩ := h
  simp only [pasteText]
  split_ifs with hr hl
  · rw [goSliceTo_ok s _ (by omega) (by omega), goSliceTo_ok _ _ h0 h1,
      goSliceFrom_ok _ _ h0 h1]
    refine ⟨_, rfl, ⟨hM, ?_, ?_⟩, rfl⟩
    · show 0 ≤ tf.CursorPosition + _
      omega
    · show tf.CursorPosition + _ ≤ _
      simp only [List.length_append, List.length_take, List.length_drop]
      omega
  · rw [goSliceTo_ok _ _ h0 h1, goSliceFrom_ok _ _ h0 h1]
    refine ⟨_, rfl, ⟨hM, ?_, ?_⟩, rfl⟩
    · show 0 ≤ tf.CursorPosition + _
      omega
    · show tf.CursorPosition + _ ≤ _
      simp only [List.length_append, List.length_take, List.length_drop]
      omega
  · exact ⟨tf, rfl, ⟨hM, h0, h1⟩, rfl⟩

/-- The paste block returns with the invariant kept, or aborts on a clipboard error. -/
theorem pasteStep_inv (N : Int) (tf : TextField) (inp : Input) (h : Inv N tf) :
    (∃ tf1, pasteStep tf inp = .ok tf1 ∧ Inv N tf1 ∧ tf1.IsActive = tf.IsActive) ∨
      (pasteStep tf inp = .error .clipboardFailure ∧ inp.pasteClip = none) := by
  unfold pasteStep
  split_ifs with hv
  · cases hc : inp.pasteClip with
    | none => exact Or.inr ⟨rfl, rfl⟩
    | some s =>
      left
      dsimp only
      split_ifs
      · exact pasteText_inv N tf s h
      · exact ⟨tf, rfl, h, rfl⟩
  · exact Or.inl ⟨tf, rfl, h, rfl⟩

theorem editStep_inv (N : Int) (tf : TextField) (inp : Input) (h : Inv N tf) :
    (∃ tf1, editStep tf inp = .ok tf1 ∧ Inv N tf1 ∧ tf1.IsActive = tf.IsActive) ∨
      (editStep tf inp = .error .clipboardFailure ∧ inp.pasteClip = none) := by
  obtain ⟨tf1, e1, i1, a1⟩ := insertChars_inv N inp.inputChars tf h
  obtain ⟨tf2, e2, i2, a2⟩ := backspaceStep_inv N tf1 inp i1
  obtain ⟨i3, a3⟩ := navigateStep_inv N tf2 inp i2
  obtain ⟨tf4, e4, i4, a4⟩ := backspaceHoldStep_inv N _ inp i3
  obtain ⟨i5, a5⟩ := selectAllStep_inv N tf4 inp i4
  have hedit : editStep tf inp = pasteStep (selectAllStep tf4 inp) inp := by
    simp only [editStep, e1, e2, e4, bind, Except.bind]
  rw [hedit]
  rcases pasteStep_inv N _ inp i5 with ⟨tf6, e6, i6, a6⟩ | hfail
  · exact Or.inl ⟨tf6, e6, i6, by rw [a6, a5, a4, a3, a2, a1]⟩
  · exact Or.inr hfail

theorem blinkStep_inv (N : Int) (tf : TextField) (h : Inv N tf) : Inv N (blinkStep tf) := h

theorem clickStep_inv (N : Int) (tf : TextField) (inp : Input) (h : Inv N tf) :
    Inv N (clickStep tf inp) := by
  unfold clickStep
  split_ifs <;> exact h

theorem Update_inv (N : Int) (tf : TextField) (inp : Input) (h : Inv N tf) :
    (∃ tf1, Update tf inp = .ok tf1 ∧ Inv N tf1) ∨
      (Update tf inp = .error .clipboardFailure ∧ inp.pasteClip = none) := by
  simp only [Update]
  split_ifs with hU hA
  · exact Or.inl ⟨tf, rfl, h⟩
  · rcases editStep_inv N _ inp (clickStep_inv N _ inp (blinkStep_inv N tf h)) with
      ⟨tf1, e1, i1, _⟩ | hfail
    · exact Or.inl ⟨tf1, e1, i1⟩
    · exact Or.inr hfail
  · exact Or.inl ⟨_, rfl, clickStep_inv N _ inp (blinkStep_inv N tf h)⟩

theorem SetValue_inv (N : Int) (hN : 0 ≤ N) (tf : TextField) (v : GoString) (h : Inv N tf) :
    ∃ tf1, SetValue tf v = .ok tf1 ∧ Inv N tf1 := by
  obtain ⟨hM, h0, h1⟩ := h
  unfold SetValue
  split_ifs with hlen
  · rw [goSliceTo_ok v _ (by omega) (by omega)]
    exact ⟨_, rfl, hM, Int.natCast_nonneg _, le_refl _⟩
  · exact ⟨_, rfl, hM, Int.natCast_nonneg _, le_refl _⟩

/-- A call keeps the invariant, or it is an `Update` that aborts on a clipboard error. -/
theorem apply_inv (N : Int) (hN : 0 ≤ N) (tf : TextField) (op : Op) (h : Inv N tf) :
    (∃ tf1, op.apply tf = .ok tf1 ∧ Inv N tf1) ∨
      (op.apply tf = .error .clipboardFailure ∧
        ∃ inp, op = .update inp ∧ inp.pasteClip = none) := by
  cases op with
  | update inp =>
    rcases Update_inv N tf inp h with hok | ⟨he, hc⟩
    · exact Or.inl hok
    · exact Or.inr ⟨he, inp, rfl, hc⟩
  | setValue v => exact Or.inl (SetValue_inv N hN tf v h)
  | activate => exact Or.inl ⟨_, rfl, h.1, Int.natCast_nonneg _, le_refl _⟩
  | deactivate => exact Or.inl ⟨_, rfl, h⟩
  | setColors bg bd tx => exact Or.inl ⟨_, rfl, h⟩
  | setFontSize n => exact Or.inl ⟨_, rfl, h⟩
  | setInvisible i => exact Or.inl ⟨_, rfl, h⟩
  | setUneditable u => exact Or.inl ⟨_, rfl, h⟩
  | setPlaceholder p => exact Or.inl ⟨_, rfl, h⟩
  | setFont f => exact Or.inl ⟨_, rfl, h⟩

theorem run_inv (N : Int) (hN : 0 ≤ N) (ops : List Op) (tf : TextField) (h : Inv N tf) :
    (∃ tf1, run tf ops = .ok tf1 ∧ Inv N tf1) ∨
      (run tf ops = .error .clipboardFailure ∧
        ∃ inp, Op.update inp ∈ ops ∧ inp.pasteClip = none) := by
  induction ops generalizing tf with
  | nil => exact Or.inl ⟨tf, rfl, h⟩
  | cons op rest ih =>
    rcases apply_inv N hN tf op h with ⟨tf1, e1, i1⟩ | ⟨he, inp, hop, hc⟩
    · have hrun : run tf (op :: rest) = run tf1 rest := by
        simp only [run, e1, bind, Except.bind]
      rw [hrun]
      rcases ih tf1 i1 with hok | ⟨he, inp, hmem, hc⟩
      · exact Or.inl hok
      · exact Or.inr ⟨he, inp, List.mem_cons_of_mem _ hmem, hc⟩
    · refine Or.inr ⟨?_, inp, ?_, hc⟩
      · simp only [run, he, bind, Except.bind]
      · rw [hop]; exact List.mem_cons_self _ _

theorem NewTextField_inv (DefaultFont : FontFace) (x y width height : ℚ) (N : Int) :
    Inv N (NewTextField DefaultFont x y width height N) :=
  ⟨rfl, le_refl _, le_refl _⟩


theorem bind_ok_inv {ε α β : Type} {x : Except ε α} {f : α → Except ε β} {b : β}
    (h : (x >>= f) = .ok b) : ∃ a, x = .ok a ∧ f a = .ok b := by
  cases x with
  | error e => simp [bind, Except.bind] at h
  | ok a => exact ⟨a, rfl, h⟩

theorem insertChar_IsActive (tf tf1 : TextField) (ch : Int)
    (h : insertChar tf ch = .ok tf1) : tf1.IsActive = tf.IsActive := by
  unfold insertChar at h
  split_ifs at h
  · obtain ⟨a, _, h⟩ := bind_ok_inv h
    obtain ⟨b, _, h⟩ := bind_ok_inv h
    cases h
    rfl
  · cases h
    rfl

theorem insertChars_IsActive (chars : List Int) (tf tf1 : TextField)
    (h : insertChars tf chars = .ok tf1) : tf1.IsActive = tf.IsActive := by
  induction chars generalizing tf with
  | nil => cases h; rfl
  | cons ch rest ih =>
    obtain ⟨a, ha, h⟩ := bind_ok_inv h
    rw [ih a h, insertChar_IsActive tf a ch ha]

theorem deleteBeforeCursor_IsActive (tf tf1 : TextField)
    (h : deleteBeforeCursor tf = .ok tf1) : tf1.IsActive = tf.IsActive := by
  unfold deleteBeforeCursor at h
  split_ifs at h
  · obtain ⟨a, _, h⟩ := bind_ok_inv h
    obtain ⟨b, _, h⟩ := bind_ok_inv h
    cases h
    rfl
  · cases h
    rfl

theorem backspaceStep_IsActive (tf tf1 : TextField) (inp : Input)
    (h : backspaceStep tf inp = .ok tf1) : tf1.IsActive = tf.IsActive := by
  unfold backspaceStep at h
  split_ifs at h
  · exact deleteBeforeCursor_IsActive tf tf1 h
  · cases h
    rfl

theorem navigateStep_IsActive (tf : TextField) (inp : Input) :
    (navigateStep tf inp).IsActive = tf.IsActive := by
  simp only [navigateStep]
  split_ifs <;> rfl

theorem backspaceHoldStep_IsActive (tf tf1 : TextField) (inp : Input)
    (h : backspaceHoldStep tf inp = .ok tf1) : tf1.IsActive = tf.IsActive := by
  simp only [backspaceHoldStep] at h
  split_ifs at h
  · have := deleteBeforeCursor_IsActive _ tf1 h
    exact this
  · cases h
    rfl
  · cases h
    rfl

theorem selectAllStep_IsActive (tf : TextField) (inp : Input) :
    (selectAllStep tf inp).IsActive = tf.IsActive := by
  simp only [selectAllStep]
  split_ifs <;> rfl

theorem pasteText_IsActive (tf tf1 : TextField) (s : GoString)
    (h : pasteText tf s = .ok tf1) : tf1.IsActive = tf.IsActive := by
  simp only [pasteText] at h
  split_ifs at h
  · obtain ⟨a, _, h⟩ := bind_ok_inv h
    obtain ⟨b, _, h⟩ := bind_ok_inv h
    obtain ⟨c, _, h⟩ := bind_ok_inv h
    cases h
    rfl
  · obtain ⟨a, _, h⟩ := bind_ok_inv h
    obtain ⟨b, _, h⟩ := bind_ok_inv h
    obtain ⟨c, _, h⟩ := bind_ok_inv h
    cases h
    rfl
  · cases h
    rfl

theorem pasteStep_IsActive (tf tf1 : TextField) (inp : Input)
    (h : pasteStep tf inp = .ok tf1) : tf1.IsActive = tf.IsActive := by
  unfold pasteStep at h
  split_ifs at h
  · cases hc : inp.pasteClip with
    | none => rw [hc] at h; cases h
    | some s =>
      rw [hc] at h
      dsimp only at h
      split_ifs at h
      · exact pasteText_IsActive tf tf1 s h
      · cases h
        rfl
  · cases h
    rfl

theorem editStep_IsActive (tf tf1 : TextField) (inp : Input)
    (h : editStep tf inp = .ok tf1) : tf1.IsActive = tf.IsActive := by
  unfold editStep at h
  obtain ⟨a, ha, h⟩ := bind_ok_inv h
  obtain ⟨b, hb, h⟩ := bind_ok_inv h
  obtain ⟨c, hc, h⟩ := bind_ok_inv h
  rw [pasteStep_IsActive _ tf1 inp h, selectAllStep_IsActive,
    backspaceHoldStep_IsActive _ c inp hc, navigateStep_IsActive,
    backspaceStep_IsActive a b inp hb, insertChars_IsActive _ tf a ha]

theorem clickStep_blinkStep_Text (tf : TextField) (inp : Input) :
    (clickStep (blinkStep tf) inp).Text = tf.Text ∧
      (clickStep (blinkStep tf) inp).CursorPosition = tf.CursorPosition ∧
      (clickStep (blinkStep tf) inp).MaxLength = tf.MaxLength := by
  unfold clickStep
  split_ifs <;> exact ⟨rfl, rfl, rfl⟩

/-- The value of `clickStep` on the active flag. -/
theorem clickStep_IsActive (tf : TextField) (inp : Input) :
    (clickStep tf inp).IsActive =
      if inp.mouseLeftJustPressed = true then
        pointInRect (f32 (inp.cursorX : ℚ)) (f32 (inp.cursorY : ℚ)) tf.Bounds
      else tf.IsActive := by
  unfold clickStep
  split_ifs with h1 h2
  · exact h2.symm
  · simpa using h2
  · rfl

/-- The text and cursor `pasteText` leaves when the cursor is a valid index. -/
theorem pasteText_eq (tf : TextField) (s : GoString) (h0 : 0 ≤ tf.CursorPosition)
    (h1 : tf.CursorPosition ≤ (tf.Text.length : Int)) :
    pasteText tf s = .ok
      (if 0 < tf.MaxLength - (tf.Text.length : Int) then
        { tf with
          Text := tf.Text.take tf.CursorPosition.toNat ++
            s.take (min (s.length : Int) (tf.MaxLength - (tf.Text.length : Int))).toNat ++
            tf.Text.drop tf.CursorPosition.toNat
          CursorPosition := tf.CursorPosition +
            min (s.length : Int) (tf.MaxLength - (tf.Text.length : Int)) }
      else tf) := by
  simp only [pasteText]
  split_ifs with hr hl
  · rw [goSliceTo_ok s _ (by omega) (by omega), goSliceTo_ok _ _ h0 h1,
      goSliceFrom_ok _ _ h0 h1]
    have hmin : min (s.length : Int) (tf.MaxLength - (tf.Text.length : Int))
        = tf.MaxLength - (tf.Text.length : Int) := min_eq_right (by omega)
    simp only [bind, Except.bind, pure, Except.pure, hmin, List.length_take]
    congr 2
    omega
  · rw [goSliceTo_ok _ _ h0 h1, goSliceFrom_ok _ _ h0 h1]
    have hmin : min (s.length : Int) (tf.MaxLength - (tf.Text.length : Int))
        = (s.length : Int) := min_eq_left (by omega)
    simp only [bind, Except.bind, pure, Except.pure, hmin, Int.toNat_ofNat, List.take_length]
  · rfl

/-- The text and cursor after `pasteText`, in terms of the text, cursor and capacity. -/
theorem pasteText_textAndCursor (tf : TextField) (s : GoString) (h0 : 0 ≤ tf.CursorPosition)
    (h1 : tf.CursorPosition ≤ (tf.Text.length : Int)) :
    textAndCursor (pasteText tf s) = .ok
      (if 0 < tf.MaxLength - (tf.Text.length : Int) then
        (tf.Text.take tf.CursorPosition.toNat ++
            s.take (min (s.length : Int) (tf.MaxLength - (tf.Text.length : Int))).toNat ++
            tf.Text.drop tf.CursorPosition.toNat,
          tf.CursorPosition + min (s.length : Int) (tf.MaxLength - (tf.Text.length : Int)))
      else (tf.Text, tf.CursorPosition)) := by
  rw [pasteText_eq tf s h0 h1]
  simp only [textAndCursor, Except.map]
  split_ifs <;> rfl

/-- On a frame whose only keyboard input is Control+V with a non-empty clipboard, the
edit block resets the hold timer and pastes. -/
theorem editStep_paste_only (tf : TextField) (inp : Input) (s : GoString)
    (hchars : inp.inputChars = []) (hbs : inp.backspaceJustPressed = false)
    (hleft : inp.arrowLeftJustPressed = false) (hright : inp.arrowRightJustPressed = false)
    (hhome : inp.homeJustPressed = false) (hend : inp.endJustPressed = false)
    (hhold : inp.backspacePressed = false) (ha : inp.aJustPressed = false)
    (hv : inp.vJustPressed = true) (hctrl : inp.controlPressed = true)
    (hclip : inp.pasteClip = some s) (hs : s ≠ []) :
    editStep tf inp = pasteText { tf with BackspaceHoldTimer := 0 } s := by
  simp only [editStep, hchars, insertChars, backspaceStep, hbs, navigateStep,
    hleft, hright, hhome, hend, backspaceHoldStep, hhold, selectAllStep, ha, pasteStep, hv,
    hctrl, hclip, bind, Except.bind, pure, Except.pure, Bool.false_and, Bool.and_self,
    if_true, if_false, Bool.false_eq_true, ne_eq, hs, not_false_eq_true]

theorem keptFields_refl (tf : TextField) : keptFields tf tf := ⟨rfl, rfl, rfl, rfl, rfl, rfl⟩

theorem keptFields_trans {a b c : TextField} (h1 : keptFields a b) (h2 : keptFields b c) :
    keptFields a c :=
  ⟨h2.1.trans h1.1, h2.2.1.trans h1.2.1, h2.2.2.1.trans h1.2.2.1,
    h2.2.2.2.1.trans h1.2.2.2.1, h2.2.2.2.2.1.trans h1.2.2.2.2.1,
    h2.2.2.2.2.2.trans h1.2.2.2.2.2⟩

theorem insertChar_kept (tf tf1 : TextField) (ch : Int)
    (h : insertChar tf ch = .ok tf1) : keptFields tf tf1 := by
  unfold insertChar at h
  split_ifs at h
  · obtain ⟨a, _, h⟩ := bind_ok_inv h
    obtain ⟨b, _, h⟩ := bind_ok_inv h
    cases h
    exact ⟨rfl, rfl, rfl, rfl, rfl, rfl⟩
  · cases h
    exact ⟨rfl, rfl, rfl, rfl, rfl, rfl⟩

theorem insertChars_kept (chars : List Int) (tf tf1 : TextField)
    (h : insertChars tf chars = .ok tf1) : keptFields tf tf1 := by
  induction chars generalizing tf with
  | nil => cases h; exact ⟨rfl, rfl, rfl, rfl, rfl, rfl⟩
  | cons ch rest ih =>
    obtain ⟨a, ha, h⟩ := bind_ok_inv h
    exact keptFields_trans (insertChar_kept tf a ch ha) (ih a h)

theorem deleteBeforeCursor_kept (tf tf1 : TextField)
    (h : deleteBeforeCursor tf = .ok tf1) : keptFields tf tf1 := by
  unfold deleteBeforeCursor at h
  split_ifs at h
  · obtain ⟨a, _, h⟩ := bind_ok_inv h
    obtain ⟨b, _, h⟩ := bind_ok_inv h
    cases h
    exact ⟨rfl, rfl, rfl, rfl, rfl, rfl⟩
  · cases h
    exact ⟨rfl, rfl, rfl, rfl, rfl, rfl⟩

theorem backspaceStep_kept (tf tf1 : TextField) (inp : Input)
    (h : backspaceStep tf inp = .ok tf1) : keptFields tf tf1 := by
  unfold backspaceStep at h
  split_ifs at h
  · exact deleteBeforeCursor_kept tf tf1 h
  · cases h
    exact ⟨rfl, rfl, rfl, rfl, rfl, rfl⟩

theorem navigateStep_kept (tf : TextField) (inp : Input) :
    keptFields tf (navigateStep tf inp) := by
  simp only [navigateStep]
  split_ifs <;> exact ⟨rfl, rfl, rfl, rfl, rfl, rfl⟩

theorem selectAllStep_kept (tf : TextField) (inp : Input) :
    keptFields tf (selectAllStep tf inp) := by
  simp only [selectAllStep]
  split_ifs <;> exact ⟨rfl, rfl, rfl, rfl, rfl, rfl⟩

theorem pasteText_kept (tf tf1 : TextField) (s : GoString)
    (h : pasteText tf s = .ok tf1) : keptFields tf tf1 := by
  simp only [pasteText] at h
  split_ifs at h
  · obtain ⟨a, _, h⟩ := bind_ok_inv h
    obtain ⟨b, _, h⟩ := bind_ok_inv h
    obtain ⟨c, _, h⟩ := bind_ok_inv h
    cases h
    exact ⟨rfl, rfl, rfl, rfl, rfl, rfl⟩
  · obtain ⟨a, _, h⟩ := bind_ok_inv h
    obtain ⟨b, _, h⟩ := bind_ok_inv h
    obtain ⟨c, _, h⟩ := bind_ok_inv h
    cases h
    exact ⟨rfl, rfl, rfl, rfl, rfl, rfl⟩
  · cases h
    exact ⟨rfl, rfl, rfl, rfl, rfl, rfl⟩

theorem pasteStep_kept (tf tf1 : TextField) (inp : Input)
    (h : pasteStep tf inp = .ok tf1) : keptFields tf tf1 := by
  unfold pasteStep at h
  split_ifs at h
  · cases hc : inp.pasteClip with
    | none => rw [hc] at h; cases h
    | some s =>
      rw [hc] at h
      dsimp only at h
      split_ifs at h
      · exact pasteText_kept tf tf1 s h
      · cases h
        exact ⟨rfl, rfl, rfl, rfl, rfl, rfl⟩
  · cases h
    exact ⟨rfl, rfl, rfl, rfl, rfl, rfl⟩

/-- The hold block leaves every kept field but the hold timer, which becomes
`heldTimerNext` of the old one when backspace is held and 0 otherwise. -/
theorem backspaceHoldStep_kept (tf tf1 : TextField) (inp : Input)
    (h : backspaceHoldStep tf inp = .ok tf1) :
    tf1.IsActive = tf.IsActive ∧ tf1.Uneditable = tf.Uneditable ∧
      tf1.MaxLength = tf.MaxLength ∧ tf1.CursorBlinkTimer = tf.CursorBlinkTimer ∧
      tf1.Bounds = tf.Bounds ∧
      tf1.BackspaceHoldTimer
        = if inp.backspacePressed = true then heldTimerNext tf.BackspaceHoldTimer else 0 := by
  simp only [backspaceHoldStep] at h
  split_ifs at h with hp ht
  · have k := deleteBeforeCursor_kept _ tf1 h
    refine ⟨k.1, k.2.1, k.2.2.1, k.2.2.2.2.1, k.2.2.2.2.2, ?_⟩
    rw [k.2.2.2.1]
    simp only [heldTimerNext, ht, hp, if_true]
  · cases h
    refine ⟨rfl, rfl, rfl, rfl, rfl, ?_⟩
    simp only [heldTimerNext, ht, hp, if_false, if_true]
  · cases h
    refine ⟨rfl, rfl, rfl, rfl, rfl, ?_⟩
    simp only [Bool.false_eq_true, hp, if_false]

/-- What the edit block does on a field whose cursor is a valid index: it aborts exactly
when Control+V is pressed and the clipboard read fails; otherwise it returns, keeps the
invariant and the mode, and steps the hold timer. -/
theorem editStep_outcome (N : Int) (tf : TextField) (inp : Input) (h : Inv N tf) :
    if (inp.vJustPressed && inp.controlPressed) = true ∧ inp.pasteClip = none then
      editStep tf inp = .error .clipboardFailure
    else
      ∃ tf1, editStep tf inp = .ok tf1 ∧ Inv N tf1 ∧ tf1.IsActive = tf.IsActive ∧
        tf1.Uneditable = tf.Uneditable ∧ tf1.CursorBlinkTimer = tf.CursorBlinkTimer ∧
        tf1.Bounds = tf.Bounds ∧
        tf1.BackspaceHoldTimer
          = if inp.backspacePressed = true then heldTimerNext tf.BackspaceHoldTimer
            else 0 := by
  obtain ⟨tf1, e1, i1, _⟩ := insertChars_inv N inp.inputChars tf h
  obtain ⟨tf2, e2, i2, _⟩ := backspaceStep_inv N tf1 inp i1
  obtain ⟨i3, _⟩ := navigateStep_inv N tf2 inp i2
  obtain ⟨tf4, e4, i4, _⟩ := backspaceHoldStep_inv N _ inp i3
  obtain ⟨i5, _⟩ := selectAllStep_inv N tf4 inp i4
  have k1 := insertChars_kept _ tf tf1 e1
  have k2 := backspaceStep_kept tf1 tf2 inp e2
  have k3 := navigateStep_kept tf2 inp
  have k4 := backspaceHoldStep_kept _ tf4 inp e4
  have k5 := selectAllStep_kept tf4 inp
  have k13 := keptFields_trans (keptFields_trans k1 k2) k3
  have hedit : editStep tf inp = pasteStep (selectAllStep tf4 inp) inp := by
    simp only [editStep, e1, e2, e4, bind, Except.bind]
  rw [hedit]
  by_cases hc : (inp.vJustPressed && inp.controlPressed) = true ∧ inp.pasteClip = none
  · rw [if_pos hc]
    obtain ⟨hv, hclip⟩ := hc
    simp only [pasteStep, hv, hclip, if_true]
  · rw [if_neg hc]
    rcases pasteStep_inv N _ inp i5 with ⟨tf6, e6, i6, _⟩ | ⟨hfail, hclip⟩
    · have k6 := pasteStep_kept _ tf6 inp e6
      have k56 := keptFields_trans k5 k6
      refine ⟨tf6, e6, i6, ?_, ?_, ?_, ?_, ?_⟩
      · rw [k56.1, k4.1, k13.1]
      · rw [k56.2.1, k4.2.1, k13.2.1]
      · rw [k56.2.2.2.2.1, k4.2.2.2.1, k13.2.2.2.2.1]
      · rw [k56.2.2.2.2.2, k4.2.2.2.2.1, k13.2.2.2.2.2]
      · rw [k56.2.2.2.1, k4.2.2.2.2.2, k13.2.2.2.1]
    · exfalso
      apply hc
      refine ⟨?_, hclip⟩
      by_contra hv
      simp only [pasteStep, hv, Bool.false_eq_true, if_false] at hfail
      cases hfail

/-- The float32 value of the constant `1.0 / 60.0`. -/
theorem f32_sixtieth : f32 (1 / 60) = 8947849 / 536870912 := by
  have := f32_eval (1 / 60) (-6) 8947849 (by norm_num) (by norm_num) (by norm_num)
    (Or.inl (by rw [abs_lt]; constructor <;> norm_num))
  rw [this]; norm_num

theorem heldTimer_0 : heldTimer 0 = 0 := rfl

theorem heldTimer_1 : heldTimer 1 = 8947849 / 536870912 := by
  have hsum : f32 ((0 : ℚ) + 8947849 / 536870912) = 8947849 / 536870912 := by
    have := f32_eval ((0 : ℚ) + 8947849 / 536870912) (-6) 8947849 (by norm_num) (by norm_num) (by norm_num)
      (Or.inl (by rw [abs_lt]; constructor <;> norm_num))
    rw [this]; norm_num
  show heldTimerNext (heldTimer 0) = _
  rw [heldTimer_0, heldTimerNext, f32_sixtieth, hsum, if_neg (by norm_num)]

theorem heldTimer_2 : heldTimer 2 = 8947849 / 268435456 := by
  have hsum : f32 ((8947849 / 536870912 : ℚ) + 8947849 / 536870912) = 8947849 / 268435456 := by
    have := f32_eval ((8947849 / 536870912 : ℚ) + 8947849 / 536870912) (-5) 8947849 (by norm_num) (by norm_num) (by norm_num)
      (Or.inl (by rw [abs_lt]; constructor <;> norm_num))
    rw [this]; norm_num
  show heldTimerNext (heldTimer 1) = _
  rw [heldTimer_1, heldTimerNext, f32_sixtieth, hsum, if_neg (by norm_num)]

theorem heldTimer_3 : heldTimer 3 = 6710887 / 134217728 := by
  have hsum : f32 ((8947849 / 268435456 : ℚ) + 8947849 / 536870912) = 6710887 / 134217728 := by
    have := f32_eval ((8947849 / 268435456 : ℚ) + 8947849 / 536870912) (-5) 13421774 (by norm_num) (by norm_num) (by norm_num)
      (Or.inr (by constructor <;> norm_num [abs_of_neg, abs_of_pos]))
    rw [this]; norm_num
  show heldTimerNext (heldTimer 2) = _
  rw [heldTimer_2, heldTimerNext, f32_sixtieth, hsum, if_neg (by norm_num)]

theorem heldTimer_4 : heldTimer 4 = 8947849 / 134217728 := by
  have hsum : f32 ((6710887 / 134217728 : ℚ) + 8947849 / 536870912) = 8947849 / 134217728 := by
    have := f32_eval ((6710887 / 134217728 : ℚ) + 8947849 / 536870912) (-4) 8947849 (by norm_num) (by norm_num) (by norm_num)
      (Or.inl (by rw [abs_lt]; constructor <;> norm_num))
    rw [this]; norm_num
  show heldTimerNext (heldTimer 3) = _
  rw [heldTimer_3, heldTimerNext, f32_sixtieth, hsum, if_neg (by norm_num)]

theorem heldTimer_5 : heldTimer 5 = 11184811 / 134217728 := by
  have hsum : f32 ((8947849 / 134217728 : ℚ) + 8947849 / 536870912) = 11184811 / 134217728 := by
    have := f32_eval ((8947849 / 134217728 : ℚ) + 8947849 / 536870912) (-4) 11184811 (by norm_num) (by norm_num) (by norm_num)
      (Or.inl (by rw [abs_lt]; constructor <;> norm_num))
    rw [this]; norm_num
  show heldTimerNext (heldTimer 4) = _
  rw [heldTimer_4, heldTimerNext, f32_sixtieth, hsum, if_neg (by norm_num)]

theorem heldTimer_6 : heldTimer 6 = 13421773 / 134217728 := by
  have hsum : f32 ((11184811 / 134217728 : ℚ) + 8947849 / 536870912) = 13421773 / 134217728 := by
    have := f32_eval ((11184811 / 134217728 : ℚ) + 8947849 / 536870912) (-4) 13421773 (by norm_num) (by norm_num) (by norm_num)
      (Or.inl (by rw [abs_lt]; constructor <;> norm_num))
    rw [this]; norm_num
  show heldTimerNext (heldTimer 5) = _
  rw [heldTimer_5, heldTimerNext, f32_sixtieth, hsum, if_neg (by norm_num)]

theorem heldTimer_7 : heldTimer 7 = 15658735 / 134217728 := by
  have hsum : f32 ((13421773 / 134217728 : ℚ) + 8947849 / 536870912) = 15658735 / 134217728 := by
    have := f32_eval ((13421773 / 134217728 : ℚ) + 8947849 / 536870912) (-4) 15658735 (by norm_num) (by norm_num) (by norm_num)
      (Or.inl (by rw [abs_lt]; constructor <;> norm_num))
    rw [this]; norm_num
  show heldTimerNext (heldTimer 6) = _
  rw [heldTimer_6, heldTimerNext, f32_sixtieth, hsum, if_neg (by norm_num)]

theorem heldTimer_8 : heldTimer 8 = 8947849 / 67108864 := by
  have hsum : f32 ((15658735 / 134217728 : ℚ) + 8947849 / 536870912) = 8947849 / 67108864 := by
    have := f32_eval ((15658735 / 134217728 : ℚ) + 8947849 / 536870912) (-3) 8947849 (by norm_num) (by norm_num) (by norm_num)
      (Or.inl (by rw [abs_lt]; constructor <;> norm_num))
    rw [this]; norm_num
  show heldTimerNext (heldTimer 7) = _
  rw [heldTimer_7, heldTimerNext, f32_sixtieth, hsum, if_neg (by norm_num)]

theorem heldTimer_9 : heldTimer 9 = 5033165 / 33554432 := by
  have hsum : f32 ((8947849 / 67108864 : ℚ) + 8947849 / 536870912) = 5033165 / 33554432 := by
    have := f32_eval ((8947849 / 67108864 : ℚ) + 8947849 / 536870912) (-3) 10066330 (by norm_num) (by norm_num) (by norm_num)
      (Or.inl (by rw [abs_lt]; constructor <;> norm_num))
    rw [this]; norm_num
  show heldTimerNext (heldTimer 8) = _
  rw [heldTimer_8, heldTimerNext, f32_sixtieth, hsum, if_neg (by norm_num)]

theorem heldTimer_10 : heldTimer 10 = 11184811 / 67108864 := by
  have hsum : f32 ((5033165 / 33554432 : ℚ) + 8947849 / 536870912) = 11184811 / 67108864 := by
    have := f32_eval ((5033165 / 33554432 : ℚ) + 8947849 / 536870912) (-3) 11184811 (by norm_num) (by norm_num) (by norm_num)
      (Or.inl (by rw [abs_lt]; constructor <;> norm_num))
    rw [this]; norm_num
  show heldTimerNext (heldTimer 9) = _
  rw [heldTimer_9, heldTimerNext, f32_sixtieth, hsum, if_neg (by norm_num)]

theorem heldTimer_11 : heldTimer 11 = 3075823 / 16777216 := by
  have hsum : f32 ((11184811 / 67108864 : ℚ) + 8947849 / 536870912) = 3075823 / 16777216 := by
    have := f32_eval ((11184811 / 67108864 : ℚ) + 8947849 / 536870912) (-3) 12303292 (by norm_num) (by norm_num) (by norm_num)
      (Or.inl (by rw [abs_lt]; constructor <;> norm_num))
    rw [this]; norm_num
  show heldTimerNext (heldTimer 10) = _
  rw [heldTimer_10, heldTimerNext, f32_sixtieth, hsum, if_neg (by norm_num)]

theorem heldTimer_12 : heldTimer 12 = 13421773 / 67108864 := by
  have hsum : f32 ((3075823 / 16777216 : ℚ) + 8947849 / 536870912) = 13421773 / 67108864 := by
    have := f32_eval ((3075823 / 16777216 : ℚ) + 8947849 / 536870912) (-3) 13421773 (by norm_num) (by norm_num) (by norm_num)
      (Or.inl (by rw [abs_lt]; constructor <;> norm_num))
    rw [this]; norm_num
  show heldTimerNext (heldTimer 11) = _
  rw [heldTimer_11, heldTimerNext, f32_sixtieth, hsum, if_neg (by norm_num)]

theorem heldTimer_13 : heldTimer 13 = 7270127 / 33554432 := by
  have hsum : f32 ((13421773 / 67108864 : ℚ) + 8947849 / 536870912) = 7270127 / 33554432 := by
    have := f32_eval ((13421773 / 67108864 : ℚ) + 8947849 / 536870912) (-3) 14540254 (by norm_num) (by norm_num) (by norm_num)
      (Or.inl (by rw [abs_lt]; constructor <;> norm_num))
    rw [this]; norm_num
  show heldTimerNext (heldTimer 12) = _
  rw [heldTimer_12, heldTimerNext, f32_sixtieth, hsum, if_neg (by norm_num)]

theorem heldTimer_14 : heldTimer 14 = 15658735 / 67108864 := by
  have hsum : f32 ((7270127 / 33554432 : ℚ) + 8947849 / 536870912) = 15658735 / 67108864 := by
    have := f32_eval ((7270127 / 33554432 : ℚ) + 8947849 / 536870912) (-3) 15658735 (by norm_num) (by norm_num) (by norm_num)
      (Or.inl (by rw [abs_lt]; constructor <;> norm_num))
    rw [this]; norm_num
  show heldTimerNext (heldTimer 13) = _
  rw [heldTimer_13, heldTimerNext, f32_sixtieth, hsum, if_neg (by norm_num)]

theorem heldTimer_15 : heldTimer 15 = 1 / 4 := by
  have hsum : f32 ((15658735 / 67108864 : ℚ) + 8947849 / 536870912) = 1 / 4 := by
    have := f32_eval ((15658735 / 67108864 : ℚ) + 8947849 / 536870912) (-2) 8388608 (by norm_num) (by norm_num) (by norm_num)
      (Or.inl (by rw [abs_lt]; constructor <;> norm_num))
    rw [this]; norm_num
  show heldTimerNext (heldTimer 14) = _
  rw [heldTimer_14, heldTimerNext, f32_sixtieth, hsum, if_neg (by norm_num)]

theorem heldTimer_16 : heldTimer 16 = 8947849 / 33554432 := by
  have hsum : f32 ((1 / 4 : ℚ) + 8947849 / 536870912) = 8947849 / 33554432 := by
    have := f32_eval ((1 / 4 : ℚ) + 8947849 / 536870912) (-2) 8947849 (by norm_num) (by norm_num) (by norm_num)
      (Or.inl (by rw [abs_lt]; constructor <;> norm_num))
    rw [this]; norm_num
  show heldTimerNext (heldTimer 15) = _
  rw [heldTimer_15, heldTimerNext, f32_sixtieth, hsum, if_neg (by norm_num)]

theorem heldTimer_17 : heldTimer 17 = 4753545 / 16777216 := by
  have hsum : f32 ((8947849 / 33554432 : ℚ) + 8947849 / 536870912) = 4753545 / 16777216 := by
    have := f32_eval ((8947849 / 33554432 : ℚ) + 8947849 / 536870912) (-2) 9507090 (by norm_num) (by norm_num) (by norm_num)
      (Or.inl (by rw [abs_lt]; constructor <;> norm_num))
    rw [this]; norm_num
  show heldTimerNext (heldTimer 16) = _
  rw [heldTimer_16, heldTimerNext, f32_sixtieth, hsum, if_neg (by norm_num)]

theorem heldTimer_18 : heldTimer 18 = 10066331 / 33554432 := by
  have hsum : f32 ((4753545 / 16777216 : ℚ) + 8947849 / 536870912) = 10066331 / 33554432 := by
    have := f32_eval ((4753545 / 16777216 : ℚ) + 8947849 / 536870912) (-2) 10066331 (by norm_num) (by norm_num) (by norm_num)
      (Or.inl (by rw [abs_lt]; constructor <;> norm_num))
    rw [this]; norm_num
  show heldTimerNext (heldTimer 17) = _
  rw [heldTimer_17, heldTimerNext, f32_sixtieth, hsum, if_neg (by norm_num)]

theorem heldTimer_19 : heldTimer 19 = 2656393 / 8388608 := by
  have hsum : f32 ((10066331 / 33554432 : ℚ) + 8947849 / 536870912) = 2656393 / 8388608 := by
    have := f32_eval ((10066331 / 33554432 : ℚ) + 8947849 / 536870912) (-2) 10625572 (by norm_num) (by norm_num) (by norm_num)
      (Or.inl (by rw [abs_lt]; constructor <;> norm_num))
    rw [this]; norm_num
  show heldTimerNext (heldTimer 18) = _
  rw [heldTimer_18, heldTimerNext, f32_sixtieth, hsum, if_neg (by norm_num)]

theorem heldTimer_20 : heldTimer 20 = 11184813 / 33554432 := by
  have hsum : f32 ((2656393 / 8388608 : ℚ) + 8947849 / 536870912) = 11184813 / 33554432 := by
    have := f32_eval ((2656393 / 8388608 : ℚ) + 8947849 / 536870912) (-2) 11184813 (by norm_num) (by norm_num) (by norm_num)
      (Or.inl (by rw [abs_lt]; constructor <;> norm_num))
    rw [this]; norm_num
  show heldTimerNext (heldTimer 19) = _
  rw [heldTimer_19, heldTimerNext, f32_sixtieth, hsum, if_neg (by norm_num)]

theorem heldTimer_21 : heldTimer 21 = 5872027 / 16777216 := by
  have hsum : f32 ((11184813 / 33554432 : ℚ) + 8947849 / 536870912) = 5872027 / 16777216 := by
    have := f32_eval ((11184813 / 33554432 : ℚ) + 8947849 / 536870912) (-2) 11744054 (by norm_num) (by norm_num) (by norm_num)
      (Or.inl (by rw [abs_lt]; constructor <;> norm_num))
    rw [this]; norm_num
  show heldTimerNext (heldTimer 20) = _
  rw [heldTimer_20, heldTimerNext, f32_sixtieth, hsum, if_neg (by norm_num)]

theorem heldTimer_22 : heldTimer 22 = 12303295 / 33554432 := by
  have hsum : f32 ((5872027 / 16777216 : ℚ) + 8947849 / 536870912) = 12303295 / 33554432 := by
    have := f32_eval ((5872027 / 16777216 : ℚ) + 8947849 / 536870912) (-2) 12303295 (by norm_num) (by norm_num) (by norm_num)
      (Or.inl (by rw [abs_lt]; constructor <;> norm_num))
    rw [this]; norm_num
  show heldTimerNext (heldTimer 21) = _
  rw [heldTimer_21, heldTimerNext, f32_sixtieth, hsum, if_neg (by norm_num)]

theorem heldTimer_23 : heldTimer 23 = 1607817 / 4194304 := by
  have hsum : f32 ((12303295 / 33554432 : ℚ) + 8947849 / 536870912) = 1607817 / 4194304 := by
    have := f32_eval ((12303295 / 33554432 : ℚ) + 8947849 / 536870912) (-2) 12862536 (by norm_num) (by norm_num) (by norm_num)
      (Or.inl (by rw [abs_lt]; constructor <;> norm_num))
    rw [this]; norm_num
  show heldTimerNext (heldTimer 22) = _
  rw [heldTimer_22, heldTimerNext, f32_sixtieth, hsum, if_neg (by norm_num)]

theorem heldTimer_24 : heldTimer 24 = 13421777 / 33554432 := by
  have hsum : f32 ((1607817 / 4194304 : ℚ) + 8947849 / 536870912) = 13421777 / 33554432 := by
    have := f32_eval ((1607817 / 4194304 : ℚ) + 8947849 / 536870912) (-2) 13421777 (by norm_num) (by norm_num) (by norm_num)
      (Or.inl (by rw [abs_lt]; constructor <;> norm_num))
    rw [this]; norm_num
  show heldTimerNext (heldTimer 23) = _
  rw [heldTimer_23, heldTimerNext, f32_sixtieth, hsum, if_neg (by norm_num)]

theorem heldTimer_25 : heldTimer 25 = 6990509 / 16777216 := by
  have hsum : f32 ((13421777 / 33554432 : ℚ) + 8947849 / 536870912) = 6990509 / 16777216 := by
    have := f32_eval ((13421777 / 33554432 : ℚ) + 8947849 / 536870912) (-2) 13981018 (by norm_num) (by norm_num) (by norm_num)
      (Or.inl (by rw [abs_lt]; constructor <;> norm_num))
    rw [this]; norm_num
  show heldTimerNext (heldTimer 24) = _
  rw [heldTimer_24, heldTimerNext, f32_sixtieth, hsum, if_neg (by norm_num)]

theorem heldTimer_26 : heldTimer 26 = 14540259 / 33554432 := by
  have hsum : f32 ((6990509 / 16777216 : ℚ) + 8947849 / 536870912) = 14540259 / 33554432 := by
    have := f32_eval ((6990509 / 16777216 : ℚ) + 8947849 / 536870912) (-2) 14540259 (by norm_num) (by norm_num) (by norm_num)
      (Or.inl (by rw [abs_lt]; constructor <;> norm_num))
    rw [this]; norm_num
  show heldTimerNext (heldTimer 25) = _
  rw [heldTimer_25, heldTimerNext, f32_sixtieth, hsum, if_neg (by norm_num)]

theorem heldTimer_27 : heldTimer 27 = 3774875 / 8388608 := by
  have hsum : f32 ((14540259 / 33554432 : ℚ) + 8947849 / 536870912) = 3774875 / 8388608 := by
    have := f32_eval ((14540259 / 33554432 : ℚ) + 8947849 / 536870912) (-2) 15099500 (by norm_num) (by norm_num) (by norm_num)
      (Or.inl (by rw [abs_lt]; constructor <;> norm_num))
    rw [this]; norm_num
  show heldTimerNext (heldTimer 26) = _
  rw [heldTimer_26, heldTimerNext, f32_sixtieth, hsum, if_neg (by norm_num)]

theorem heldTimer_28 : heldTimer 28 = 15658741 / 33554432 := by
  have hsum : f32 ((3774875 / 8388608 : ℚ) + 8947849 / 536870912) = 15658741 / 33554432 := by
    have := f32_eval ((3774875 / 8388608 : ℚ) + 8947849 / 536870912) (-2) 15658741 (by norm_num) (by norm_num) (by norm_num)
      (Or.inl (by rw [abs_lt]; constructor <;> norm_num))
    rw [this]; norm_num
  show heldTimerNext (heldTimer 27) = _
  rw [heldTimer_27, heldTimerNext, f32_sixtieth, hsum, if_neg (by norm_num)]

theorem heldTimer_29 : heldTimer 29 = 8108991 / 16777216 := by
  have hsum : f32 ((15658741 / 33554432 : ℚ) + 8947849 / 536870912) = 8108991 / 16777216 := by
    have := f32_eval ((15658741 / 33554432 : ℚ) + 8947849 / 536870912) (-2) 16217982 (by norm_num) (by norm_num) (by norm_num)
      (Or.inl (by rw [abs_lt]; constructor <;> norm_num))
    rw [this]; norm_num
  show heldTimerNext (heldTimer 28) = _
  rw [heldTimer_28, heldTimerNext, f32_sixtieth, hsum, if_neg (by norm_num)]

theorem heldTimer_30 : heldTimer 30 = 1 := by
  have hsum : f32 ((8108991 / 16777216 : ℚ) + 8947849 / 536870912) = 8388611 / 16777216 := by
    have := f32_eval ((8108991 / 16777216 : ℚ) + 8947849 / 536870912) (-1) 8388611 (by norm_num) (by norm_num) (by norm_num)
      (Or.inl (by rw [abs_lt]; constructor <;> norm_num))
    rw [this]; norm_num
  show heldTimerNext (heldTimer 29) = _
  rw [heldTimer_29, heldTimerNext, f32_sixtieth, hsum, if_pos (by norm_num)]

/-- Through the first 29 held frames the hold timer stays at or below the threshold. -/
theorem heldTimer_le_half (n : ℕ) (h : n ≤ 29) : heldTimer n ≤ 1 / 2 := by
  interval_cases n <;> first | (rw [heldTimer_0]; norm_num) | (rw [heldTimer_1]; norm_num) | (rw [heldTimer_2]; norm_num) | (rw [heldTimer_3]; norm_num) | (rw [heldTimer_4]; norm_num) | (rw [heldTimer_5]; norm_num) | (rw [heldTimer_6]; norm_num) | (rw [heldTimer_7]; norm_num) | (rw [heldTimer_8]; norm_num) | (rw [heldTimer_9]; norm_num) | (rw [heldTimer_10]; norm_num) | (rw [heldTimer_11]; norm_num) | (rw [heldTimer_12]; norm_num) | (rw [heldTimer_13]; norm_num) | (rw [heldTimer_14]; norm_num) | (rw [heldTimer_15]; norm_num) | (rw [heldTimer_16]; norm_num) | (rw [heldTimer_17]; norm_num) | (rw [heldTimer_18]; norm_num) | (rw [heldTimer_19]; norm_num) | (rw [heldTimer_20]; norm_num) | (rw [heldTimer_21]; norm_num) | (rw [heldTimer_22]; norm_num) | (rw [heldTimer_23]; norm_num) | (rw [heldTimer_24]; norm_num) | (rw [heldTimer_25]; norm_num) | (rw [heldTimer_26]; norm_num) | (rw [heldTimer_27]; norm_num) | (rw [heldTimer_28]; norm_num) | (rw [heldTimer_29]; norm_num)
theorem heldTimerNext_one : heldTimerNext 1 = 1 := by
  have h : (1 : ℚ) ≤ f32 (1 + f32 (1 / 60)) := by
    have hf : (0 : ℚ) ≤ f32 (1 / 60) := f32_nonneg (by norm_num)
    have := f32_mono (show (1 : ℚ) ≤ 1 + f32 (1 / 60) by linarith)
    have h1 : f32 1 = 1 := by simpa using f32_intCast 1 (by decide)
    rwa [h1] at this
  unfold heldTimerNext
  rw [if_pos (by linarith)]

/-- From the 30th held frame on the hold timer is latched at 1. -/
theorem heldTimer_latched (n : ℕ) (h : 30 ≤ n) : heldTimer n = 1 := by
  induction n with
  | zero => omega
  | succ m ih =>
    rcases Nat.lt_or_ge m 30 with hlt | hge
    · have : m = 29 := by omega
      subst this
      exact heldTimer_30
    · show heldTimerNext (heldTimer m) = 1
      rw [ih hge, heldTimerNext_one]

theorem heldTimerNext_eq_one_iff (t : ℚ) :
    heldTimerNext t = 1 ↔ f32 (t + f32 (1 / 60)) > 1 / 2 := by
  unfold heldTimerNext
  constructor
  · intro h
    by_contra hc
    rw [if_neg hc] at h
    rw [h] at hc
    exact hc (by norm_num)
  · intro h
    rw [if_pos h]

/-- The hold block of the frame after `n` held frames enters its deletion branch exactly
when `n ≥ 29`, that is from the 30th held frame on. -/
theorem heldTimer_fires_iff (n : ℕ) :
    f32 (heldTimer n + f32 (1 / 60)) > 1 / 2 ↔ 29 ≤ n := by
  rw [← heldTimerNext_eq_one_iff]
  show heldTimer (n + 1) = 1 ↔ _
  constructor
  · intro h
    by_contra hc
    have := heldTimer_le_half (n + 1) (by omega)
    rw [h] at this
    norm_num at this
  · intro h
    exact heldTimer_latched (n + 1) (by omega)

theorem clickStep_blinkStep_kept (tf : TextField) (inp : Input) :
    (clickStep (blinkStep tf) inp).Uneditable = tf.Uneditable ∧
      (clickStep (blinkStep tf) inp).BackspaceHoldTimer = tf.BackspaceHoldTimer := by
  unfold clickStep
  split_ifs <;> exact ⟨rfl, rfl⟩

/-- The deletion returns on a valid cursor, with the text and cursor `deleted` gives. -/
theorem deleteBeforeCursor_spec (N : Int) (tf : TextField) (h : Inv N tf) :
    ∃ tf1, deleteBeforeCursor tf = .ok tf1 ∧ Inv N tf1 ∧ keptFields tf tf1 ∧
      (tf1.Text, tf1.CursorPosition) = deleted (tf.Text, tf.CursorPosition) := by
  obtain ⟨tf1, e1, i1, _⟩ := deleteBeforeCursor_inv N tf h
  refine ⟨tf1, e1, i1, deleteBeforeCursor_kept tf tf1 e1, ?_⟩
  obtain ⟨_, h0, h1⟩ := h
  unfold deleteBeforeCursor at e1
  unfold deleted
  split_ifs at e1 with hc
  · rw [goSliceTo_ok _ _ (by omega) (by omega), goSliceFrom_ok _ _ h0 h1] at e1
    cases e1
    simp only [gt_iff_lt] at hc
    rw [if_pos hc]
  · cases e1
    simp only [gt_iff_lt] at hc
    rw [if_neg hc]

theorem backspaceStep_spec (N : Int) (tf : TextField) (inp : Input) (h : Inv N tf) :
    ∃ tf1, backspaceStep tf inp = .ok tf1 ∧ Inv N tf1 ∧ keptFields tf tf1 ∧
      (tf1.Text, tf1.CursorPosition) =
        if inp.backspaceJustPressed = true then deleted (tf.Text, tf.CursorPosition)
        else (tf.Text, tf.CursorPosition) := by
  unfold backspaceStep
  by_cases hj : inp.backspaceJustPressed = true
  · rw [if_pos hj, if_pos hj]
    exact deleteBeforeCursor_spec N tf h
  · rw [if_neg hj, if_neg hj]
    exact ⟨tf, rfl, h, keptFields_refl tf, rfl⟩

theorem backspaceHoldStep_spec (N : Int) (tf : TextField) (inp : Input) (h : Inv N tf) :
    ∃ tf1, backspaceHoldStep tf inp = .ok tf1 ∧ Inv N tf1 ∧
      tf1.IsActive = tf.IsActive ∧ tf1.Uneditable = tf.Uneditable ∧
      tf1.BackspaceHoldTimer
        = (if inp.backspacePressed = true then heldTimerNext tf.BackspaceHoldTimer else 0) ∧
      (tf1.Text, tf1.CursorPosition) =
        if inp.backspacePressed = true ∧ f32 (tf.BackspaceHoldTimer + f32 (1 / 60)) > 1 / 2
        then deleted (tf.Text, tf.CursorPosition) else (tf.Text, tf.CursorPosition) := by
  obtain ⟨tf1, e1, i1, _⟩ := backspaceHoldStep_inv N tf inp h
  have k := backspaceHoldStep_kept tf tf1 inp e1
  refine ⟨tf1, e1, i1, k.1, k.2.1, k.2.2.2.2.2, ?_⟩
  simp only [backspaceHoldStep] at e1
  by_cases hp : inp.backspacePressed = true
  · by_cases ht : f32 (tf.BackspaceHoldTimer + f32 (1 / 60)) > 1 / 2
    · rw [if_pos hp, if_pos ht] at e1
      rw [if_pos ⟨hp, ht⟩]
      obtain ⟨tf2, e2, _, _, htext⟩ :=
        deleteBeforeCursor_spec N { tf with BackspaceHoldTimer := 1 } h
      rw [e2] at e1
      cases e1
      exact htext
    · rw [if_pos hp, if_neg ht] at e1
      rw [if_neg (fun hc => ht hc.2)]
      cases e1
      rfl
  · rw [if_neg hp] at e1
    rw [if_neg (fun hc => hp hc.1)]
    cases e1
    rfl

/-- On a frame with no typed character and no key but backspace, the edit block is the
single-press block followed by the hold block. -/
theorem editStep_backspace_only (tf : TextField) (inp : Input)
    (hchars : inp.inputChars = []) (hleft : inp.arrowLeftJustPressed = false)
    (hright : inp.arrowRightJustPressed = false) (hhome : inp.homeJustPressed = false)
    (hend : inp.endJustPressed = false) (ha : inp.aJustPressed = false)
    (hv : inp.vJustPressed = false) :
    editStep tf inp = (backspaceStep tf inp >>= fun tf2 => backspaceHoldStep tf2 inp) := by
  simp only [editStep, hchars, insertChars, navigateStep, hleft, hright, hhome, hend,
    selectAllStep, ha, pasteStep, hv, Bool.false_and, Bool.false_eq_true, if_false,
    pure_bind, bind_pure]

/-- One frame on an editable field that is active after the click step, with no typed
character and no key but backspace: the text, the cursor and the hold timer it leaves. -/
theorem backspace_frame (N : Int) (tf : TextField) (inp : Input) (h : Inv N tf)
    (hU : tf.Uneditable = false) (hA : (clickStep (blinkStep tf) inp).IsActive = true)
    (hchars : inp.inputChars = []) (hleft : inp.arrowLeftJustPressed = false)
    (hright : inp.arrowRightJustPressed = false) (hhome : inp.homeJustPressed = false)
    (hend : inp.endJustPressed = false) (ha : inp.aJustPressed = false)
    (hv : inp.vJustPressed = false) :
    ∃ tf1, Update tf inp = .ok tf1 ∧ Inv N tf1 ∧ tf1.IsActive = true ∧
      tf1.Uneditable = false ∧
      tf1.BackspaceHoldTimer
        = (if inp.backspacePressed = true then heldTimerNext tf.BackspaceHoldTimer else 0) ∧
      (tf1.Text, tf1.CursorPosition) =
        if inp.backspacePressed = true ∧ f32 (tf.BackspaceHoldTimer + f32 (1 / 60)) > 1 / 2
        then
          deleted (if inp.backspaceJustPressed = true then deleted (tf.Text, tf.CursorPosition)
            else (tf.Text, tf.CursorPosition))
        else
          (if inp.backspaceJustPressed = true then deleted (tf.Text, tf.CursorPosition)
            else (tf.Text, tf.CursorPosition)) := by
  obtain ⟨hT, hC, hM⟩ := clickStep_blinkStep_Text tf inp
  obtain ⟨hU1, hH1⟩ := clickStep_blinkStep_kept tf inp
  have i1 : Inv N (clickStep (blinkStep tf) inp) := clickStep_inv N _ inp (blinkStep_inv N tf h)
  have hupd : Update tf inp = editStep (clickStep (blinkStep tf) inp) inp := by
    simp only [Update, hU, hA, Bool.false_eq_true, if_false, if_true]
  obtain ⟨tf2, e2, i2, k2, t2⟩ := backspaceStep_spec N _ inp i1
  obtain ⟨tf3, e3, i3, a3, u3, h3, t3⟩ := backspaceHoldStep_spec N tf2 inp i2
  refine ⟨tf3, ?_, i3, ?_, ?_, ?_, ?_⟩
  · rw [hupd, editStep_backspace_only _ inp hchars hleft hright hhome hend ha hv, e2]
    exact e3
  · rw [a3, k2.1, hA]
  · rw [u3, k2.2.1, hU1, hU]
  · rw [h3, k2.2.2.2.1, hH1]
  · rw [t3, k2.2.2.2.1, hH1, t2, hT, hC]

theorem run_append (ops1 ops2 : List Op) (tf : TextField) :
    run tf (ops1 ++ ops2) = (run tf ops1 >>= fun tf1 => run tf1 ops2) := by
  induction ops1 generalizing tf with
  | nil => rfl
  | cons op rest ih =>
    simp only [List.cons_append, run]
    cases op.apply tf with
    | error e => rfl
    | ok tf1 => exact ih tf1

theorem run_update_cons (tf tf1 : TextField) (inp : Input) (rest : List Op)
    (h : Update tf inp = .ok tf1) : run tf (Op.update inp :: rest) = run tf1 rest := by
  simp only [run, Op.apply, h, bind, Except.bind]

/-- One frame with backspace held, no fresh click and a readable clipboard, on an active
editable field: it returns, the field stays active and the hold timer takes its next
value. -/
theorem held_frame (N : Int) (tf : TextField) (inp : Input) (h : Inv N tf)
    (hU : tf.Uneditable = false) (hA : tf.IsActive = true)
    (hp : inp.backspacePressed = true) (hm : inp.mouseLeftJustPressed = false)
    (hc : inp.pasteClip ≠ none) :
    ∃ tf1, Update tf inp = .ok tf1 ∧ Inv N tf1 ∧ tf1.Uneditable = false ∧
      tf1.IsActive = true ∧ tf1.BackspaceHoldTimer = heldTimerNext tf.BackspaceHoldTimer := by
  have hclick : clickStep (blinkStep tf) inp = blinkStep tf := by
    simp only [clickStep, hm, Bool.false_eq_true, if_false]
  have hupd : Update tf inp = editStep (blinkStep tf) inp := by
    simp only [Update, hU, hclick, Bool.false_eq_true, if_false]
    rw [if_pos (show (blinkStep tf).IsActive = true from hA)]
  have hout := editStep_outcome N (blinkStep tf) inp (blinkStep_inv N tf h)
  rw [if_neg (fun hx => hc hx.2)] at hout
  obtain ⟨tf1, e1, i1, a1, u1, _, _, t1⟩ := hout
  refine ⟨tf1, hupd.trans e1, i1, ?_, ?_, ?_⟩
  · rw [u1]; exact hU
  · rw [a1]; exact hA
  · rw [t1, if_pos hp]; rfl

/-- A run of frames with backspace held: it returns and the hold timer follows
`heldTimer`. -/
theorem held_frames (N : Int) (frames : List Input) (tf : TextField) (k : ℕ)
    (h : Inv N tf) (hU : tf.Uneditable = false) (hA : tf.IsActive = true)
    (hk : tf.BackspaceHoldTimer = heldTimer k)
    (hheld : ∀ inp ∈ frames, inp.backspacePressed = true ∧
      inp.mouseLeftJustPressed = false ∧ inp.pasteClip ≠ none) :
    ∃ tfn, run tf (frames.map Op.update) = .ok tfn ∧ Inv N tfn ∧ tfn.Uneditable = false ∧
      tfn.IsActive = true ∧ tfn.BackspaceHoldTimer = heldTimer (k + frames.length) := by
  induction frames generalizing tf k with
  | nil => exact ⟨tf, rfl, h, hU, hA, hk⟩
  | cons inp rest ih =>
    obtain ⟨hp, hm, hc⟩ := hheld inp (List.mem_cons_self _ _)
    obtain ⟨tf1, e1, i1, u1, a1, t1⟩ := held_frame N tf inp h hU hA hp hm hc
    have hk1 : tf1.BackspaceHoldTimer = heldTimer (k + 1) := by
      rw [t1, hk]; rfl
    obtain ⟨tfn, en, inn, un, an, tn⟩ :=
      ih tf1 (k + 1) i1 u1 a1 hk1 (fun i hi => hheld i (List.mem_cons_of_mem _ hi))
    refine ⟨tfn, ?_, inn, un, an, ?_⟩
    · rw [List.map_cons, run_update_cons tf tf1 inp _ e1]
      exact en
    · rw [tn, List.length_cons]
      congr 1
      omega

/-- One frame whose only input is backspace held, after `k` held frames. -/
theorem holdOnly_frame (N : Int) (tf : TextField) (k : ℕ) (h : Inv N tf)
    (hU : tf.Uneditable = false) (hA : tf.IsActive = true)
    (hk : tf.BackspaceHoldTimer = heldTimer k) :
    ∃ tf1, Update tf holdOnly = .ok tf1 ∧ Inv N tf1 ∧ tf1.Uneditable = false ∧
      tf1.IsActive = true ∧ tf1.BackspaceHoldTimer = heldTimer (k + 1) ∧
      (tf1.Text, tf1.CursorPosition) =
        if 29 ≤ k then deleted (tf.Text, tf.CursorPosition)
        else (tf.Text, tf.CursorPosition) := by
  have hclick : (clickStep (blinkStep tf) holdOnly).IsActive = true := by
    rw [clickStep_IsActive]
    exact hA
  obtain ⟨tf1, e1, i1, a1, u1, t1, x1⟩ :=
    backspace_frame N tf holdOnly h hU hclick rfl rfl rfl rfl rfl rfl rfl
  refine ⟨tf1, e1, i1, u1, a1, ?_, ?_⟩
  · rw [t1, hk]; rfl
  · rw [x1, hk]
    have hj : holdOnly.backspaceJustPressed = false := rfl
    have hp : holdOnly.backspacePressed = true := rfl
    simp only [hj, hp, Bool.false_eq_true, if_false, true_and, heldTimer_fires_iff]

/-- A run of `n` frames whose only input is backspace held, after `k` held frames: the
frames numbered 30 and above each delete the byte before the cursor. -/
theorem holdFrames_run (N : Int) (n : ℕ) (tf : TextField) (k : ℕ) (h : Inv N tf)
    (hU : tf.Uneditable = false) (hA : tf.IsActive = true)
    (hk : tf.BackspaceHoldTimer = heldTimer k) :
    ∃ tfn, run tf (holdFrames n) = .ok tfn ∧ Inv N tfn ∧ tfn.Uneditable = false ∧
      tfn.IsActive = true ∧ tfn.BackspaceHoldTimer = heldTimer (k + n) ∧
      (tfn.Text, tfn.CursorPosition)
        = deleted^[k + n - max k 29] (tf.Text, tf.CursorPosition) := by
  induction n generalizing tf k with
  | zero =>
    refine ⟨tf, rfl, h, hU, hA, hk, ?_⟩
    have : k + 0 - max k 29 = 0 := by omega
    rw [this]; rfl
  | succ m ih =>
    obtain ⟨tf1, e1, i1, u1, a1, t1, x1⟩ := holdOnly_frame N tf k h hU hA hk
    obtain ⟨tfn, en, inn, un, an, tn, xn⟩ := ih tf1 (k + 1) i1 u1 a1 t1
    refine ⟨tfn, ?_, inn, un, an, ?_, ?_⟩
    · show run tf (Op.update holdOnly :: holdFrames m) = _
      rw [run_update_cons tf tf1 holdOnly _ e1]
      exact en
    · rw [tn]; congr 1; omega
    · rw [xn, x1]
      by_cases hk29 : 29 ≤ k
      · rw [if_pos hk29]
        have : k + (m + 1) - max k 29 = (k + 1 + m - max (k + 1) 29) + 1 := by omega
        rw [this, Function.iterate_succ_apply]
      · rw [if_neg hk29]
        have : k + (m + 1) - max k 29 = k + 1 + m - max (k + 1) 29 := by omega
        rw [this]

theorem Update_of_inactive (tf : TextField) (inp : Input) (hU : tf.Uneditable = false)
    (hI : (clickStep (blinkStep tf) inp).IsActive = false) :
    Update tf inp = .ok (clickStep (blinkStep tf) inp) := by
  simp only [Update, hU, hI, Bool.false_eq_true, if_false]
  rfl

/-- A frame with no click on an inactive editable field returns and keeps the text, the
cursor and the hold timer. -/
theorem idle_frame_inactive (tf : TextField) (hU : tf.Uneditable = false)
    (hI : tf.IsActive = false) :
    ∃ tf1, Update tf idle = .ok tf1 ∧ tf1.Text = tf.Text ∧
      tf1.CursorPosition = tf.CursorPosition ∧ tf1.MaxLength = tf.MaxLength ∧
      tf1.Uneditable = false ∧ tf1.BackspaceHoldTimer = tf.BackspaceHoldTimer := by
  have hclick : (clickStep (blinkStep tf) idle).IsActive = false := by
    rw [clickStep_IsActive]
    exact hI
  obtain ⟨hT, hC, hM⟩ := clickStep_blinkStep_Text tf idle
  obtain ⟨hU1, hH1⟩ := clickStep_blinkStep_kept tf idle
  exact ⟨_, Update_of_inactive tf idle hU hclick, hT, hC, hM, hU1.trans hU, hH1⟩

/-- On a frame with no typed character, no backspace and neither shortcut, the edit block
moves the cursor as the navigation keys say and resets the hold timer. -/
theorem editStep_navigation_only (tf : TextField) (inp : Input)
    (hchars : inp.inputChars = []) (hbs : inp.backspaceJustPressed = false)
    (hhold : inp.backspacePressed = false) (ha : inp.aJustPressed = false)
    (hv : inp.vJustPressed = false) :
    editStep tf inp = .ok { navigateStep tf inp with BackspaceHoldTimer := 0 } := by
  simp only [editStep, hchars, insertChars, backspaceStep, hbs, backspaceHoldStep, hhold,
    selectAllStep, ha, pasteStep, hv, Bool.false_and, Bool.false_eq_true, if_false,
    pure_bind]
  rfl

/-- The text and cursor after a frame whose only keys are navigation keys. -/
theorem navigation_frame (tf : TextField) (inp : Input) (hU : tf.Uneditable = false)
    (hA : (clickStep (blinkStep tf) inp).IsActive = true)
    (hchars : inp.inputChars = []) (hbs : inp.backspaceJustPressed = false)
    (hhold : inp.backspacePressed = false) (ha : inp.aJustPressed = false)
    (hv : inp.vJustPressed = false) :
    textAndCursor (Update tf inp) = .ok
      ((navigateStep (clickStep (blinkStep tf) inp) inp).Text,
        (navigateStep (clickStep (blinkStep tf) inp) inp).CursorPosition) := by
  have hupd : Update tf inp = editStep (clickStep (blinkStep tf) inp) inp := by
    simp only [Update, hU, hA, Bool.false_eq_true, if_false, if_true]
  rw [hupd, editStep_navigation_only _ inp hchars hbs hhold ha hv]
  rfl

theorem blinkStep_timer (tf : TextField) :
    (blinkStep tf).CursorBlinkTimer = blinkNext tf.CursorBlinkTimer := rfl

theorem clickStep_timer (tf : TextField) (inp : Input) :
    (clickStep tf inp).CursorBlinkTimer = tf.CursorBlinkTimer := by
  unfold clickStep
  split_ifs <;> rfl

theorem editStep_blink (tf tf1 : TextField) (inp : Input)
    (h : editStep tf inp = .ok tf1) : tf1.CursorBlinkTimer = tf.CursorBlinkTimer := by
  unfold editStep at h
  obtain ⟨a, ha, h⟩ := bind_ok_inv h
  obtain ⟨b, hb, h⟩ := bind_ok_inv h
  obtain ⟨c, hc, h⟩ := bind_ok_inv h
  have k1 := insertChars_kept _ tf a ha
  have k2 := backspaceStep_kept a b inp hb
  have k3 := navigateStep_kept b inp
  have k4 := backspaceHoldStep_kept _ c inp hc
  have k5 := selectAllStep_kept c inp
  have k6 := pasteStep_kept _ tf1 inp h
  rw [k6.2.2.2.2.1, k5.2.2.2.2.1, k4.2.2.2.1, k3.2.2.2.2.1, k2.2.2.2.2.1, k1.2.2.2.2.1]

/-- Whenever `Update` returns on an editable field, the blink timer is `blinkNext` of the
old one. -/
theorem Update_blink (tf tf1 : TextField) (inp : Input) (hU : tf.Uneditable = false)
    (h : Update tf inp = .ok tf1) :
    tf1.CursorBlinkTimer = blinkNext tf.CursorBlinkTimer := by
  simp only [Update, hU, Bool.false_eq_true, if_false] at h
  split_ifs at h with hA
  · rw [editStep_blink _ tf1 inp h, clickStep_timer, blinkStep_timer]
  · cases h
    rw [clickStep_timer, blinkStep_timer]

theorem blinkNext_range (t : ℚ) (h0 : 0 ≤ t) : 0 ≤ blinkNext t ∧ blinkNext t < 1 := by
  have hf : (0 : ℚ) ≤ f32 (1 / 60) := f32_nonneg (by norm_num)
  have hs : 0 ≤ f32 (t + f32 (1 / 60)) := f32_nonneg (by linarith)
  unfold blinkNext
  split_ifs with hc
  · exact ⟨le_refl _, by norm_num⟩
  · exact ⟨hs, not_le.mp hc⟩

theorem blinkNext_eq (t : ℚ) :
    blinkNext t = if f32 (t + f32 (1 / 60)) < 1 then f32 (t + f32 (1 / 60)) else 0 := by
  unfold blinkNext
  split_ifs with h1 h2 h2
  · exact absurd h2 (not_lt.mpr h1)
  · rfl
  · rfl
  · exact absurd (not_lt.mp h2) h1

theorem Update_blinkInRange (tf tf1 : TextField) (inp : Input) (hr : blinkInRange tf)
    (h : Update tf inp = .ok tf1) : blinkInRange tf1 := by
  by_cases hU : tf.Uneditable = true
  · simp only [Update, hU, if_true] at h
    cases h
    exact hr
  · have hU0 : tf.Uneditable = false := by simpa using hU
    unfold blinkInRange
    rw [Update_blink tf tf1 inp hU0 h]
    exact blinkNext_range _ hr.1

theorem SetValue_blink (tf tf1 : TextField) (v : GoString) (h : SetValue tf v = .ok tf1) :
    tf1.CursorBlinkTimer = tf.CursorBlinkTimer := by
  unfold SetValue at h
  split_ifs at h
  · obtain ⟨a, _, h⟩ := bind_ok_inv h
    cases h
    rfl
  · cases h
    rfl

theorem apply_blinkInRange (tf tf1 : TextField) (op : Op) (hr : blinkInRange tf)
    (h : op.apply tf = .ok tf1) : blinkInRange tf1 := by
  cases op with
  | update inp => exact Update_blinkInRange tf tf1 inp hr h
  | setValue v =>
    unfold blinkInRange
    rw [SetValue_blink tf tf1 v h]
    exact hr
  | activate => cases h; exact hr
  | deactivate => cases h; exact hr
  | setColors bg bd tx => cases h; exact hr
  | setFontSize n => cases h; exact hr
  | setInvisible i => cases h; exact hr
  | setUneditable u => cases h; exact hr
  | setPlaceholder p => cases h; exact hr
  | setFont f => cases h; exact hr

theorem run_blinkInRange (ops : List Op) (tf tfn : TextField) (hr : blinkInRange tf)
    (h : run tf ops = .ok tfn) : blinkInRange tfn := by
  induction ops generalizing tf with
  | nil => cases h; exact hr
  | cons op rest ih =>
    obtain ⟨a, ha, h⟩ := bind_ok_inv h
    exact ih a (apply_blinkInRange tf a op hr ha) h

/-- What `Update` does on a field whose cursor is a valid index: it aborts on a failing
clipboard read, and returns with the cursor still valid otherwise. -/
theorem Update_outcome (N : Int) (tf : TextField) (inp : Input) (h : Inv N tf) :
    if pasteFails tf inp then Update tf inp = .error .clipboardFailure
    else ∃ tf1, Update tf inp = .ok tf1 ∧ Inv N tf1 := by
  by_cases hU : tf.Uneditable = true
  · have hnf : ¬ pasteFails tf inp := fun hf => by
      rw [hf.1] at hU; cases hU
    rw [if_neg hnf]
    refine ⟨tf, ?_, h⟩
    simp only [Update, hU, if_true]; rfl
  · have hU0 : tf.Uneditable = false := by simpa using hU
    have i1 : Inv N (clickStep (blinkStep tf) inp) :=
      clickStep_inv _ _ inp (blinkStep_inv _ tf h)
    by_cases hA : (clickStep (blinkStep tf) inp).IsActive = true
    · have hupd : Update tf inp = editStep (clickStep (blinkStep tf) inp) inp := by
        simp only [Update, hU0, hA, Bool.false_eq_true, if_false, if_true]
      have hout := editStep_outcome N _ inp i1
      rw [hupd]
      by_cases hc : (inp.vJustPressed && inp.controlPressed) = true ∧ inp.pasteClip = none
      · rw [if_pos hc] at hout
        have hf : pasteFails tf inp := by
          have := Bool.and_eq_true_iff.mp hc.1
          exact ⟨hU0, hA, this.1, this.2, hc.2⟩
        rw [if_pos hf]
        exact hout
      · rw [if_neg hc] at hout
        obtain ⟨tf1, e1, i2, _⟩ := hout
        have hnf : ¬ pasteFails tf inp := fun hf =>
          hc ⟨by rw [hf.2.2.1, hf.2.2.2.1]; rfl, hf.2.2.2.2⟩
        rw [if_neg hnf]
        exact ⟨tf1, e1, i2⟩
    · have hI : (clickStep (blinkStep tf) inp).IsActive = false := by simpa using hA
      have hnf : ¬ pasteFails tf inp := fun hf => hA hf.2.1
      rw [if_neg hnf, Update_of_inactive tf inp hU0 hI]
      exact ⟨_, rfl, i1⟩

theorem insertChar_bounded (N : Int) (tf : TextField) (ch : Int) (h : Bounded N tf)
    (hch : 0 ≤ ch ∧ ch < 128) :
    ∃ tf1, insertChar tf ch = .ok tf1 ∧ Bounded N tf1 := by
  obtain ⟨⟨hM, h0, h1⟩, hlen⟩ := h
  unfold insertChar
  split_ifs with hlt
  · rw [goSliceTo_ok _ _ h0 h1, goSliceFrom_ok _ _ h0 h1]
    have hr := runeToString_single ch hch.1 hch.2
    refine ⟨_, rfl, ⟨hM, ?_, ?_⟩, ?_⟩
    · show 0 ≤ tf.CursorPosition + 1
      omega
    · show tf.CursorPosition + 1 ≤ _
      simp only [List.length_append, List.length_take, List.length_drop, hr]
      omega
    · show ((_ : GoString).length : Int) ≤ N
      simp only [List.length_append, List.length_take, List.length_drop, hr]
      omega
  · exact ⟨tf, rfl, ⟨hM, h0, h1⟩, hlen⟩

theorem insertChars_bounded (N : Int) (chars : List Int) (tf : TextField)
    (h : Bounded N tf) (hch : ∀ ch ∈ chars, 0 ≤ ch ∧ ch < 128) :
    ∃ tf1, insertChars tf chars = .ok tf1 ∧ Bounded N tf1 := by
  induction chars generalizing tf with
  | nil => exact ⟨tf, rfl, h⟩
  | cons ch rest ih =>
    obtain ⟨tf1, h1, b1⟩ := insertChar_bounded N tf ch h (hch ch (List.mem_cons_self _ _))
    obtain ⟨tf2, h2, b2⟩ := ih tf1 b1 (fun c hc => hch c (List.mem_cons_of_mem _ hc))
    refine ⟨tf2, ?_, b2⟩
    simp only [insertChars, h1]
    exact h2

theorem deleteBeforeCursor_bounded (N : Int) (tf : TextField) (h : Bounded N tf) :
    ∃ tf1, deleteBeforeCursor tf = .ok tf1 ∧ Bounded N tf1 := by
  obtain ⟨⟨hM, h0, h1⟩, hlen⟩ := h
  unfold deleteBeforeCursor
  split_ifs with hpos
  · rw [goSliceTo_ok _ _ (by omega) (by omega), goSliceFrom_ok _ _ h0 h1]
    refine ⟨_, rfl, ⟨hM, ?_, ?_⟩, ?_⟩
    · show 0 ≤ tf.CursorPosition - 1
      omega
    · show tf.CursorPosition - 1 ≤ _
      simp only [List.length_append, List.length_take, List.length_drop]
      omega
    · show ((_ : GoString).length : Int) ≤ N
      simp only [List.length_append, List.length_take, List.length_drop]
      omega
  · exact ⟨tf, rfl, ⟨hM, h0, h1⟩, hlen⟩

theorem backspaceStep_bounded (N : Int) (tf : TextField) (inp : Input)
    (h : Bounded N tf) : ∃ tf1, backspaceStep tf inp = .ok tf1 ∧ Bounded N tf1 := by
  unfold backspaceStep
  split_ifs
  · exact deleteBeforeCursor_bounded N tf h
  · exact ⟨tf, rfl, h⟩

theorem navigateStep_Text (tf : TextField) (inp : Input) :
    (navigateStep tf inp).Text = tf.Text := by
  simp only [navigateStep]
  split_ifs <;> rfl

theorem selectAllStep_Text (tf : TextField) (inp : Input) :
    (selectAllStep tf inp).Text = tf.Text := by
  simp only [selectAllStep]
  split_ifs <;> rfl

theorem navigateStep_bounded (N : Int) (tf : TextField) (inp : Input)
    (h : Bounded N tf) : Bounded N (navigateStep tf inp) := by
  refine ⟨(navigateStep_inv N tf inp h.1).1, ?_⟩
  rw [navigateStep_Text]
  exact h.2

theorem selectAllStep_bounded (N : Int) (tf : TextField) (inp : Input)
    (h : Bounded N tf) : Bounded N (selectAllStep tf inp) := by
  refine ⟨(selectAllStep_inv N tf inp h.1).1, ?_⟩
  rw [selectAllStep_Text]
  exact h.2

theorem backspaceHoldStep_bounded (N : Int) (tf : TextField) (inp : Input)
    (h : Bounded N tf) : ∃ tf1, backspaceHoldStep tf inp = .ok tf1 ∧ Bounded N tf1 := by
  simp only [backspaceHoldStep]
  split_ifs
  · exact deleteBeforeCursor_bounded N { tf with BackspaceHoldTimer := 1 } h
  · exact ⟨_, rfl, h⟩
  · exact ⟨_, rfl, h⟩

theorem pasteText_bounded (N : Int) (tf : TextField) (s : GoString) (h : Bounded N tf) :
    ∃ tf1, pasteText tf s = .ok tf1 ∧ Bounded N tf1 := by
  obtain ⟨⟨hM, h0, h1⟩, hlen⟩ := h
  simp only [pasteText]
  split_ifs with hr hl
  · rw [goSliceTo_ok s _ (by omega) (by omega), goSliceTo_ok _ _ h0 h1,
      goSliceFrom_ok _ _ h0 h1]
    refine ⟨_, rfl, ⟨hM, ?_, ?_⟩, ?_⟩
    · show 0 ≤ tf.CursorPosition + _
      omega
    · show tf.CursorPosition + _ ≤ _
      simp only [List.length_append, List.length_take, List.length_drop]
      omega
    · show ((_ : GoString).length : Int) ≤ N
      simp only [List.length_append, List.length_take, List.length_drop]
      omega
  · rw [goSliceTo_ok _ _ h0 h1, goSliceFrom_ok _ _ h0 h1]
    refine ⟨_, rfl, ⟨hM, ?_, ?_⟩, ?_⟩
    · show 0 ≤ tf.CursorPosition + _
      omega
    · show tf.CursorPosition + _ ≤ _
      simp only [List.length_append, List.length_take, List.length_drop]
      omega
    · show ((_ : GoString).length : Int) ≤ N
      simp only [List.length_append, List.length_take, List.length_drop]
      omega
  · exact ⟨tf, rfl, ⟨hM, h0, h1⟩, hlen⟩

theorem pasteStep_bounded (N : Int) (tf : TextField) (inp : Input) (h : Bounded N tf) :
    (∃ tf1, pasteStep tf inp = .ok tf1 ∧ Bounded N tf1) ∨
      (pasteStep tf inp = .error .clipboardFailure ∧ inp.pasteClip = none) := by
  unfold pasteStep
  split_ifs with hv
  · cases hc : inp.pasteClip with
    | none => exact Or.inr ⟨rfl, rfl⟩
    | some s =>
      left
      dsimp only
      split_ifs
      · exact pasteText_bounded N tf s h
      · exact ⟨tf, rfl, h⟩
  · exact Or.inl ⟨tf, rfl, h⟩

theorem editStep_bounded (N : Int) (tf : TextField) (inp : Input) (h : Bounded N tf)
    (hch : ∀ ch ∈ inp.inputChars, 0 ≤ ch ∧ ch < 128) :
    (∃ tf1, editStep tf inp = .ok tf1 ∧ Bounded N tf1) ∨
      (editStep tf inp = .error .clipboardFailure ∧ inp.pasteClip = none) := by
  obtain ⟨tf1, e1, b1⟩ := insertChars_bounded N inp.inputChars tf h hch
  obtain ⟨tf2, e2, b2⟩ := backspaceStep_bounded N tf1 inp b1
  have b3 := navigateStep_bounded N tf2 inp b2
  obtain ⟨tf4, e4, b4⟩ := backspaceHoldStep_bounded N _ inp b3
  have b5 := selectAllStep_bounded N tf4 inp b4
  have hedit : editStep tf inp = pasteStep (selectAllStep tf4 inp) inp := by
    simp only [editStep, e1, e2, e4, bind, Except.bind]
  rw [hedit]
  exact pasteStep_bounded N _ inp b5

theorem clickStep_blinkStep_bounded (N : Int) (tf : TextField) (inp : Input)
    (h : Bounded N tf) : Bounded N (clickStep (blinkStep tf) inp) := by
  refine ⟨clickStep_inv N _ inp (blinkStep_inv N tf h.1), ?_⟩
  rw [(clickStep_blinkStep_Text tf inp).1]
  exact h.2

theorem Update_bounded (N : Int) (tf : TextField) (inp : Input) (h : Bounded N tf)
    (hch : ∀ ch ∈ inp.inputChars, 0 ≤ ch ∧ ch < 128) :
    (∃ tf1, Update tf inp = .ok tf1 ∧ Bounded N tf1) ∨
      (Update tf inp = .error .clipboardFailure ∧ inp.pasteClip = none) := by
  simp only [Update]
  split_ifs with hU hA
  · exact Or.inl ⟨tf, rfl, h⟩
  · exact editStep_bounded N _ inp (clickStep_blinkStep_bounded N tf inp h) hch
  · exact Or.inl ⟨_, rfl, clickStep_blinkStep_bounded N tf inp h⟩

theorem SetValue_bounded (N : Int) (hN : 0 ≤ N) (tf : TextField) (v : GoString)
    (h : Bounded N tf) : ∃ tf1, SetValue tf v = .ok tf1 ∧ Bounded N tf1 := by
  obtain ⟨⟨hM, h0, h1⟩, hlen⟩ := h
  unfold SetValue
  split_ifs with hl
  · rw [goSliceTo_ok v _ (by omega) (by omega)]
    refine ⟨_, rfl, ⟨hM, Int.natCast_nonneg _, le_refl _⟩, ?_⟩
    show ((v.take tf.MaxLength.toNat).length : Int) ≤ N
    rw [List.length_take]
    omega
  · refine ⟨_, rfl, ⟨hM, Int.natCast_nonneg _, le_refl _⟩, ?_⟩
    show (v.length : Int) ≤ N
    omega

theorem apply_bounded (N : Int) (hN : 0 ≤ N) (tf : TextField) (op : Op)
    (h : Bounded N tf) (hop : op.typesSingleBytes) :
    (∃ tf1, op.apply tf = .ok tf1 ∧ Bounded N tf1) ∨
      (op.apply tf = .error .clipboardFailure ∧
        ∃ inp, op = .update inp ∧ inp.pasteClip = none) := by
  cases op with
  | update inp =>
    rcases Update_bounded N tf inp h hop with hok | ⟨he, hc⟩
    · exact Or.inl hok
    · exact Or.inr ⟨he, inp, rfl, hc⟩
  | setValue v => exact Or.inl (SetValue_bounded N hN tf v h)
  | activate => exact Or.inl ⟨_, rfl, ⟨h.1.1, Int.natCast_nonneg _, le_refl _⟩, h.2⟩
  | deactivate => exact Or.inl ⟨_, rfl, h⟩
  | setColors bg bd tx => exact Or.inl ⟨_, rfl, h⟩
  | setFontSize n => exact Or.inl ⟨_, rfl, h⟩
  | setInvisible i => exact Or.inl ⟨_, rfl, h⟩
  | setUneditable u => exact Or.inl ⟨_, rfl, h⟩
  | setPlaceholder p => exact Or.inl ⟨_, rfl, h⟩
  | setFont f => exact Or.inl ⟨_, rfl, h⟩

theorem run_bounded (N : Int) (hN : 0 ≤ N) (ops : List Op) (tf : TextField)
    (h : Bounded N tf) (hops : ∀ op ∈ ops, op.typesSingleBytes) :
    (∃ tf1, run tf ops = .ok tf1 ∧ Bounded N tf1) ∨
      (run tf ops = .error .clipboardFailure ∧
        ∃ inp, Op.update inp ∈ ops ∧ inp.pasteClip = none) := by
  induction ops generalizing tf with
  | nil => exact Or.inl ⟨tf, rfl, h⟩
  | cons op rest ih =>
    rcases apply_bounded N hN tf op h (hops op (List.mem_cons_self _ _)) with
      ⟨tf1, e1, b1⟩ | ⟨he, inp, hop, hc⟩
    · have hrun : run tf (op :: rest) = run tf1 rest := by
        simp only [run, e1, bind, Except.bind]
      rw [hrun]
      rcases ih tf1 b1 (fun o ho => hops o (List.mem_cons_of_mem _ ho)) with
        hok | ⟨he, inp, hmem, hc⟩
      · exact Or.inl hok
      · exact Or.inr ⟨he, inp, List.mem_cons_of_mem _ hmem, hc⟩
    · refine Or.inr ⟨?_, inp, ?_, hc⟩
      · simp only [run, he, bind, Except.bind]
      · rw [hop]; exact List.mem_cons_self _ _

theorem NewTextField_bounded (DefaultFont : FontFace) (x y width height : ℚ) (N : Int)
    (hN : 0 ≤ N) : Bounded N (NewTextField DefaultFont x y width height N) :=
  ⟨⟨rfl, le_refl _, le_refl _⟩, hN⟩

/-- A fresh press at (-1, -1) leaves the field active exactly when that point is inside
its bounds. -/
theorem pressOutside_IsActive (tf : TextField) (inp : Input) :
    (clickStep (blinkStep tf) (pressOutside inp)).IsActive
      = pointInRect (-1) (-1) tf.Bounds := by
  rw [clickStep_IsActive]
  have h : f32 (((-1 : Int)) : ℚ) = ((-1 : Int) : ℚ) := f32_intCast (-1) (by decide)
  have hx : (pressOutside inp).cursorX = -1 := rfl
  have hy : (pressOutside inp).cursorY = -1 := rfl
  have hm : (pressOutside inp).mouseLeftJustPressed = true := rfl
  rw [if_pos hm, hx, hy, h]
  simp [blinkStep]

/-- On an editable field whose bounds start at or right of 0, a frame carrying a fresh
press at (-1, -1) returns with text and cursor as they were, whatever else it carries. -/
theorem pressOutside_frame (tf : TextField) (inp : Input) (hU : tf.Uneditable = false)
    (hX : 0 ≤ tf.Bounds.X) :
    textAndCursor (Update tf (pressOutside inp)) = .ok (tf.Text, tf.CursorPosition) := by
  have hI : (clickStep (blinkStep tf) (pressOutside inp)).IsActive = false := by
    rw [pressOutside_IsActive]
    have hlt : ¬ ((-1 : ℚ) ≥ tf.Bounds.X) := by
      intro hc
      have : (0 : ℚ) ≤ -1 := le_trans hX hc
      norm_num at this
    simp [pointInRect, hlt]
  rw [Update_of_inactive _ _ hU hI]
  show Except.ok (_, _) = _
  rw [(clickStep_blinkStep_Text _ _).1, (clickStep_blinkStep_Text _ _).2.1]

/-- C2 fails on the code: in a field made by `NewTextField(..., 1)` and activated, one
`Update()` whose typed batch is the single character U+00E9 stores its two UTF-8 bytes,
so `len(Text)` is 2 while `MaxLength` is 1. -/
theorem typed_rune_exceeds_max_length :
    ∃ tf, run (NewTextField none 0 0 100 30 1) [Op.activate, Op.update (typing [0xE9])]
        = .ok tf ∧
      tf.MaxLength = 1 ∧ tf.Text = [0xC3, 0xA9] ∧ tf.MaxLength < (tf.Text.length : Int) :=
  ⟨_, rfl, rfl, rfl, by decide⟩

/-- C3: for `MaxLength = N ≥ 0`, after every sequence of calls on a field made by
`NewTextField` that returns, `0 ≤ CursorPosition ≤ len(Text)`; at cursor 0 a left arrow,
and at the end of the text a right arrow, return with text and cursor unchanged; and a
sequence that does not return stopped at an `Update()` whose clipboard read failed, never
at a slice out of range. -/
theorem cursor_within_text (DefaultFont : FontFace) (x y width height : ℚ) (N : Int)
    (hN : 0 ≤ N) (ops : List Op) :
    (∀ tf, run (NewTextField DefaultFont x y width height N) ops = .ok tf →
        0 ≤ tf.CursorPosition ∧ tf.CursorPosition ≤ (tf.Text.length : Int) ∧
        (tf.CursorPosition = 0 →
          textAndCursor (Update tf arrowLeftOnly) = .ok (tf.Text, tf.CursorPosition)) ∧
        (tf.CursorPosition = (tf.Text.length : Int) →
          textAndCursor (Update tf arrowRightOnly) = .ok (tf.Text, tf.CursorPosition))) ∧
      (∀ e, run (NewTextField DefaultFont x y width height N) ops = .error e →
        e = Panic.clipboardFailure ∧ ∃ inp, Op.update inp ∈ ops ∧ inp.pasteClip = none) := by
  have hrun := run_inv N hN ops _ (NewTextField_inv DefaultFont x y width height N)
  constructor
  · intro tf htf
    rcases hrun with ⟨tf1, h1, hi⟩ | ⟨he, _⟩
    · rw [h1] at htf
      cases htf
      refine ⟨hi.2.1, hi.2.2, ?_, ?_⟩
      · intro hc
        simp only [Update, textAndCursor]
        split_ifs with hU hA
        · rfl
        · simp [editStep, insertChars, backspaceStep, navigateStep, backspaceHoldStep,
            selectAllStep, pasteStep, clickStep, blinkStep, arrowLeftOnly, idle, hc, bind,
            Except.bind, pure, Except.pure, Except.map]
        · simp [clickStep, blinkStep, arrowLeftOnly, idle, pure, Except.pure, Except.map]
      · intro hc
        simp only [Update, textAndCursor]
        split_ifs with hU hA
        · rfl
        · simp [editStep, insertChars, backspaceStep, navigateStep, backspaceHoldStep,
            selectAllStep, pasteStep, clickStep, blinkStep, arrowRightOnly, idle, hc, bind,
            Except.bind, pure, Except.pure, Except.map]
        · simp [clickStep, blinkStep, arrowRightOnly, idle, pure, Except.pure, Except.map]
    · rw [he] at htf
      cases htf
  · intro e he
    rcases hrun with ⟨tf1, h1, _⟩ | ⟨he1, hex⟩
    · rw [h1] at he
      cases he
    · rw [he1] at he
      cases he
      exact ⟨rfl, hex⟩

/-- C3 at a field of capacity 10 that was activated: the cursor is 0, the text empty, and
both arrows leave them so. -/
theorem cursor_within_text_witness :
    (0 : Int) ≤ 10 ∧
      textAndCursor (Update (Activate (NewTextField none 0 0 100 30 10)) arrowLeftOnly)
        = .ok ([], 0) ∧
      textAndCursor (Update (Activate (NewTextField none 0 0 100 30 10)) arrowRightOnly)
        = .ok ([], 0) :=
  ⟨by decide,
    ((cursor_within_text none 0 0 100 30 10 (by decide) [Op.activate]).1 _ rfl).2.2.1 rfl,
    ((cursor_within_text none 0 0 100 30 10 (by decide) [Op.activate]).1 _ rfl).2.2.2 rfl⟩

/-- C5: with `MaxLength ≥ 0`, `SetValue(v)` returns; the text is `v` when
`len(v) ≤ MaxLength` and the first `MaxLength` bytes of `v` otherwise, the cursor is the
length of that text, `GetText()` returns it, and no other field changes. -/
theorem setValue_truncates (tf : TextField) (v : GoString) (hN : 0 ≤ tf.MaxLength) :
    SetValue tf v = .ok
        { tf with
          Text := if (v.length : Int) ≤ tf.MaxLength then v else v.take tf.MaxLength.toNat
          CursorPosition :=
            ((if (v.length : Int) ≤ tf.MaxLength then v
              else v.take tf.MaxLength.toNat).length : Int) } ∧
      ∀ tf1, SetValue tf v = .ok tf1 →
        GetText tf1 = (if (v.length : Int) ≤ tf.MaxLength then v
          else v.take tf.MaxLength.toNat) ∧
        tf1.CursorPosition = ((GetText tf1).length : Int) := by
  have key : SetValue tf v = .ok
      { tf with
        Text := if (v.length : Int) ≤ tf.MaxLength then v else v.take tf.MaxLength.toNat
        CursorPosition :=
          ((if (v.length : Int) ≤ tf.MaxLength then v
            else v.take tf.MaxLength.toNat).length : Int) } := by
    unfold SetValue
    split_ifs with h1 h2 h2
    · omega
    · rw [goSliceTo_ok v _ hN (by omega)]
      rfl
    · rfl
    · omega
  refine ⟨key, ?_⟩
  intro tf1 h
  rw [key] at h
  cases h
  exact ⟨rfl, rfl⟩

/-- C5 at the spec's example: `SetValue("hello world")` with `maxLength` 5 gives the text
"hello" and the cursor 5. -/
theorem setValue_truncates_witness :
    (0 : Int) ≤ (NewTextField none 0 0 100 30 5).MaxLength ∧
      ∃ tf1, SetValue (NewTextField none 0 0 100 30 5) (ascii "hello world") = .ok tf1 ∧
        GetText tf1 = ascii "hello" ∧ tf1.CursorPosition = 5 :=
  ⟨by decide, _,
    (setValue_truncates (NewTextField none 0 0 100 30 5) (ascii "hello world")
      (by decide)).1, rfl, rfl⟩

/-- C6, as the code has it: on an editable field with `MaxLength ≥ 0` that is active
after the click step, with the cursor a valid index, a frame whose only keyboard input
is Control+V and whose clipboard read gives a non-empty `s` returns; with
`r = MaxLength - len(Text)`, if `r > 0` the text is
`Text[:c] ++ s[:min(len s, r)] ++ Text[c:]` and the cursor `c + min(len s, r)`, else text
and cursor are unchanged. -/
theorem paste_inserts_what_fits (tf : TextField) (inp : Input) (s : GoString)
    (hU : tf.Uneditable = false) (hA : (clickStep (blinkStep tf) inp).IsActive = true)
    (_hN : 0 ≤ tf.MaxLength)
    (h0 : 0 ≤ tf.CursorPosition) (h1 : tf.CursorPosition ≤ (tf.Text.length : Int))
    (hchars : inp.inputChars = []) (hbs : inp.backspaceJustPressed = false)
    (hleft : inp.arrowLeftJustPressed = false) (hright : inp.arrowRightJustPressed = false)
    (hhome : inp.homeJustPressed = false) (hend : inp.endJustPressed = false)
    (hhold : inp.backspacePressed = false) (ha : inp.aJustPressed = false)
    (hv : inp.vJustPressed = true) (hctrl : inp.controlPressed = true)
    (hclip : inp.pasteClip = some s) (hs : s ≠ []) :
    textAndCursor (Update tf inp) = .ok
      (if 0 < tf.MaxLength - (tf.Text.length : Int) then
        (tf.Text.take tf.CursorPosition.toNat ++
            s.take (min (s.length : Int) (tf.MaxLength - (tf.Text.length : Int))).toNat ++
            tf.Text.drop tf.CursorPosition.toNat,
          tf.CursorPosition + min (s.length : Int) (tf.MaxLength - (tf.Text.length : Int)))
      else (tf.Text, tf.CursorPosition)) := by
  obtain ⟨hT, hC, hM⟩ := clickStep_blinkStep_Text tf inp
  have hupd : Update tf inp = editStep (clickStep (blinkStep tf) inp) inp := by
    simp only [Update, hU, hA, Bool.false_eq_true, if_false, if_true]
  rw [hupd, editStep_paste_only _ inp s hchars hbs hleft hright hhome hend hhold ha hv hctrl
    hclip hs]
  have hp := pasteText_textAndCursor
    { clickStep (blinkStep tf) inp with BackspaceHoldTimer := 0 } s
    (by show 0 ≤ (clickStep (blinkStep tf) inp).CursorPosition; rw [hC]; exact h0)
    (by
      show (clickStep (blinkStep tf) inp).CursorPosition
        ≤ ((clickStep (blinkStep tf) inp).Text.length : Int)
      rw [hC, hT]; exact h1)
  rw [hp]
  dsimp only
  rw [hT, hC, hM]

/-- C6 at the sample field ("abc", cursor 1, capacity 5) pasting "hello": the two bytes
that fit are inserted, giving "ahebc" and the cursor 3. -/
theorem paste_inserts_what_fits_witness :
    textAndCursor (Update sampleField (pasteFrame (ascii "hello")))
      = .ok (ascii "ahebc", 3) :=
  (paste_inserts_what_fits sampleField (pasteFrame (ascii "hello")) (ascii "hello") rfl rfl
    (by decide) (by decide) (by decide) rfl rfl rfl rfl rfl rfl rfl rfl rfl rfl rfl (by decide)).trans
    rfl

/-- C7 fails on the code: in an activated empty field of capacity 10, typing the batch
U+00E9, U+0061 in one frame leaves the bytes C3 61 A9 and the cursor 2, not the batch in
typing order, whose bytes are C3 A9 61: the cursor advanced by one over the two bytes of
the first character, so the second was inserted between them. -/
theorem typed_batch_order_broken :
    textAndCursor (Update (Activate (NewTextField none 0 0 100 30 10)) (typing [0xE9, 0x61]))
        = .ok ([0xC3, 0x61, 0xA9], 2) ∧
      runeToString 0xE9 ++ runeToString 0x61 = [0xC3, 0xA9, 0x61] :=
  ⟨rfl, rfl⟩

/-- C10: the click step of `Update()` sets the active flag to the hit test of the
pointer when the primary button was just pressed, and leaves it as it was otherwise; on
an editable field that is the click step `Update()` runs, and the flag `Update()` returns
with. -/
theorem activation_needs_fresh_press (tf : TextField) (inp : Input)
    (hU : tf.Uneditable = false) :
    (clickStep (blinkStep tf) inp).IsActive =
        (if inp.mouseLeftJustPressed = true then
          pointInRect (f32 (inp.cursorX : ℚ)) (f32 (inp.cursorY : ℚ)) tf.Bounds
        else tf.IsActive) ∧
      Update tf inp =
        (if (clickStep (blinkStep tf) inp).IsActive = true then
          editStep (clickStep (blinkStep tf) inp) inp
        else .ok (clickStep (blinkStep tf) inp)) ∧
      ∀ tf1, Update tf inp = .ok tf1 →
        tf1.IsActive =
          (if inp.mouseLeftJustPressed = true then
            pointInRect (f32 (inp.cursorX : ℚ)) (f32 (inp.cursorY : ℚ)) tf.Bounds
          else tf.IsActive) := by
  have hclick := clickStep_IsActive (blinkStep tf) inp
  have hupd : Update tf inp =
      (if (clickStep (blinkStep tf) inp).IsActive = true then
        editStep (clickStep (blinkStep tf) inp) inp
      else .ok (clickStep (blinkStep tf) inp)) := by
    simp only [Update, hU, Bool.false_eq_true, if_false]
    rfl
  refine ⟨hclick, hupd, ?_⟩
  intro tf1 h
  rw [hupd] at h
  split_ifs at h with hA
  · rw [editStep_IsActive _ tf1 inp h]
    exact hclick
  · cases h
    exact hclick

/-- C10 at the sample field with a fresh press at (10, 10). -/
theorem activation_needs_fresh_press_witness :
    sampleField.Uneditable = false ∧
      (clickStep (blinkStep sampleField) clickAt10).IsActive =
        (if clickAt10.mouseLeftJustPressed = true then
          pointInRect (f32 (clickAt10.cursorX : ℚ)) (f32 (clickAt10.cursorY : ℚ))
            sampleField.Bounds
        else sampleField.IsActive) :=
  ⟨rfl, (activation_needs_fresh_press sampleField clickAt10 rfl).1⟩

/-- C14: `pointInRect` is true exactly when `X ≤ x ≤ X + W` and `Y ≤ y ≤ Y + H`, the
sums being the float32 sums the code computes, all four comparisons non-strict; the copy
of the text-field package returns what the copy of the button package returns; and where
the two sums are exact the test is the closed rectangle of real arithmetic. -/
theorem hit_test_closed_rectangle (x y X Y W H : ℚ) :
    (button.pointInRect x y ⟨X, Y, W, H⟩ = true ↔
        X ≤ x ∧ x ≤ f32 (X + W) ∧ Y ≤ y ∧ y ≤ f32 (Y + H)) ∧
      pointInRect x y ⟨X, Y, W, H⟩ = button.pointInRect x y ⟨X, Y, W, H⟩ ∧
      (f32 (X + W) = X + W → f32 (Y + H) = Y + H →
        (pointInRect x y ⟨X, Y, W, H⟩ = true ↔ X ≤ x ∧ x ≤ X + W ∧ Y ≤ y ∧ y ≤ Y + H)) := by
  refine ⟨?_, rfl, ?_⟩
  · simp only [button.pointInRect, Bool.and_eq_true, decide_eq_true_eq, ge_iff_le, and_assoc]
  · intro hx hy
    simp only [pointInRect, hx, hy, Bool.and_eq_true, decide_eq_true_eq, ge_iff_le, and_assoc]

/-- C14 at the rectangle (0, 0, 100, 30): the corner (100, 30) on the right and bottom
edges and the corner (0, 0) on the left and top edges are inside. -/
theorem hit_test_closed_rectangle_witness :
    f32 ((0 : ℚ) + 100) = 0 + 100 ∧ f32 ((0 : ℚ) + 30) = 0 + 30 ∧
      pointInRect 100 30 ⟨0, 0, 100, 30⟩ = true ∧ pointInRect 0 0 ⟨0, 0, 100, 30⟩ = true := by
  have h100 : f32 ((0 : ℚ) + 100) = 0 + 100 := by
    have := f32_intCast 100 (by decide)
    norm_num at this ⊢
    exact this
  have h30 : f32 ((0 : ℚ) + 30) = 0 + 30 := by
    have := f32_intCast 30 (by decide)
    norm_num at this ⊢
    exact this
  exact ⟨h100, h30,
    ((hit_test_closed_rectangle 100 30 0 0 100 30).2.2 h100 h30).mpr (by norm_num),
    ((hit_test_closed_rectangle 0 0 0 0 100 30).2.2 h100 h30).mpr (by norm_num)⟩

/-- C11: on a field with `Uneditable = true`, `Update()` returns for every input, a
failing clipboard included, and leaves every field of the widget as it was. -/
theorem uneditable_update_is_noop (tf : TextField) (inp : Input)
    (hU : tf.Uneditable = true) : Update tf inp = .ok tf := by
  simp only [Update, hU, if_true]
  rfl

/-- C11 at the sample field made uneditable, on a frame with a click, typed characters,
every key pressed and a failing clipboard. -/
theorem uneditable_update_is_noop_witness :
    lockedField.Uneditable = true ∧ busyFrame.pasteClip = none ∧
      Update lockedField busyFrame = .ok lockedField :=
  ⟨rfl, rfl, uneditable_update_is_noop lockedField busyFrame rfl⟩

/-- C12, as the code has it: on an active editable field with the cursor a valid index
and `BackspaceHoldTimer = 0`, a run of frames with backspace held (no fresh click, the
clipboard readable) returns, and after `n` such frames the hold timer is `heldTimer n`;
the hold block of the next held frame enters its deletion branch exactly when `n ≥ 29`,
so a further frame with only backspace held deletes the byte before the cursor when it
is the 30th held frame or any later one, and changes nothing before. -/
theorem held_backspace_repeats_every_frame (tf : TextField) (frames : List Input)
    (hU : tf.Uneditable = false) (hA : tf.IsActive = true)
    (hT : tf.BackspaceHoldTimer = 0) (h0 : 0 ≤ tf.CursorPosition)
    (h1 : tf.CursorPosition ≤ (tf.Text.length : Int))
    (hheld : ∀ inp ∈ frames, inp.backspacePressed = true ∧
      inp.mouseLeftJustPressed = false ∧ inp.pasteClip ≠ none) :
    ∃ tfn, run tf (frames.map Op.update) = .ok tfn ∧
      tfn.BackspaceHoldTimer = heldTimer frames.length ∧
      (f32 (tfn.BackspaceHoldTimer + f32 (1 / 60)) > 1 / 2 ↔ 29 ≤ frames.length) ∧
      textAndCursor (Update tfn holdOnly) = .ok
        (if 29 ≤ frames.length then
          (if 0 < tfn.CursorPosition then
            (tfn.Text.take (tfn.CursorPosition - 1).toNat
                ++ tfn.Text.drop tfn.CursorPosition.toNat, tfn.CursorPosition - 1)
          else (tfn.Text, tfn.CursorPosition))
        else (tfn.Text, tfn.CursorPosition)) := by
  obtain ⟨tfn, en, inn, un, an, tn⟩ :=
    held_frames tf.MaxLength frames tf 0 ⟨rfl, h0, h1⟩ hU hA hT hheld
  rw [Nat.zero_add] at tn
  obtain ⟨tf1, e1, _, _, _, _, x1⟩ := holdOnly_frame tf.MaxLength tfn frames.length inn un an tn
  refine ⟨tfn, en, tn, ?_, ?_⟩
  · rw [tn]; exact heldTimer_fires_iff _
  · rw [e1]
    show Except.ok (tf1.Text, tf1.CursorPosition) = _
    rw [x1]
    rfl

/-- C12 at the field "abc" after 29 frames with only backspace held: the 30th deletes. -/
theorem held_backspace_repeats_every_frame_witness :
    heldField.Uneditable = false ∧ heldField.IsActive = true ∧
      heldField.BackspaceHoldTimer = 0 ∧
      ∃ tfn, run heldField ((List.replicate 29 holdOnly).map Op.update) = .ok tfn ∧
        tfn.BackspaceHoldTimer = heldTimer 29 ∧
        textAndCursor (Update tfn holdOnly) = .ok
          (if 0 < tfn.CursorPosition then
            (tfn.Text.take (tfn.CursorPosition - 1).toNat
                ++ tfn.Text.drop tfn.CursorPosition.toNat, tfn.CursorPosition - 1)
          else (tfn.Text, tfn.CursorPosition)) := by
  refine ⟨rfl, rfl, rfl, ?_⟩
  obtain ⟨tfn, en, tn, _, xn⟩ :=
    held_backspace_repeats_every_frame heldField (List.replicate 29 holdOnly) rfl rfl rfl
      (by decide) (by decide)
      (by
        intro inp hinp
        rw [List.eq_of_mem_replicate hinp]
        exact ⟨rfl, rfl, by decide⟩)
  rw [List.length_replicate] at tn xn
  exact ⟨tfn, en, tn, by simpa using xn⟩

/-- C12 as stated fails: on the field "abc" with the cursor at the end, 29 frames with
only backspace held leave the text, the 30th removes "c" and the 31st, in the same hold,
removes "b"; the repeat fires on every frame from the 30th, not once. -/
theorem held_backspace_counterexample :
    heldField.BackspaceHoldTimer = 0 ∧ holdOnly.backspacePressed = true ∧
      textAndCursor (run heldField (holdFrames 29)) = .ok (ascii "abc", 3) ∧
      textAndCursor (run heldField (holdFrames 30)) = .ok (ascii "ab", 2) ∧
      textAndCursor (run heldField (holdFrames 31)) = .ok (ascii "a", 1) := by
  have hinv : Inv 10 heldField := ⟨rfl, by decide, by decide⟩
  refine ⟨rfl, rfl, ?_, ?_, ?_⟩
  · obtain ⟨tfn, en, _, _, _, _, xn⟩ := holdFrames_run 10 29 heldField 0 hinv rfl rfl rfl
    rw [en]
    show Except.ok (tfn.Text, tfn.CursorPosition) = _
    rw [xn]
    rfl
  · obtain ⟨tfn, en, _, _, _, _, xn⟩ := holdFrames_run 10 30 heldField 0 hinv rfl rfl rfl
    rw [en]
    show Except.ok (tfn.Text, tfn.CursorPosition) = _
    rw [xn]
    rfl
  · obtain ⟨tfn, en, _, _, _, _, xn⟩ := holdFrames_run 10 31 heldField 0 hinv rfl rfl rfl
    rw [en]
    show Except.ok (tfn.Text, tfn.CursorPosition) = _
    rw [xn]
    rfl

/-- C13: on a field whose cursor is a valid index, `Update()` aborts exactly when the
field is editable, is active after the click step, V is just pressed with Control held
and the clipboard read fails; an abort is never a slice out of range; and in every other
case `Update()` returns, the cursor still a valid index. -/
theorem update_aborts_only_on_clipboard_failure (tf : TextField) (inp : Input)
    (h0 : 0 ≤ tf.CursorPosition) (h1 : tf.CursorPosition ≤ (tf.Text.length : Int)) :
    (Update tf inp = .error .clipboardFailure ↔ pasteFails tf inp) ∧
      (∀ e, Update tf inp = .error e → e = Panic.clipboardFailure) ∧
      (¬ pasteFails tf inp →
        ∃ tf1, Update tf inp = .ok tf1 ∧ 0 ≤ tf1.CursorPosition ∧
          tf1.CursorPosition ≤ (tf1.Text.length : Int)) := by
  have hinv : Inv tf.MaxLength tf := ⟨rfl, h0, h1⟩
  by_cases hU : tf.Uneditable = true
  · have hupd : Update tf inp = .ok tf := by
      simp only [Update, hU, if_true]; rfl
    have hnf : ¬ pasteFails tf inp := fun hf => by
      rw [hf.1] at hU; cases hU
    rw [hupd]
    refine ⟨⟨fun h => (by cases h), fun h => absurd h hnf⟩, fun e h => (by cases h), ?_⟩
    intro _
    exact ⟨tf, rfl, h0, h1⟩
  · have hU0 : tf.Uneditable = false := by simpa using hU
    have i1 : Inv tf.MaxLength (clickStep (blinkStep tf) inp) :=
      clickStep_inv _ _ inp (blinkStep_inv _ tf hinv)
    by_cases hA : (clickStep (blinkStep tf) inp).IsActive = true
    · have hupd : Update tf inp = editStep (clickStep (blinkStep tf) inp) inp := by
        simp only [Update, hU0, hA, Bool.false_eq_true, if_false, if_true]
      have hout := editStep_outcome tf.MaxLength _ inp i1
      rw [hupd]
      by_cases hc : (inp.vJustPressed && inp.controlPressed) = true ∧ inp.pasteClip = none
      · rw [if_pos hc] at hout
        have hf : pasteFails tf inp := by
          have := Bool.and_eq_true_iff.mp hc.1
          exact ⟨hU0, hA, this.1, this.2, hc.2⟩
        rw [hout]
        exact ⟨⟨fun _ => hf, fun _ => rfl⟩, fun e h => (by cases h; rfl),
          fun hn => absurd hf hn⟩
      · rw [if_neg hc] at hout
        obtain ⟨tf1, e1, i2, _⟩ := hout
        have hnf : ¬ pasteFails tf inp := fun hf =>
          hc ⟨by rw [hf.2.2.1, hf.2.2.2.1]; rfl, hf.2.2.2.2⟩
        rw [e1]
        exact ⟨⟨fun h => (by cases h), fun h => absurd h hnf⟩, fun e h => (by cases h),
          fun _ => ⟨tf1, rfl, i2.2.1, i2.2.2⟩⟩
    · have hI : (clickStep (blinkStep tf) inp).IsActive = false := by simpa using hA
      have hnf : ¬ pasteFails tf inp := fun hf => hA hf.2.1
      rw [Update_of_inactive tf inp hU0 hI]
      exact ⟨⟨fun h => (by cases h), fun h => absurd h hnf⟩, fun e h => (by cases h),
        fun _ => ⟨_, rfl, i1.2.1, i1.2.2⟩⟩

/-- C13 at the sample field: Control+V with a failing clipboard aborts, Control+V with
the clipboard holding "x" returns. -/
theorem update_aborts_only_on_clipboard_failure_witness :
    (0 : Int) ≤ sampleField.CursorPosition ∧
      sampleField.CursorPosition ≤ (sampleField.Text.length : Int) ∧
      pasteFails sampleField failingPaste ∧
      Update sampleField failingPaste = .error .clipboardFailure ∧
      ¬ pasteFails sampleField (pasteFrame (ascii "x")) ∧
      ∃ tf1, Update sampleField (pasteFrame (ascii "x")) = .ok tf1 ∧
        0 ≤ tf1.CursorPosition ∧ tf1.CursorPosition ≤ (tf1.Text.length : Int) :=
  ⟨by decide, by decide, ⟨rfl, rfl, rfl, rfl, rfl⟩,
    (update_aborts_only_on_clipboard_failure sampleField failingPaste (by decide)
      (by decide)).1.mpr ⟨rfl, rfl, rfl, rfl, rfl⟩,
    fun hf => (by cases hf.2.2.2.2),
    (update_aborts_only_on_clipboard_failure sampleField (pasteFrame (ascii "x"))
      (by decide) (by decide)).2.2 (fun hf => by cases hf.2.2.2.2)⟩

/-- C18 fails on the code: the reset of the hold timer sits inside the block that runs
only while the field is active. After one frame with backspace pressed on the field
"abc", `Deactivate()` and a frame with backspace up leave the timer at the float32
1/60, not 0. After 30 frames with backspace held (text "ab", timer 1), `Deactivate()`
and a frame with backspace up leave the timer at 1; `Activate()` and one fresh backspace
press then delete both remaining bytes, the second by the hold-repeat block of the same
frame. -/
theorem hold_timer_not_reset_when_inactive :
    (idle.backspacePressed = false ∧
      ∃ tfa, run heldField [Op.update backspacePress, Op.deactivate, Op.update idle]
          = .ok tfa ∧
        tfa.Uneditable = false ∧ tfa.BackspaceHoldTimer = 8947849 / 536870912) ∧
    (∃ tfa tfb,
      run heldField (holdFrames 30 ++ [Op.deactivate, Op.update idle]) = .ok tfa ∧
        tfa.BackspaceHoldTimer = 1 ∧ tfa.Text = ascii "ab" ∧
        run tfa [Op.activate, Op.update backspacePress] = .ok tfb ∧
        tfb.Text = [] ∧ tfb.CursorPosition = 0) := by
  have hinv : Inv 10 heldField := ⟨rfl, by decide, by decide⟩
  constructor
  · refine ⟨rfl, ?_⟩
    obtain ⟨tf1, e1, i1, a1, u1, t1, _⟩ :=
      backspace_frame 10 heldField backspacePress hinv rfl rfl rfl rfl rfl rfl rfl rfl rfl
    obtain ⟨tf2, e2, _, _, _, u2, t2⟩ := idle_frame_inactive (Deactivate tf1) u1 rfl
    refine ⟨tf2, ?_, u2, ?_⟩
    · rw [run_update_cons _ tf1 _ _ e1]
      show run (Deactivate tf1) [Op.update idle] = _
      rw [run_update_cons _ tf2 _ _ e2]
      rfl
    · rw [t2]
      show tf1.BackspaceHoldTimer = _
      have hp : backspacePress.backspacePressed = true := rfl
      rw [t1, if_pos hp]
      exact heldTimer_1
  · obtain ⟨tf30, e30, i30, u30, a30, t30, x30⟩ :=
      holdFrames_run 10 30 heldField 0 hinv rfl rfl rfl
    have hx30 : (tf30.Text, tf30.CursorPosition) = (ascii "ab", 2) := by
      rw [x30]; rfl
    have hT30 : tf30.Text = ascii "ab" := congrArg Prod.fst hx30
    obtain ⟨tfa, ea, Ta, Ca, Ma, ua, ta⟩ := idle_frame_inactive (Deactivate tf30) u30 rfl
    have hTa : tfa.Text = ascii "ab" := Ta.trans hT30
    have hta : tfa.BackspaceHoldTimer = 1 := by
      rw [ta]
      show tf30.BackspaceHoldTimer = 1
      rw [t30]
      exact heldTimer_30
    have hia : Inv 10 (Activate tfa) := by
      refine ⟨?_, Int.natCast_nonneg _, le_refl _⟩
      show tfa.MaxLength = 10
      rw [Ma]
      exact i30.1
    obtain ⟨tfb, eb, _, _, _, _, xb⟩ :=
      backspace_frame 10 (Activate tfa) backspacePress hia ua rfl rfl rfl rfl rfl rfl rfl rfl
    have hfire : f32 ((Activate tfa).BackspaceHoldTimer + f32 (1 / 60)) > 1 / 2 := by
      show f32 (tfa.BackspaceHoldTimer + f32 (1 / 60)) > 1 / 2
      rw [hta]
      have := (heldTimer_fires_iff 30).mpr (by norm_num)
      rwa [heldTimer_30] at this
    have hxb : (tfb.Text, tfb.CursorPosition) = ([], 0) := by
      have hp : backspacePress.backspacePressed = true := rfl
      have hj : backspacePress.backspaceJustPressed = true := rfl
      rw [xb, if_pos ⟨hp, hfire⟩, if_pos hj]
      show deleted (deleted (tfa.Text, ((tfa.Text.length : ℕ) : Int))) = _
      rw [hTa]
      rfl
    refine ⟨tfa, tfb, ?_, hta, hTa, ?_, congrArg Prod.fst hxb, congrArg Prod.snd hxb⟩
    · rw [run_append, e30]
      show run (Deactivate tf30) [Op.update idle] = _
      rw [run_update_cons _ tfa _ _ ea]
      rfl
    · show run (Activate tfa) [Op.update backspacePress] = _
      rw [run_update_cons _ tfb _ _ eb]
      rfl

/-- C21, as the code has it: on an editable field that is active after the click step,
with the cursor a valid index, a frame with no typed character, no backspace and no
shortcut leaves the text unchanged and the cursor at `max (c - 1) 0` when only the left
arrow is just pressed, `min (c + 1) len(Text)` when only the right arrow, 0 when only
home, and `len(Text)` when only end. -/
theorem navigation_keys (tf : TextField) (inp : Input) (hU : tf.Uneditable = false)
    (hA : (clickStep (blinkStep tf) inp).IsActive = true)
    (h0 : 0 ≤ tf.CursorPosition) (h1 : tf.CursorPosition ≤ (tf.Text.length : Int))
    (hchars : inp.inputChars = []) (hbs : inp.backspaceJustPressed = false)
    (hhold : inp.backspacePressed = false) (ha : inp.aJustPressed = false)
    (hv : inp.vJustPressed = false) :
    (inp.arrowLeftJustPressed = true → inp.arrowRightJustPressed = false →
        inp.homeJustPressed = false → inp.endJustPressed = false →
        textAndCursor (Update tf inp) = .ok (tf.Text, max (tf.CursorPosition - 1) 0)) ∧
      (inp.arrowLeftJustPressed = false → inp.arrowRightJustPressed = true →
        inp.homeJustPressed = false → inp.endJustPressed = false →
        textAndCursor (Update tf inp)
          = .ok (tf.Text, min (tf.CursorPosition + 1) (tf.Text.length : Int))) ∧
      (inp.arrowLeftJustPressed = false → inp.arrowRightJustPressed = false →
        inp.homeJustPressed = true → inp.endJustPressed = false →
        textAndCursor (Update tf inp) = .ok (tf.Text, 0)) ∧
      (inp.arrowLeftJustPressed = false → inp.arrowRightJustPressed = false →
        inp.homeJustPressed = false → inp.endJustPressed = true →
        textAndCursor (Update tf inp) = .ok (tf.Text, (tf.Text.length : Int))) := by
  obtain ⟨hT, hC, _⟩ := clickStep_blinkStep_Text tf inp
  have hnav := navigation_frame tf inp hU hA hchars hbs hhold ha hv
  refine ⟨?_, ?_, ?_, ?_⟩
  · intro hl hr hh he
    rw [hnav]
    simp only [navigateStep, hl, hr, hh, he, hT, hC, Bool.true_and, Bool.false_and,
      Bool.false_eq_true, if_false, decide_eq_true_eq]
    by_cases hc : tf.CursorPosition > 0
    · rw [if_pos hc, max_eq_left (by omega)]
    · rw [if_neg hc, max_eq_right (by omega)]
      congr 2
      omega
  · intro hl hr hh he
    rw [hnav]
    simp only [navigateStep, hl, hr, hh, he, hT, hC, Bool.true_and, Bool.false_and,
      Bool.false_eq_true, if_false, decide_eq_true_eq]
    by_cases hc : tf.CursorPosition < (tf.Text.length : Int)
    · rw [if_pos hc, min_eq_left (by omega)]
    · rw [if_neg hc, min_eq_right (by omega)]
      congr 2
      omega
  · intro hl hr hh he
    rw [hnav]
    simp only [navigateStep, hl, hr, hh, he, hT, Bool.false_and,
      Bool.false_eq_true, if_false, if_true]
  · intro hl hr hh he
    rw [hnav]
    simp only [navigateStep, hl, hr, hh, he, hT, Bool.false_and,
      Bool.false_eq_true, if_false, if_true]

/-- C21 at the spec's example: text "h", cursor 1: left gives 0, home 0, end 1. -/
theorem navigation_keys_witness :
    textAndCursor (Update hField arrowLeftOnly) = .ok (ascii "h", 0) ∧
      textAndCursor (Update hField homeOnly) = .ok (ascii "h", 0) ∧
      textAndCursor (Update hField endOnly) = .ok (ascii "h", 1) :=
  ⟨((navigation_keys hField arrowLeftOnly rfl rfl (by decide) (by decide) rfl rfl rfl rfl
      rfl).1 rfl rfl rfl rfl).trans rfl,
    ((navigation_keys hField homeOnly rfl rfl (by decide) (by decide) rfl rfl rfl rfl
      rfl).2.2.1 rfl rfl rfl rfl).trans rfl,
    ((navigation_keys hField endOnly rfl rfl (by decide) (by decide) rfl rfl rfl rfl
      rfl).2.2.2 rfl rfl rfl rfl).trans rfl⟩

/-- C22: on an editable field that is inactive after the click step, `Update()` returns
with `Text` and `CursorPosition` unchanged, its result being the field after the blink
and click blocks; the result is the same for every typed batch, every key state and
every clipboard content or failure, so the clipboard is not consulted. -/
theorem inactive_field_ignores_keyboard (tf : TextField) (inp : Input)
    (hU : tf.Uneditable = false)
    (hI : (clickStep (blinkStep tf) inp).IsActive = false) :
    textAndCursor (Update tf inp) = .ok (tf.Text, tf.CursorPosition) ∧
      Update tf inp = .ok (clickStep (blinkStep tf) inp) ∧
      ∀ (chars : List Int) (clipboard : Option GoString) (bs left right home endKey a v
          held ctrl : Bool),
        Update tf
            { mouseLeftJustPressed := inp.mouseLeftJustPressed
              cursorX := inp.cursorX, cursorY := inp.cursorY, inputChars := chars
              backspaceJustPressed := bs, arrowLeftJustPressed := left
              arrowRightJustPressed := right, homeJustPressed := home
              endJustPressed := endKey, aJustPressed := a, vJustPressed := v
              backspacePressed := held, controlPressed := ctrl, pasteClip := clipboard }
          = Update tf inp := by
  obtain ⟨hT, hC, _⟩ := clickStep_blinkStep_Text tf inp
  have hupd := Update_of_inactive tf inp hU hI
  refine ⟨?_, hupd, ?_⟩
  · rw [hupd]
    show Except.ok ((clickStep (blinkStep tf) inp).Text,
      (clickStep (blinkStep tf) inp).CursorPosition) = _
    rw [hT, hC]
  · intro chars clipboard bs left right home endKey a v held ctrl
    rw [hupd]
    exact Update_of_inactive tf _ hU hI

/-- C22 at a new, inactive field, on a frame with typed characters, every key pressed
and a failing clipboard, but no click. -/
theorem inactive_field_ignores_keyboard_witness :
    (NewTextField none 0 0 100 30 5).Uneditable = false ∧
      (clickStep (blinkStep (NewTextField none 0 0 100 30 5)) keysNoClick).IsActive = false ∧
      keysNoClick.pasteClip = none ∧
      textAndCursor (Update (NewTextField none 0 0 100 30 5) keysNoClick) = .ok ([], 0) :=
  ⟨rfl, rfl, rfl,
    (inactive_field_ignores_keyboard (NewTextField none 0 0 100 30 5) keysNoClick rfl rfl).1⟩

/-- C23: on an editable field with a blink timer that is not negative, whenever
`Update()` returns the timer is the float32 sum of the old timer and float32(1/60) when
that sum is below 1, and 0 otherwise, so it lies in `[0, 1)`; two editable fields with
the same timer leave the same timer whatever their mode and input; `Update()` does
return when the cursor is a valid index and the clipboard read does not fail; and after
every sequence of calls on a field made by `NewTextField` the timer lies in `[0, 1)`. -/
theorem blink_timer_wraps (tf : TextField) (inp : Input) (hU : tf.Uneditable = false)
    (h0 : 0 ≤ tf.CursorBlinkTimer) :
    (∀ tf1, Update tf inp = .ok tf1 →
        tf1.CursorBlinkTimer =
            (if f32 (tf.CursorBlinkTimer + f32 (1 / 60)) < 1 then
              f32 (tf.CursorBlinkTimer + f32 (1 / 60))
            else 0) ∧
          0 ≤ tf1.CursorBlinkTimer ∧ tf1.CursorBlinkTimer < 1) ∧
      (∀ (other : TextField) (frame : Input) (r1 r2 : TextField),
        other.Uneditable = false → other.CursorBlinkTimer = tf.CursorBlinkTimer →
        Update tf inp = .ok r1 → Update other frame = .ok r2 →
        r2.CursorBlinkTimer = r1.CursorBlinkTimer) ∧
      (0 ≤ tf.CursorPosition → tf.CursorPosition ≤ (tf.Text.length : Int) →
        ¬ pasteFails tf inp → ∃ tf1, Update tf inp = .ok tf1) ∧
      (∀ (DefaultFont : FontFace) (x y width height : ℚ) (N : Int) (ops : List Op)
          (tfn : TextField),
        run (NewTextField DefaultFont x y width height N) ops = .ok tfn →
        0 ≤ tfn.CursorBlinkTimer ∧ tfn.CursorBlinkTimer < 1) := by
  refine ⟨?_, ?_, ?_, ?_⟩
  · intro tf1 h
    have hb := Update_blink tf tf1 inp hU h
    refine ⟨?_, ?_⟩
    · rw [hb, blinkNext_eq]
    · rw [hb]
      exact blinkNext_range _ h0
  · intro other frame r1 r2 hU2 ht e1 e2
    rw [Update_blink tf r1 inp hU e1, Update_blink other r2 frame hU2 e2, ht]
  · intro c0 c1 hnf
    have hout := Update_outcome tf.MaxLength tf inp ⟨rfl, c0, c1⟩
    rw [if_neg hnf] at hout
    obtain ⟨tf1, e1, _⟩ := hout
    exact ⟨tf1, e1⟩
  · intro DefaultFont x y width height N ops tfn h
    have hnew : blinkInRange (NewTextField DefaultFont x y width height N) :=
      ⟨le_refl _, by show (0 : ℚ) < 1; norm_num⟩
    exact run_blinkInRange ops _ tfn hnew h

/-- C23 at the sample field, on a frame with the left arrow just pressed. -/
theorem blink_timer_wraps_witness :
    sampleField.Uneditable = false ∧ (0 : ℚ) ≤ sampleField.CursorBlinkTimer ∧
      sampleField.CursorBlinkTimer < 1 ∧
      ∃ tf1, Update sampleField arrowLeftOnly = .ok tf1 ∧
        0 ≤ tf1.CursorBlinkTimer ∧ tf1.CursorBlinkTimer < 1 := by
  have h0 : (0 : ℚ) ≤ sampleField.CursorBlinkTimer := le_refl _
  have h1 : sampleField.CursorBlinkTimer < 1 := by
    show (0 : ℚ) < 1
    norm_num
  have hw := blink_timer_wraps sampleField arrowLeftOnly rfl h0
  obtain ⟨tf1, e1⟩ := hw.2.2.1 (by decide) (by decide) (fun hf => by cases hf.2.2.1)
  exact ⟨rfl, h0, h1, tf1, e1, (hw.1 tf1 e1).2⟩

/-- C24: for every capacity `N ≥ 0` and every sequence of calls on a field made by
`NewTextField(..., N)` in which each typed character has a code point from 0 to 127,
whatever the key states, clipboard strings and `SetValue` arguments: when the sequence
runs through, `len(Text) ≤ N` and `0 ≤ CursorPosition ≤ len(Text)` hold at its end (so
after every call, each prefix being such a sequence), and it runs through unless some
`Update()` of the sequence had a failing clipboard read. -/
theorem single_byte_typing_keeps_bounds (DefaultFont : FontFace) (x y width height : ℚ)
    (N : Int) (hN : 0 ≤ N) (ops : List Op) (hops : ∀ op ∈ ops, op.typesSingleBytes) :
    (∀ tf, run (NewTextField DefaultFont x y width height N) ops = .ok tf →
        (tf.Text.length : Int) ≤ N ∧ 0 ≤ tf.CursorPosition ∧
          tf.CursorPosition ≤ (tf.Text.length : Int)) ∧
      (∀ e, run (NewTextField DefaultFont x y width height N) ops = .error e →
        e = Panic.clipboardFailure ∧ ∃ inp, Op.update inp ∈ ops ∧ inp.pasteClip = none) := by
  have hrun := run_bounded N hN ops _ (NewTextField_bounded DefaultFont x y width height N hN)
    hops
  constructor
  · intro tf htf
    rcases hrun with ⟨tf1, h1, hb⟩ | ⟨he, _⟩
    · rw [h1] at htf
      cases htf
      exact ⟨hb.2, hb.1.2.1, hb.1.2.2⟩
    · rw [he] at htf
      cases htf
  · intro e he
    rcases hrun with ⟨tf1, h1, _⟩ | ⟨he1, hex⟩
    · rw [h1] at he
      cases he
    · rw [he1] at he
      cases he
      exact ⟨rfl, hex⟩

/-- C24 at capacity 3: activating, typing "hello", pasting "world" and setting the value
"hello" runs through and ends within the bounds. -/
theorem single_byte_typing_keeps_bounds_witness :
    (0 : Int) ≤ 3 ∧
      ∃ tf, run (NewTextField none 0 0 100 30 3)
          [Op.activate, Op.update (typing [0x68, 0x65, 0x6C, 0x6C, 0x6F]),
            Op.update (pasteFrame (ascii "world")), Op.setValue (ascii "hello")] = .ok tf ∧
        (tf.Text.length : Int) ≤ 3 ∧ 0 ≤ tf.CursorPosition ∧
        tf.CursorPosition ≤ (tf.Text.length : Int) :=
  ⟨by decide, _, rfl,
    (single_byte_typing_keeps_bounds none 0 0 100 30 3 (by decide)
      [Op.activate, Op.update (typing [0x68, 0x65, 0x6C, 0x6C, 0x6F]),
        Op.update (pasteFrame (ascii "world")), Op.setValue (ascii "hello")]
      (by
        intro op hop
        simp only [List.mem_cons, List.mem_singleton, List.not_mem_nil, or_false] at hop
        rcases hop with rfl | rfl | rfl | rfl
        · trivial
        · intro ch hch
          simp only [typing, List.mem_cons, List.not_mem_nil, or_false] at hch
          rcases hch with rfl | rfl | rfl | rfl | rfl <;> decide
        · intro ch hch
          simp only [pasteFrame, idle, List.not_mem_nil] at hch
        · trivial)).1 _ rfl⟩

/-- C6 as stated fails on the code. A field of capacity 5 given the value "abc",
activated and made uneditable is active with room for two more bytes; on a Control+V
frame with "hello" in the clipboard `Update()` leaves "abc" and the cursor 3, where the
claim has "abche" and 5. On the active, editable sample field ("abc", cursor 1, capacity
5) a Control+V frame that also brings a fresh press outside the bounds leaves "abc" and
1, where the claim has "ahebc" and 3. -/
theorem paste_counterexample :
    (∃ tf, run (NewTextField none 0 0 100 30 5) (lockSteps (ascii "abc")) = .ok tf ∧
        tf.IsActive = true ∧ tf.Text = ascii "abc" ∧ tf.CursorPosition = 3 ∧
        tf.MaxLength - (tf.Text.length : Int) = 2 ∧
        textAndCursor (Update tf (pasteFrame (ascii "hello"))) = .ok (ascii "abc", 3) ∧
        tf.Text.take 3 ++ (ascii "hello").take 2 ++ tf.Text.drop 3 = ascii "abche") ∧
      (sampleField.IsActive = true ∧ sampleField.Uneditable = false ∧
        sampleField.MaxLength - (sampleField.Text.length : Int) = 2 ∧
        (pressOutside (pasteFrame (ascii "hello"))).vJustPressed = true ∧
        (pressOutside (pasteFrame (ascii "hello"))).controlPressed = true ∧
        (pressOutside (pasteFrame (ascii "hello"))).pasteClip = some (ascii "hello") ∧
        textAndCursor (Update sampleField (pressOutside (pasteFrame (ascii "hello"))))
          = .ok (ascii "abc", 1) ∧
        sampleField.Text.take 1 ++ (ascii "hello").take 2 ++ sampleField.Text.drop 1
          = ascii "ahebc") :=
  ⟨⟨_, rfl, rfl, rfl, rfl, rfl, rfl, rfl⟩, rfl, rfl, rfl, rfl, rfl, rfl,
    pressOutside_frame sampleField (pasteFrame (ascii "hello")) rfl (le_refl _), rfl⟩

/-- C21 as stated fails on the code. A field of capacity 10 given the value "h",
activated and made uneditable is active with the cursor 1; `Update()` with only the left
arrow just pressed, and with only home just pressed, leaves the cursor at 1, where the
claim has 0 for both. -/
theorem navigation_keys_counterexample :
    ∃ tf, run (NewTextField none 0 0 100 30 10) (lockSteps (ascii "h")) = .ok tf ∧
      tf.IsActive = true ∧ tf.Text = ascii "h" ∧ tf.CursorPosition = 1 ∧
      max (tf.CursorPosition - 1) 0 = 0 ∧
      textAndCursor (Update tf arrowLeftOnly) = .ok (ascii "h", 1) ∧
      textAndCursor (Update tf homeOnly) = .ok (ascii "h", 1) :=
  ⟨_, rfl, rfl, rfl, rfl, rfl, rfl, rfl⟩

end textfield

end Interact
